import Mathlib

/-!
# YAFF force-field kernels: pair potentials, displacement list, internal coordinates

A shallow embedding of `yaff/pair_pot.c`, `yaff/dlist.c` and `yaff/pes/iclist.c`.

Conventions of the embedding.

* A C `double` is an element of a linear ordered field `α` (the rationals for
  executable examples, the reals for the kernels that call `sqrt`, `exp`, ...).
  Rounding, infinities and NaN are not part of this model; the literal `0.5` is
  `1 / 2`. Where a statement is about just these, the kernel concerned is
  embedded once more over the type `double` of the section "Double-precision
  arithmetic", whose operations round as the machine does.
* Division, `sqrt` and `acos` are the total functions of the library: `x / 0` is
  `0`, `Real.sqrt` of a negative number is `0`, and `Real.arccos` clamps its
  argument to `[-1, 1]`, where C gives an infinity or NaN. A statement that
  depends on a divisor being non-zero or on an argument being in the domain has
  to say so itself; `checked_div` is the division that records a zero divisor,
  and `iclist_back_checked` is the back pass that records one.
* A C `long` is an `Int`.
* A buffer that is addressed through stored indices (`pos`, `gradient`, the
  table `deltas`) is a function `Int → _` from offsets to cells; a slice that is
  only walked front to back (`nlist`, `scaling`, `ictab`) is a `List`, its C
  size argument being the length of the list.
* A pointer that may be `NULL` is an `Option`.
* A call through a `NULL` function pointer has no result: the functions that
  may perform one return an `Option`.
-/

namespace Yaff

/-! ## pair_pot.c : descriptor -/

/-- The kernel signature `double pair_fn(void *pair_data, long center_index,
long other_index, double d, double *g)`. The type `D` stands for what the
`void*` points to. The `Bool` says whether `g` is non-`NULL`; the result is the
returned energy and the content of `*g` after the call (only meaningful when
`g` was non-`NULL`). -/
abbrev pair_fn_type (α : Type) (D : Type) : Type :=
  D → Int → Int → α → Bool → α × α

/-- What the field `pair_fn` of the descriptor points to. The scan hands the
kernel the pointer `pair_data` as it stands in the descriptor, `NULL` or not:
`on_data` is the kernel on a parameter block; `on_null` is the kernel on a
`NULL` block, which is `none` for a kernel that reads through the pointer (the
call has no result then) and the function of the remaining arguments for a
kernel that does not read it. -/
structure pair_fn_ptr (α : Type) (D : Type) where
  on_data : pair_fn_type α D
  on_null : Option (Int → Int → α → Bool → α × α)

/-- The descriptor `pair_pot_type`: parameter block, kernel and cutoff. -/
structure pair_pot_type (α : Type) (D : Type) where
  pair_data : Option D
  pair_fn : Option (pair_fn_ptr α D)
  cutoff : α

/-- Source `pair_pot_new` (the allocation succeeding). -/
def pair_pot_new {α : Type} [LinearOrderedField α] {D : Type} : pair_pot_type α D :=
  { pair_data := none, pair_fn := none, cutoff := 0 }

/-- Source `pair_pot_ready`. -/
def pair_pot_ready {α : Type} {D : Type} (pair_pot : pair_pot_type α D) : Bool :=
  pair_pot.pair_data.isSome && pair_pot.pair_fn.isSome

/-- Source `pair_pot_get_cutoff`. -/
def pair_pot_get_cutoff {α : Type} {D : Type} (pair_pot : pair_pot_type α D) : α :=
  pair_pot.cutoff

/-- Source `pair_pot_set_cutoff`. -/
def pair_pot_set_cutoff {α : Type} {D : Type} (pair_pot : pair_pot_type α D) (cutoff : α) :
    pair_pot_type α D :=
  { pair_pot with cutoff := cutoff }

/-- Source `pair_data_free`. -/
def pair_data_free {α : Type} {D : Type} (pair_pot : pair_pot_type α D) : pair_pot_type α D :=
  { pair_pot with pair_data := none, pair_fn := none }

/-! ## pair_pot.c : the scan -/

/-- A row of the scaling list: `scaling[k].i` and `scaling[k].scale`. -/
structure scaling_row_type (α : Type) where
  i : Int
  scale : α

/-- A row of the neighbour list, with the fields the scan reads. -/
structure nlist_row_type (α : Type) where
  i : Int
  d : α
  dx : α
  dy : α
  dz : α
  r0 : Int
  r1 : Int
  r2 : Int

/-- The `while` loop of `get_scaling` together with the two statements after
it, entered with `*counter < size`. The result is the returned scale and the
final value of `*counter`. Every read `scaling[*counter]` carries the proof that
the index is below `size`. -/
def get_scaling_while {α : Type} [LinearOrderedField α] (scaling : List (scaling_row_type α))
    (other_index : Int) (counter : Nat) (h : counter < scaling.length) : α × Nat :=
  if scaling[counter].i < other_index then
    if h1 : counter + 1 ≥ scaling.length then (1, counter + 1)
    else get_scaling_while scaling other_index (counter + 1) (by omega)
  else if scaling[counter].i = other_index then (scaling[counter].scale, counter)
  else (1, counter)
termination_by scaling.length - counter

/-- Source `get_scaling`; `size` is `scaling.length`. The result is the returned
scale and the value of `*counter` on return. -/
def get_scaling {α : Type} [LinearOrderedField α] (scaling : List (scaling_row_type α))
    (center_index other_index : Int) (counter : Nat) : α × Nat :=
  if other_index = center_index then (0, counter)
  else if h : counter ≥ scaling.length then (1, counter)
  else get_scaling_while scaling other_index counter (by omega)

/-- The call `(*pair_pot).pair_fn((*pair_pot).pair_data, ...)`. The source tests
neither pointer: the call has no result when the kernel pointer is `NULL`, and
with a kernel attached the kernel is run on `pair_data` as it is, `NULL`
included. -/
def pair_fn_call {α : Type} {D : Type} (pair_pot : pair_pot_type α D)
    (center_index other_index : Int) (d : α) (g : Bool) : Option (α × α) :=
  match pair_pot.pair_fn with
  | none => none
  | some pair_fn =>
    match pair_pot.pair_data with
    | some pair_data => some (pair_fn.on_data pair_data center_index other_index d g)
    | none =>
      match pair_fn.on_null with
      | none => none
      | some on_null => some (on_null center_index other_index d g)

/-- The statement `buf[k] += v`. -/
def add_at {α : Type} [LinearOrderedField α] (buf : Int → α) (k : Int) (v : α) : Int → α :=
  Function.update buf k (buf k + v)

/-- The statement `buf[k] -= v`. -/
def sub_at {α : Type} [LinearOrderedField α] (buf : Int → α) (k : Int) (v : α) : Int → α :=
  Function.update buf k (buf k - v)

/-- The variables of `pair_pot_energy_gradient` that live across iterations of
its loop. -/
structure scan_state (α : Type) where
  energy : α
  scaling_counter : Nat
  gradient : Option (Int → α)

/-- The lines "Find the scale" of the loop body: the scale `s` and the scaling
counter afterwards. -/
def select_scale {α : Type} [LinearOrderedField α] (center_index : Int)
    (scaling : List (scaling_row_type α)) (scaling_counter : Nat) (row : nlist_row_type α) :
    α × Nat :=
  if row.r0 = 0 ∧ row.r1 = 0 ∧ row.r2 = 0 then
    get_scaling scaling center_index row.i scaling_counter
  else (1 / 2, scaling_counter)

/-- The six gradient updates of the loop body, in source order, for the value
`g` already multiplied by `s`. -/
def scatter_pair {α : Type} [LinearOrderedField α] (gradient : Int → α)
    (center_index other_index : Int) (row : nlist_row_type α) (g : α) : Int → α :=
  let g0 := add_at gradient (3 * center_index) (row.dx * g)
  let g1 := add_at g0 (3 * center_index + 1) (row.dy * g)
  let g2 := add_at g1 (3 * center_index + 2) (row.dz * g)
  let g3 := sub_at g2 (3 * other_index) (row.dx * g)
  let g4 := sub_at g3 (3 * other_index + 1) (row.dy * g)
  sub_at g4 (3 * other_index + 2) (row.dz * g)

/-- The part of the loop body under `if (s > 0.0)`, for the scale `s`: the new
values of `energy` and of the gradient buffer. -/
def accumulate {α : Type} [LinearOrderedField α] {D : Type} (center_index : Int)
    (pair_pot : pair_pot_type α D) (energy : α) (gradient : Option (Int → α))
    (row : nlist_row_type α) (s : α) : Option (α × Option (Int → α)) :=
  match gradient with
  | none =>
    match pair_fn_call pair_pot center_index row.i row.d false with
    | none => none
    | some r => some (energy + s * r.1, none)
  | some gradient =>
    match pair_fn_call pair_pot center_index row.i row.d true with
    | none => none
    | some r =>
      some (energy + s * r.1, some (scatter_pair gradient center_index row.i row (r.2 * s)))

/-- One iteration of the loop of `pair_pot_energy_gradient`. -/
def scan_row {α : Type} [LinearOrderedField α] {D : Type} (center_index : Int)
    (scaling : List (scaling_row_type α)) (pair_pot : pair_pot_type α D)
    (st : scan_state α) (row : nlist_row_type α) : Option (scan_state α) :=
  if row.d < pair_pot.cutoff then
    let sc := select_scale center_index scaling st.scaling_counter row
    if sc.1 > 0 then
      match accumulate center_index pair_pot st.energy st.gradient row sc.1 with
      | none => none
      | some eg => some { energy := eg.1, scaling_counter := sc.2, gradient := eg.2 }
    else some { st with scaling_counter := sc.2 }
  else some st

/-- The loop of `pair_pot_energy_gradient` over the rows that are left. -/
def scan_loop {α : Type} [LinearOrderedField α] {D : Type} (center_index : Int)
    (scaling : List (scaling_row_type α)) (pair_pot : pair_pot_type α D) :
    List (nlist_row_type α) → scan_state α → Option (scan_state α)
  | [], st => some st
  | row :: rest, st =>
    match scan_row center_index scaling pair_pot st row with
    | none => none
    | some st1 => scan_loop center_index scaling pair_pot rest st1

/-- Source `pair_pot_energy_gradient`: the returned energy and the gradient
buffer on return (`none` for `gradient == NULL`). -/
def pair_pot_energy_gradient {α : Type} [LinearOrderedField α] {D : Type} (center_index : Int)
    (nlist : List (nlist_row_type α)) (scaling : List (scaling_row_type α))
    (pair_pot : pair_pot_type α D) (gradient : Option (Int → α)) :
    Option (α × Option (Int → α)) :=
  match scan_loop center_index scaling pair_pot nlist
      { energy := 0, scaling_counter := 0, gradient := gradient } with
  | none => none
  | some st => some (st.energy, st.gradient)

/-! ## dlist.c -/

/-- A row of the displacement table: the six doubles `dx, dy, dz, gx, gy, gz`
and the atom indices `i`, `j`. -/
structure dlist_row_type (α : Type) where
  dx : α
  dy : α
  dz : α
  gx : α
  gy : α
  gz : α
  i : Int
  j : Int

/-- The minimum-image helper `mic(double *delta, double *rvecs, double *gvecs,
long nvec)` of `mic.c`, which is not part of these sources, is a parameter of
this type: it rewrites the three doubles of the displacement. -/
abbrev mic_type (α : Type) : Type :=
  α × α × α → (Int → α) → (Int → α) → Int → α × α × α

/-- The body of the loop of `dlist_forward` for the row `delta`. -/
def dlist_forward_row {α : Type} [LinearOrderedField α] (mic : mic_type α) (pos : Int → α)
    (rvecs gvecs : Int → α) (nvec : Int) (delta : dlist_row_type α) : dlist_row_type α :=
  let dx := pos (3 * delta.i) - pos (3 * delta.j)
  let dy := pos (3 * delta.i + 1) - pos (3 * delta.j + 1)
  let dz := pos (3 * delta.i + 2) - pos (3 * delta.j + 2)
  let d := if nvec > 0 then mic (dx, dy, dz) rvecs gvecs nvec else (dx, dy, dz)
  { delta with dx := d.1, dy := d.2.1, dz := d.2.2, gx := 0, gy := 0, gz := 0 }

/-- Source `dlist_forward`: the table after the pass. -/
def dlist_forward {α : Type} [LinearOrderedField α] (mic : mic_type α) (pos : Int → α)
    (rvecs gvecs : Int → α) (nvec : Int) (deltas : Int → dlist_row_type α) (ndelta : Nat) :
    Int → dlist_row_type α :=
  (List.range ndelta).foldl
    (fun deltas (k : Nat) =>
      Function.update deltas (k : Int)
        (dlist_forward_row mic pos rvecs gvecs nvec (deltas (k : Int))))
    deltas

/-- The body of the loop of `dlist_back` for the row `delta`: six updates of the
gradient buffer, in source order. -/
def dlist_back_row {α : Type} [LinearOrderedField α] (gradient : Int → α)
    (delta : dlist_row_type α) : Int → α :=
  let g0 := add_at gradient (3 * delta.i) delta.gx
  let g1 := add_at g0 (3 * delta.i + 1) delta.gy
  let g2 := add_at g1 (3 * delta.i + 2) delta.gz
  let g3 := sub_at g2 (3 * delta.j) delta.gx
  let g4 := sub_at g3 (3 * delta.j + 1) delta.gy
  sub_at g4 (3 * delta.j + 2) delta.gz

/-- Source `dlist_back`: the gradient buffer after the pass. The table `deltas`
is only read. -/
def dlist_back {α : Type} [LinearOrderedField α] (gradient : Int → α)
    (deltas : Int → dlist_row_type α) (ndelta : Nat) : Int → α :=
  (List.range ndelta).foldl
    (fun gradient (k : Nat) => dlist_back_row gradient (deltas (k : Int))) gradient

/-! ## iclist.c -/

/-- A row of the internal-coordinate table. The kind is an index into the
tables of eight kernels. -/
structure iclist_row_type where
  kind : Fin 8
  i0 : Int
  i1 : Int
  i2 : Int
  sign0 : Int
  sign1 : Int
  sign2 : Int
  value : ℝ
  grad : ℝ

/-- The type `ic_forward_type`. -/
abbrev ic_forward_type : Type :=
  iclist_row_type → (Int → dlist_row_type ℝ) → ℝ

/-- Source `forward_bond`. -/
noncomputable def forward_bond : ic_forward_type := fun ic deltas =>
  let delta := deltas ic.i0
  Real.sqrt (delta.dx * delta.dx + delta.dy * delta.dy + delta.dz * delta.dz)

/-- Source `forward_bend_cos`. -/
noncomputable def forward_bend_cos : ic_forward_type := fun ic deltas =>
  let delta0 := deltas ic.i0
  let delta1 := deltas ic.i1
  let d0 := Real.sqrt (delta0.dx * delta0.dx + delta0.dy * delta0.dy + delta0.dz * delta0.dz)
  let d1 := Real.sqrt (delta1.dx * delta1.dx + delta1.dy * delta1.dy + delta1.dz * delta1.dz)
  if d0 = 0 ∨ d1 = 0 then 0
  else
    let dot := delta0.dx * delta1.dx + delta0.dy * delta1.dy + delta0.dz * delta1.dz
    ((ic.sign0 * ic.sign1 : Int) : ℝ) * dot / d0 / d1

/-- Source `forward_bend_angle`. -/
noncomputable def forward_bend_angle : ic_forward_type := fun ic deltas =>
  let c := forward_bend_cos ic deltas
  Real.arccos c

/-- Source `forward_dihed_cos`. -/
noncomputable def forward_dihed_cos : ic_forward_type := fun ic deltas =>
  let delta0 := deltas ic.i0
  let delta1 := deltas ic.i1
  let delta2 := deltas ic.i2
  let tmp1 := Real.sqrt (delta1.dx * delta1.dx + delta1.dy * delta1.dy + delta1.dz * delta1.dz)
  let tmp0 := (delta0.dx * delta1.dx + delta0.dy * delta1.dy + delta0.dz * delta1.dz) / tmp1
  let tmp2 := (delta1.dx * delta2.dx + delta1.dy * delta2.dy + delta1.dz * delta2.dz) / tmp1
  let a0 := delta0.dx - tmp0 * delta1.dx / tmp1
  let a1 := delta0.dy - tmp0 * delta1.dy / tmp1
  let a2 := delta0.dz - tmp0 * delta1.dz / tmp1
  let b0 := delta2.dx - tmp2 * delta1.dx / tmp1
  let b1 := delta2.dy - tmp2 * delta1.dy / tmp1
  let b2 := delta2.dz - tmp2 * delta1.dz / tmp1
  let tmp0 := Real.sqrt (a0 * a0 + a1 * a1 + a2 * a2)
  let tmp2 := Real.sqrt (b0 * b0 + b1 * b1 + b2 * b2)
  let tmp1 := a0 * b0 + a1 * b1 + a2 * b2
  ((ic.sign0 * ic.sign2 : Int) : ℝ) * tmp1 / tmp0 / tmp2

/-- The guard "against round-off errors" of the angle kernels: `c` clamped to
`[-1, 1]`. -/
noncomputable def clamp_cos (c : ℝ) : ℝ :=
  if c > 1 then 1 else if c < -1 then -1 else c

/-- Source `forward_dihed_angle`. -/
noncomputable def forward_dihed_angle : ic_forward_type := fun ic deltas =>
  let c := forward_dihed_cos ic deltas
  Real.arccos (clamp_cos c)

/-- Source `forward_oop_cos`. -/
noncomputable def forward_oop_cos : ic_forward_type := fun ic deltas =>
  let delta0 := deltas ic.i0
  let delta1 := deltas ic.i1
  let delta2 := deltas ic.i2
  let n0 := delta0.dy * delta1.dz - delta0.dz * delta1.dy
  let n1 := delta0.dz * delta1.dx - delta0.dx * delta1.dz
  let n2 := delta0.dx * delta1.dy - delta0.dy * delta1.dx
  let n_sq := n0 * n0 + n1 * n1 + n2 * n2
  let tmp0 := delta2.dx * delta2.dx + delta2.dy * delta2.dy + delta2.dz * delta2.dz
  let tmp1 := n0 * delta2.dx + n1 * delta2.dy + n2 * delta2.dz
  Real.sqrt (1 - tmp1 * tmp1 / tmp0 / n_sq)

/-- Source `forward_oop_angle`. -/
noncomputable def forward_oop_angle : ic_forward_type := fun ic deltas =>
  let c := forward_oop_cos ic deltas
  Real.arccos (clamp_cos c)

/-- The table `ic_forward_fns`. -/
noncomputable def ic_forward_fns : Fin 8 → ic_forward_type :=
  ![forward_bond, forward_bend_cos, forward_bend_angle, forward_dihed_cos, forward_dihed_angle,
    forward_bond, forward_oop_cos, forward_oop_angle]

/-- Source `iclist_forward`: the table `ictab` after the pass. -/
noncomputable def iclist_forward (deltas : Int → dlist_row_type ℝ)
    (ictab : List iclist_row_type) : List iclist_row_type :=
  ictab.map (fun ic => { ic with value := ic_forward_fns ic.kind ic deltas, grad := 0 })

/-- The type `ic_back_type`; the result is the table `deltas` after the call. -/
abbrev ic_back_type : Type :=
  iclist_row_type → (Int → dlist_row_type ℝ) → ℝ → ℝ → (Int → dlist_row_type ℝ)

/-- The statement `(*delta).gx += v` for `delta = deltas + k`. -/
def add_gx {α : Type} [LinearOrderedField α] (deltas : Int → dlist_row_type α) (k : Int)
    (v : α) : Int → dlist_row_type α :=
  Function.update deltas k { deltas k with gx := (deltas k).gx + v }

/-- The statement `(*delta).gy += v` for `delta = deltas + k`. -/
def add_gy {α : Type} [LinearOrderedField α] (deltas : Int → dlist_row_type α) (k : Int)
    (v : α) : Int → dlist_row_type α :=
  Function.update deltas k { deltas k with gy := (deltas k).gy + v }

/-- The statement `(*delta).gz += v` for `delta = deltas + k`. -/
def add_gz {α : Type} [LinearOrderedField α] (deltas : Int → dlist_row_type α) (k : Int)
    (v : α) : Int → dlist_row_type α :=
  Function.update deltas k { deltas k with gz := (deltas k).gz + v }

/-- Source `back_bond`. The displacement fields read here are not written by the
updates, so they are read once from the table on entry (the same holds in the
other `back_` kernels). -/
noncomputable def back_bond : ic_back_type := fun ic deltas value grad =>
  let delta := deltas ic.i0
  let x := grad / value
  let deltas_1 := add_gx deltas ic.i0 (x * delta.dx)
  let deltas_2 := add_gy deltas_1 ic.i0 (x * delta.dy)
  add_gz deltas_2 ic.i0 (x * delta.dz)

/-- Source `back_bend_cos`. -/
noncomputable def back_bend_cos : ic_back_type := fun ic deltas value grad =>
  let delta0 := deltas ic.i0
  let delta1 := deltas ic.i1
  let d0 := Real.sqrt (delta0.dx * delta0.dx + delta0.dy * delta0.dy + delta0.dz * delta0.dz)
  let d1 := Real.sqrt (delta1.dx * delta1.dx + delta1.dy * delta1.dy + delta1.dz * delta1.dz)
  let e0_0 := delta0.dx / d0
  let e0_1 := delta0.dy / d0
  let e0_2 := delta0.dz / d0
  let e1_0 := delta1.dx / d1
  let e1_1 := delta1.dy / d1
  let e1_2 := delta1.dz / d1
  let fac := ((ic.sign0 * ic.sign1 : Int) : ℝ)
  let grad := grad * fac
  let value := value * fac
  let fac := grad / d0
  let deltas_1 := add_gx deltas ic.i0 (fac * (e1_0 - value * e0_0))
  let deltas_2 := add_gy deltas_1 ic.i0 (fac * (e1_1 - value * e0_1))
  let deltas_3 := add_gz deltas_2 ic.i0 (fac * (e1_2 - value * e0_2))
  let fac := grad / d1
  let deltas_4 := add_gx deltas_3 ic.i1 (fac * (e0_0 - value * e1_0))
  let deltas_5 := add_gy deltas_4 ic.i1 (fac * (e0_1 - value * e1_1))
  add_gz deltas_5 ic.i1 (fac * (e0_2 - value * e1_2))

/-- Source `back_bend_angle`. -/
noncomputable def back_bend_angle : ic_back_type := fun ic deltas value grad =>
  back_bend_cos ic deltas (Real.cos value) (-grad / Real.sin value)

/-- Source `back_dihed_cos`. -/
noncomputable def back_dihed_cos : ic_back_type := fun ic deltas value grad =>
  let delta0 := deltas ic.i0
  let delta1 := deltas ic.i1
  let delta2 := deltas ic.i2
  let n1 := Real.sqrt (delta1.dx * delta1.dx + delta1.dy * delta1.dy + delta1.dz * delta1.dz)
  let dot0 := delta0.dx * delta1.dx + delta0.dy * delta1.dy + delta0.dz * delta1.dz
  let dot2 := delta1.dx * delta2.dx + delta1.dy * delta2.dy + delta1.dz * delta2.dz
  let a_0 := delta0.dx - dot0 * delta1.dx / (n1 * n1)
  let a_1 := delta0.dy - dot0 * delta1.dy / (n1 * n1)
  let a_2 := delta0.dz - dot0 * delta1.dz / (n1 * n1)
  let b_0 := delta2.dx - dot2 * delta1.dx / (n1 * n1)
  let b_1 := delta2.dy - dot2 * delta1.dy / (n1 * n1)
  let b_2 := delta2.dz - dot2 * delta1.dz / (n1 * n1)
  let na := Real.sqrt (a_0 * a_0 + a_1 * a_1 + a_2 * a_2)
  let nb := Real.sqrt (b_0 * b_0 + b_1 * b_1 + b_2 * b_2)
  let value := value * ((ic.sign0 * ic.sign2 : Int) : ℝ)
  let grad := grad * ((ic.sign0 * ic.sign2 : Int) : ℝ)
  let dcos_da_0 := (b_0 / nb - value * a_0 / na) / na
  let dcos_db_0 := (a_0 / na - value * b_0 / nb) / nb
  let dcos_da_1 := (b_1 / nb - value * a_1 / na) / na
  let dcos_db_1 := (a_1 / na - value * b_1 / nb) / nb
  let dcos_da_2 := (b_2 / nb - value * a_2 / na) / na
  let dcos_db_2 := (a_2 / na - value * b_2 / nb) / nb
  let da_ddel0_0 := 1 - delta1.dx * delta1.dx / (n1 * n1)
  let da_ddel0_1 := - delta1.dx * delta1.dy / (n1 * n1)
  let da_ddel0_2 := - delta1.dx * delta1.dz / (n1 * n1)
  let da_ddel0_3 := - delta1.dy * delta1.dx / (n1 * n1)
  let da_ddel0_4 := 1 - delta1.dy * delta1.dy / (n1 * n1)
  let da_ddel0_5 := - delta1.dy * delta1.dz / (n1 * n1)
  let da_ddel0_6 := - delta1.dz * delta1.dx / (n1 * n1)
  let da_ddel0_7 := - delta1.dz * delta1.dy / (n1 * n1)
  let da_ddel0_8 := 1 - delta1.dz * delta1.dz / (n1 * n1)
  let da_ddel1_0 := - dot0 / (n1 * n1) - delta0.dx * delta1.dx / (n1 * n1)
      + 2 * dot0 / (n1 * n1 * n1 * n1) * delta1.dx * delta1.dx
  let da_ddel1_1 := - delta0.dx * delta1.dy / (n1 * n1)
      + 2 * dot0 / (n1 * n1 * n1 * n1) * delta1.dx * delta1.dy
  let da_ddel1_2 := - delta0.dx * delta1.dz / (n1 * n1)
      + 2 * dot0 / (n1 * n1 * n1 * n1) * delta1.dx * delta1.dz
  let da_ddel1_3 := - delta0.dy * delta1.dx / (n1 * n1)
      + 2 * dot0 / (n1 * n1 * n1 * n1) * delta1.dy * delta1.dx
  let da_ddel1_4 := - dot0 / (n1 * n1) - delta0.dy * delta1.dy / (n1 * n1)
      + 2 * dot0 / (n1 * n1 * n1 * n1) * delta1.dy * delta1.dy
  let da_ddel1_5 := - delta0.dy * delta1.dz / (n1 * n1)
      + 2 * dot0 / (n1 * n1 * n1 * n1) * delta1.dy * delta1.dz
  let da_ddel1_6 := - delta0.dz * delta1.dx / (n1 * n1)
      + 2 * dot0 / (n1 * n1 * n1 * n1) * delta1.dz * delta1.dx
  let da_ddel1_7 := - delta0.dz * delta1.dy / (n1 * n1)
      + 2 * dot0 / (n1 * n1 * n1 * n1) * delta1.dz * delta1.dy
  let da_ddel1_8 := - dot0 / (n1 * n1) - delta0.dz * delta1.dz / (n1 * n1)
      + 2 * dot0 / (n1 * n1 * n1 * n1) * delta1.dz * delta1.dz
  let db_ddel1_0 := - dot2 / (n1 * n1) - delta2.dx * delta1.dx / (n1 * n1)
      + 2 * dot2 / (n1 * n1 * n1 * n1) * delta1.dx * delta1.dx
  let db_ddel1_1 := - delta2.dx * delta1.dy / (n1 * n1)
      + 2 * dot2 / (n1 * n1 * n1 * n1) * delta1.dx * delta1.dy
  let db_ddel1_2 := - delta2.dx * delta1.dz / (n1 * n1)
      + 2 * dot2 / (n1 * n1 * n1 * n1) * delta1.dx * delta1.dz
  let db_ddel1_3 := - delta2.dy * delta1.dx / (n1 * n1)
      + 2 * dot2 / (n1 * n1 * n1 * n1) * delta1.dy * delta1.dx
  let db_ddel1_4 := - dot2 / (n1 * n1) - delta2.dy * delta1.dy / (n1 * n1)
      + 2 * dot2 / (n1 * n1 * n1 * n1) * delta1.dy * delta1.dy
  let db_ddel1_5 := - delta2.dy * delta1.dz / (n1 * n1)
      + 2 * dot2 / (n1 * n1 * n1 * n1) * delta1.dy * delta1.dz
  let db_ddel1_6 := - delta2.dz * delta1.dx / (n1 * n1)
      + 2 * dot2 / (n1 * n1 * n1 * n1) * delta1.dz * delta1.dx
  let db_ddel1_7 := - delta2.dz * delta1.dy / (n1 * n1)
      + 2 * dot2 / (n1 * n1 * n1 * n1) * delta1.dz * delta1.dy
  let db_ddel1_8 := - dot2 / (n1 * n1) - delta2.dz * delta1.dz / (n1 * n1)
      + 2 * dot2 / (n1 * n1 * n1 * n1) * delta1.dz * delta1.dz
  let deltas_1 := add_gx deltas ic.i0 (grad * (dcos_da_0 * da_ddel0_0 + dcos_da_1 * da_ddel0_3
      + dcos_da_2 * da_ddel0_6))
  let deltas_2 := add_gy deltas_1 ic.i0 (grad * (dcos_da_0 * da_ddel0_1
      + dcos_da_1 * da_ddel0_4 + dcos_da_2 * da_ddel0_7))
  let deltas_3 := add_gz deltas_2 ic.i0 (grad * (dcos_da_0 * da_ddel0_2
      + dcos_da_1 * da_ddel0_5 + dcos_da_2 * da_ddel0_8))
  let deltas_4 := add_gx deltas_3 ic.i1 (grad * (dcos_da_0 * da_ddel1_0
      + dcos_da_1 * da_ddel1_3 + dcos_da_2 * da_ddel1_6 + dcos_db_0 * db_ddel1_0
      + dcos_db_1 * db_ddel1_3 + dcos_db_2 * db_ddel1_6))
  let deltas_5 := add_gy deltas_4 ic.i1 (grad * (dcos_da_0 * da_ddel1_1
      + dcos_da_1 * da_ddel1_4 + dcos_da_2 * da_ddel1_7 + dcos_db_0 * db_ddel1_1
      + dcos_db_1 * db_ddel1_4 + dcos_db_2 * db_ddel1_7))
  let deltas_6 := add_gz deltas_5 ic.i1 (grad * (dcos_da_0 * da_ddel1_2
      + dcos_da_1 * da_ddel1_5 + dcos_da_2 * da_ddel1_8 + dcos_db_0 * db_ddel1_2
      + dcos_db_1 * db_ddel1_5 + dcos_db_2 * db_ddel1_8))
  let deltas_7 := add_gx deltas_6 ic.i2 (grad * (dcos_db_0 * da_ddel0_0
      + dcos_db_1 * da_ddel0_3 + dcos_db_2 * da_ddel0_6))
  let deltas_8 := add_gy deltas_7 ic.i2 (grad * (dcos_db_0 * da_ddel0_1
      + dcos_db_1 * da_ddel0_4 + dcos_db_2 * da_ddel0_7))
  add_gz deltas_8 ic.i2 (grad * (dcos_db_0 * da_ddel0_2 + dcos_db_1 * da_ddel0_5
      + dcos_db_2 * da_ddel0_8))

/-- Source `back_dihed_angle`. -/
noncomputable def back_dihed_angle : ic_back_type := fun ic deltas value grad =>
  let tmp := Real.sin value
  let tmp := if tmp ≠ 0 then -grad / tmp else tmp
  back_dihed_cos ic deltas (Real.cos value) tmp

/-- Source `back_oop_cos`. -/
noncomputable def back_oop_cos : ic_back_type := fun ic deltas value grad =>
  let delta0 := deltas ic.i0
  let delta1 := deltas ic.i1
  let delta2 := deltas ic.i2
  let d0_cross_d1_0 := delta0.dy * delta1.dz - delta0.dz * delta1.dy
  let d0_cross_d1_1 := delta0.dz * delta1.dx - delta0.dx * delta1.dz
  let d0_cross_d1_2 := delta0.dx * delta1.dy - delta0.dy * delta1.dx
  let d1_cross_d2_0 := delta1.dy * delta2.dz - delta1.dz * delta2.dy
  let d1_cross_d2_1 := delta1.dz * delta2.dx - delta1.dx * delta2.dz
  let d1_cross_d2_2 := delta1.dx * delta2.dy - delta1.dy * delta2.dx
  let d2_cross_d0_0 := delta2.dy * delta0.dz - delta2.dz * delta0.dy
  let d2_cross_d0_1 := delta2.dz * delta0.dx - delta2.dx * delta0.dz
  let d2_cross_d0_2 := delta2.dx * delta0.dy - delta2.dy * delta0.dx
  let n_0 := d0_cross_d1_0
  let n_1 := d0_cross_d1_1
  let n_2 := d0_cross_d1_2
  let n_sq := n_0 * n_0 + n_1 * n_1 + n_2 * n_2
  let d2_sq := delta2.dx * delta2.dx + delta2.dy * delta2.dy + delta2.dz * delta2.dz
  let n_dot_d2 := n_0 * delta2.dx + n_1 * delta2.dy + n_2 * delta2.dz
  let fac := n_dot_d2 / d2_sq / n_sq
  let deltas_1 := add_gx deltas ic.i0 (-fac / value * grad * (d1_cross_d2_0 - n_dot_d2 / n_sq
      * (delta1.dy * n_2 - delta1.dz * n_1)))
  let deltas_2 := add_gy deltas_1 ic.i0 (-fac / value * grad * (d1_cross_d2_1
      - n_dot_d2 / n_sq * (delta1.dz * n_0 - delta1.dx * n_2)))
  let deltas_3 := add_gz deltas_2 ic.i0 (-fac / value * grad * (d1_cross_d2_2
      - n_dot_d2 / n_sq * (delta1.dx * n_1 - delta1.dy * n_0)))
  let deltas_4 := add_gx deltas_3 ic.i1 (-fac / value * grad * (d2_cross_d0_0
      - n_dot_d2 / n_sq * (delta0.dz * n_1 - delta0.dy * n_2)))
  let deltas_5 := add_gy deltas_4 ic.i1 (-fac / value * grad * (d2_cross_d0_1
      - n_dot_d2 / n_sq * (delta0.dx * n_2 - delta0.dz * n_0)))
  let deltas_6 := add_gz deltas_5 ic.i1 (-fac / value * grad * (d2_cross_d0_2
      - n_dot_d2 / n_sq * (delta0.dy * n_0 - delta0.dx * n_1)))
  let deltas_7 := add_gx deltas_6 ic.i2 (-fac / value * grad * (d0_cross_d1_0
      - n_dot_d2 / d2_sq * delta2.dx))
  let deltas_8 := add_gy deltas_7 ic.i2 (-fac / value * grad * (d0_cross_d1_1
      - n_dot_d2 / d2_sq * delta2.dy))
  add_gz deltas_8 ic.i2 (-fac / value * grad * (d0_cross_d1_2 - n_dot_d2 / d2_sq * delta2.dz))

/-- Source `back_oop_angle`. -/
noncomputable def back_oop_angle : ic_back_type := fun ic deltas value grad =>
  let tmp := Real.sin value
  let tmp := if tmp ≠ 0 then -grad / tmp else tmp
  back_oop_cos ic deltas (Real.cos value) tmp

/-- The table `ic_back_fns`. -/
noncomputable def ic_back_fns : Fin 8 → ic_back_type :=
  ![back_bond, back_bend_cos, back_bend_angle, back_dihed_cos, back_dihed_angle,
    back_bond, back_oop_cos, back_oop_angle]

/-- Source `iclist_back`: the table `deltas` after the pass. -/
noncomputable def iclist_back (deltas : Int → dlist_row_type ℝ)
    (ictab : List iclist_row_type) : Int → dlist_row_type ℝ :=
  ictab.foldl (fun deltas ic => ic_back_fns ic.kind ic deltas ic.value ic.grad) deltas


/-! ## pair_pot.c : the kernels -/

/-- The parameter block `pair_data_lj_type`: the per-atom arrays `sigma` and
`epsilon`. -/
structure pair_data_lj_type where
  sigma : Int → ℝ
  epsilon : Int → ℝ

/-- Source `pair_fn_lj`. The three statements `x = sigma/d; x *= x; x *= x*x`
are the three bindings of `x`. -/
noncomputable def pair_fn_lj : pair_fn_type ℝ pair_data_lj_type :=
  fun pair_data center_index other_index d g =>
    let sigma := 1 / 2 * (pair_data.sigma center_index + pair_data.sigma other_index)
    let epsilon := Real.sqrt (pair_data.epsilon center_index * pair_data.epsilon other_index)
    let x := sigma / d
    let x := x * x
    let x := x * (x * x)
    (4 * epsilon * (x * (x - 1)),
      if g then 24 * epsilon / sigma / d / d * x * (1 - 2 * x) else 0)

/-- Source `pair_data_lj_init` (the allocation succeeding). The kernel attached
is `pair_fn_lj`, which reads `sigma` and `epsilon` through `pair_data` in its
first statement, so it has no result on a `NULL` block. -/
noncomputable def pair_data_lj_init {D : Type} (pair_pot : pair_pot_type ℝ D)
    (sigma epsilon : Int → ℝ) : pair_pot_type ℝ pair_data_lj_type :=
  { pair_data := some { sigma := sigma, epsilon := epsilon },
    pair_fn := some { on_data := pair_fn_lj, on_null := none },
    cutoff := pair_pot.cutoff }

/-- The parameter block `pair_data_ei_type`: the per-atom array `charges` and
`alpha`. -/
structure pair_data_ei_type where
  charges : Int → ℝ
  alpha : ℝ

/-- The C library function `erfc`, the complementary error function
`1 - 2/sqrt(pi) * integral of exp(-t*t) for t from 0 to x`. -/
noncomputable def erfc (x : ℝ) : ℝ :=
  1 - 2 / Real.sqrt Real.pi * ∫ t in (0 : ℝ)..x, Real.exp (-(t * t))

/-- Modelled from the spec: the macro `M_TWO_DIV_SQRT_PI`, whose definition is
in a header that is not part of these sources; the specification writes the
term it stands in as `2α/√π`. -/
noncomputable def M_TWO_DIV_SQRT_PI : ℝ := 2 / Real.sqrt Real.pi

/-- Source `pair_fn_ei`. The variable `x` is assigned and read only under
`alpha > 0`. -/
noncomputable def pair_fn_ei : pair_fn_type ℝ pair_data_ei_type :=
  fun pair_data center_index other_index d g =>
    let qprod := pair_data.charges center_index * pair_data.charges other_index
    let alpha := pair_data.alpha
    let x := alpha * d
    let pot := if alpha > 0 then erfc x / d else 1 / d
    let g1 := if alpha > 0 then (-M_TWO_DIV_SQRT_PI * alpha * Real.exp (-x * x) - pot) / d
      else -pot / d
    let g2 := g1 * (qprod / d)
    (pot * qprod, if g then g2 else 0)

/-- Source `pair_data_ei_init` (the allocation succeeding). The kernel attached
is `pair_fn_ei`, which reads `charges` through `pair_data` in its first
statement, so it has no result on a `NULL` block. -/
noncomputable def pair_data_ei_init {D : Type} (pair_pot : pair_pot_type ℝ D)
    (charges : Int → ℝ) (alpha : ℝ) : pair_pot_type ℝ pair_data_ei_type :=
  { pair_data := some { charges := charges, alpha := alpha },
    pair_fn := some { on_data := pair_fn_ei, on_null := none },
    cutoff := pair_pot.cutoff }

/-! ## The scale by lookup, as the specification words it -/

/-- Words of the specification, "if it now equals `other_index`, use its scale;
otherwise use 1.0": the scale of the first record of the scaling list whose
index is `other_index`, and `1` when there is none. No cursor is involved. -/
def scaling_lookup {α : Type} [LinearOrderedField α] :
    List (scaling_row_type α) → Int → α
  | [], _ => 1
  | r :: rest, other_index =>
    if r.i = other_index then r.scale else scaling_lookup rest other_index

/-- Words of the specification for the scale of a neighbour row: `0` for the
centre itself, the looked-up scale for another home-image neighbour, `1/2` for
a periodic image. -/
def scale_by_lookup {α : Type} [LinearOrderedField α] (center_index : Int)
    (scaling : List (scaling_row_type α)) (row : nlist_row_type α) : α :=
  if row.r0 = 0 ∧ row.r1 = 0 ∧ row.r2 = 0 then
    if row.i = center_index then 0 else scaling_lookup scaling row.i
  else 1 / 2

/-- One row of the scan with the scale taken by lookup instead of through the
scaling counter. -/
def scan_row_by_lookup {α : Type} [LinearOrderedField α] {D : Type} (center_index : Int)
    (scaling : List (scaling_row_type α)) (pair_pot : pair_pot_type α D)
    (eg : α × Option (Int → α)) (row : nlist_row_type α) : Option (α × Option (Int → α)) :=
  if row.d < pair_pot.cutoff then
    if scale_by_lookup center_index scaling row > 0 then
      accumulate center_index pair_pot eg.1 eg.2 row (scale_by_lookup center_index scaling row)
    else some eg
  else some eg

/-- The scan with the scale taken by lookup. -/
def scan_by_lookup {α : Type} [LinearOrderedField α] {D : Type} (center_index : Int)
    (scaling : List (scaling_row_type α)) (pair_pot : pair_pot_type α D) :
    List (nlist_row_type α) → α × Option (Int → α) → Option (α × Option (Int → α))
  | [], eg => some eg
  | row :: rest, eg =>
    match scan_row_by_lookup center_index scaling pair_pot eg row with
    | none => none
    | some eg1 => scan_by_lookup center_index scaling pair_pot rest eg1

/-- The scaling counter `counter` has not run past `other_index`: every record
before it has a smaller index. -/
def cursor_ok {α : Type} (scaling : List (scaling_row_type α)) (counter : Nat)
    (other_index : Int) : Prop :=
  ∀ r ∈ scaling.take counter, r.i < other_index

/-- The rows for which the scan calls `get_scaling`: home image, within the
cutoff. -/
def calls_get_scaling {α : Type} [LinearOrderedField α] (cutoff : α) (row : nlist_row_type α) :
    Bool :=
  decide (row.d < cutoff) && decide (row.r0 = 0 ∧ row.r1 = 0 ∧ row.r2 = 0)

/-- The home-image rows of the neighbour list with other index `j`. -/
def is_home_row_of {α : Type} (j : Int) (row : nlist_row_type α) : Bool :=
  decide (row.r0 = 0 ∧ row.r1 = 0 ∧ row.r2 = 0) && decide (row.i = j)

/-! ## Concrete inputs for the examples -/

/-- A kernel for the examples: pair energy `1`, derivative over distance `1`. -/
def unit_pair_fn : pair_fn_type ℚ Unit := fun _ _ _ _ _ => (1, 1)

/-- The kernel `unit_pair_fn` as a descriptor holds it: it does not read its
parameter block, so it returns the same on a `NULL` block. -/
def unit_pair_fn_ptr : pair_fn_ptr ℚ Unit :=
  { on_data := unit_pair_fn, on_null := some (unit_pair_fn ()) }

/-- A ready descriptor with the kernel `unit_pair_fn` and cutoff `2`. -/
def unit_pair_pot : pair_pot_type ℚ Unit :=
  { pair_data := some (), pair_fn := some unit_pair_fn_ptr, cutoff := 2 }

/-- A descriptor that is not ready: the kernel `unit_pair_fn` is attached, the
parameter block is `NULL`; cutoff `2`. -/
def unit_pair_pot_no_data : pair_pot_type ℚ Unit :=
  { pair_data := none, pair_fn := some unit_pair_fn_ptr, cutoff := 2 }

/-- A home-image neighbour row at distance `1` along `x` with other index `j`. -/
def home_row (j : Int) : nlist_row_type ℚ :=
  { i := j, d := 1, dx := 1, dy := 0, dz := 0, r0 := 0, r1 := 0, r2 := 0 }

/-- A scaling list for the examples: atom `1` excluded, atom `2` scaled by `1/2`. -/
def scaling_12 : List (scaling_row_type ℚ) :=
  [{ i := 1, scale := 0 }, { i := 2, scale := 1 / 2 }]

/-- A periodic-image neighbour row (offset `(1,0,0)`) at distance `1` with other
index `j`. -/
def image_row (j : Int) : nlist_row_type ℚ :=
  { i := j, d := 1, dx := 1, dy := 0, dz := 0, r0 := 1, r1 := 0, r2 := 0 }

/-! ## The single-bond scenario -/

/-- Positions of two atoms at `(0,0,0)` and `(1.2,0,0)`. -/
noncomputable def single_bond_pos : Int → ℝ := fun k => if k = 3 then 6 / 5 else 0

/-- A displacement table whose row `0` is the pair `(i, j) = (0, 1)`. -/
def single_bond_deltas : Int → dlist_row_type ℝ := fun _ =>
  { dx := 0, dy := 0, dz := 0, gx := 0, gy := 0, gz := 0, i := 0, j := 1 }

/-- An internal-coordinate table with one row of kind `0` (bond) on row `0` of
the displacement table. -/
def single_bond_ictab : List iclist_row_type :=
  [{ kind := 0, i0 := 0, i1 := 0, i2 := 0, sign0 := 1, sign1 := 1, sign2 := 1,
     value := 0, grad := 0 }]

/-- A stand-in for `mic`, never called when `nvec = 0`. -/
def mic_identity : mic_type ℝ := fun delta _ _ _ => delta

/-- The scenario after `dlist_forward` and `iclist_forward` with `nvec = 0`: the
internal-coordinate table. -/
noncomputable def single_bond_forward : List iclist_row_type :=
  iclist_forward
    (dlist_forward mic_identity single_bond_pos (fun _ => 0) (fun _ => 0) 0 single_bond_deltas 1)
    single_bond_ictab

/-- The scenario after the forward passes, `ic.grad = 1.0`, `iclist_back` and
`dlist_back` on a zeroed atomic gradient: the atomic gradient. -/
noncomputable def single_bond_gradient : Int → ℝ :=
  let deltas :=
    dlist_forward mic_identity single_bond_pos (fun _ => 0) (fun _ => 0) 0 single_bond_deltas 1
  let ictab := (iclist_forward deltas single_bond_ictab).map (fun ic => { ic with grad := 1 })
  dlist_back (fun _ => 0) (iclist_back deltas ictab) 1

/-! ## Concrete inputs for the kernels -/

/-- Lennard-Jones parameters `sigma = 2`, `epsilon = 1` for every atom. -/
def lj_sigma_two : pair_data_lj_type := { sigma := fun _ => 2, epsilon := fun _ => 1 }

/-- Lennard-Jones parameters `sigma = 1`, `epsilon = 1` for every atom. -/
def lj_unit : pair_data_lj_type := { sigma := fun _ => 1, epsilon := fun _ => 1 }

/-- Unit charges without damping (`alpha = 0`). -/
def ei_coulomb : pair_data_ei_type := { charges := fun _ => 1, alpha := 0 }

/-- Unit charges with `alpha = 1/2`. -/
noncomputable def ei_damped : pair_data_ei_type := { charges := fun _ => 1, alpha := 1 / 2 }

/-! ## Concrete inputs for the internal coordinates -/

/-- A displacement table in which every row is the zero displacement. -/
def zero_deltas : Int → dlist_row_type ℝ := fun _ =>
  { dx := 0, dy := 0, dz := 0, gx := 0, gy := 0, gz := 0, i := 0, j := 0 }

/-- A row of kind `2` (bend angle) on the rows `0` and `1` of the displacement
table, with both signs `+1`. -/
def bend_angle_row : iclist_row_type :=
  { kind := 2, i0 := 0, i1 := 1, i2 := 0, sign0 := 1, sign1 := 1, sign2 := 1,
    value := 0, grad := 0 }

/-- The argument of `sqrt` in the last line of `forward_oop_cos`. -/
noncomputable def forward_oop_cos_arg (ic : iclist_row_type)
    (deltas : Int → dlist_row_type ℝ) : ℝ :=
  let delta0 := deltas ic.i0
  let delta1 := deltas ic.i1
  let delta2 := deltas ic.i2
  let n0 := delta0.dy * delta1.dz - delta0.dz * delta1.dy
  let n1 := delta0.dz * delta1.dx - delta0.dx * delta1.dz
  let n2 := delta0.dx * delta1.dy - delta0.dy * delta1.dx
  let n_sq := n0 * n0 + n1 * n1 + n2 * n2
  let tmp0 := delta2.dx * delta2.dx + delta2.dy * delta2.dy + delta2.dz * delta2.dz
  let tmp1 := n0 * delta2.dx + n1 * delta2.dy + n2 * delta2.dz
  1 - tmp1 * tmp1 / tmp0 / n_sq

/-- A displacement table whose row `0` is `(1,0,0)` and whose other rows are
`(3,4,0)`, with zeroed accumulators. -/
def bend_deltas : Int → dlist_row_type ℝ := fun k =>
  if k = 0 then { dx := 1, dy := 0, dz := 0, gx := 0, gy := 0, gz := 0, i := 1, j := 0 }
  else { dx := 3, dy := 4, dz := 0, gx := 0, gy := 0, gz := 0, i := 2, j := 1 }

/-- A row of kind `1` (bend cosine) on the rows `0` and `1` of the displacement
table, with `sign0 = +1` and `sign1 = -1`. -/
def bend_cos_row : iclist_row_type :=
  { kind := 1, i0 := 0, i1 := 1, i2 := 0, sign0 := 1, sign1 := -1, sign2 := 1,
    value := 0, grad := 0 }

/-! ## Division with the divisor checked -/

/-- The quotient `x / y` of two doubles, with a zero divisor recorded as `none`. -/
noncomputable def checked_div (x y : ℝ) : Option ℝ :=
  if y = 0 then none else some (x / y)

/-- The scalar that `back_bend_angle` passes on, `-grad/sin(value)`, with the
division checked. -/
noncomputable def back_bend_angle_scalar (value grad : ℝ) : Option ℝ :=
  checked_div (-grad) (Real.sin value)

/-- The scalar `tmp` that `back_dihed_angle` passes on, with the division
checked. -/
noncomputable def back_dihed_angle_scalar (value grad : ℝ) : Option ℝ :=
  let tmp := Real.sin value
  if tmp ≠ 0 then checked_div (-grad) tmp else some tmp

/-- The scalar `tmp` that `back_oop_angle` passes on, with the division
checked. -/
noncomputable def back_oop_angle_scalar (value grad : ℝ) : Option ℝ :=
  let tmp := Real.sin value
  if tmp ≠ 0 then checked_div (-grad) tmp else some tmp

/-! ## get_scaling with counted iterations and checked reads -/

/-- What a run of the loop of `get_scaling` can end in. -/
inductive loop_result (β : Type) where
  | done (r : β) : loop_result β
  | bad_read : loop_result β
  | out_of_fuel : loop_result β

/-- The `while` loop of `get_scaling` and the two statements after it, with the
array reads `scaling[*counter]` checked against the length of the array and at
most `fuel` evaluations of the loop condition; `size` is the argument `size` of
the source. -/
def get_scaling_while_raw {α : Type} [LinearOrderedField α]
    (scaling : List (scaling_row_type α)) (size : Nat) (other_index : Int) :
    Nat → Nat → loop_result (α × Nat)
  | 0, _ => loop_result.out_of_fuel
  | fuel + 1, counter =>
    match scaling[counter]? with
    | none => loop_result.bad_read
    | some r =>
      if r.i < other_index then
        if counter + 1 ≥ size then loop_result.done (1, counter + 1)
        else get_scaling_while_raw scaling size other_index fuel (counter + 1)
      else if r.i = other_index then loop_result.done (r.scale, counter)
      else loop_result.done (1, counter)

/-- Source `get_scaling` with checked reads and counted iterations. -/
def get_scaling_raw {α : Type} [LinearOrderedField α] (scaling : List (scaling_row_type α))
    (size : Nat) (center_index other_index : Int) (fuel counter : Nat) :
    loop_result (α × Nat) :=
  if other_index = center_index then loop_result.done (0, counter)
  else if counter ≥ size then loop_result.done (1, counter)
  else get_scaling_while_raw scaling size other_index fuel counter

/-! ## The norms of the projections in forward_dihed_cos -/

/-- A row of kind `3` (dihedral cosine) on the rows `0`, `1`, `2` of the
displacement table, with all signs `+1`. -/
def dihed_cos_row : iclist_row_type :=
  { kind := 3, i0 := 0, i1 := 1, i2 := 2, sign0 := 1, sign1 := 1, sign2 := 1,
    value := 0, grad := 0 }

/-- A displacement table whose row `0` is `(1,0,1)`, whose row `1` is `(0,0,2)`
and whose other rows are `(3,4,5)`, with zeroed accumulators. -/
def dihed_deltas : Int → dlist_row_type ℝ := fun k =>
  if k = 0 then { dx := 1, dy := 0, dz := 1, gx := 0, gy := 0, gz := 0, i := 1, j := 0 }
  else if k = 1 then { dx := 0, dy := 0, dz := 2, gx := 0, gy := 0, gz := 0, i := 2, j := 1 }
  else { dx := 3, dy := 4, dz := 5, gx := 0, gy := 0, gz := 0, i := 3, j := 2 }

/-- A home-image neighbour row over the reals, at distance `1` along `x`, with
other index `j`. -/
def real_home_row (j : Int) : nlist_row_type ℝ :=
  { i := j, d := 1, dx := 1, dy := 0, dz := 0, r0 := 0, r1 := 0, r2 := 0 }

/-- A descriptor with the Lennard-Jones kernel, `sigma = 2` and `epsilon = 1`
for every atom, and the cutoff set to `2`. -/
noncomputable def lj_pair_pot : pair_pot_type ℝ pair_data_lj_type :=
  pair_pot_set_cutoff
    (pair_data_lj_init (pair_pot_new : pair_pot_type ℝ Unit) (fun _ => 2) (fun _ => 1)) 2

/-- A descriptor with the electrostatic kernel, unit charges, `alpha = 0`, and
the cutoff set to `2`. -/
noncomputable def ei_pair_pot : pair_pot_type ℝ pair_data_ei_type :=
  pair_pot_set_cutoff
    (pair_data_ei_init (pair_pot_new : pair_pot_type ℝ Unit) (fun _ => 1) 0) 2

/-! ## The back pass with the divisors checked -/

/-- The type of a table of divisors: for the arguments of a back kernel, the
values it divides by, in the order of their first use. -/
abbrev ic_divisors_type : Type :=
  iclist_row_type → (Int → dlist_row_type ℝ) → ℝ → ℝ → List ℝ

/-- The divisors of `back_bond`: `value`, in `x = grad/value`. -/
def back_bond_divisors : ic_divisors_type := fun _ _ value _ => [value]

/-- The divisors of `back_bend_cos`: the norms `d0` (in `e0[k]`, `fac`) and `d1`
(in `e1[k]`, `fac`). -/
noncomputable def back_bend_cos_divisors : ic_divisors_type := fun ic deltas _ _ =>
  let delta0 := deltas ic.i0
  let delta1 := deltas ic.i1
  let d0 := Real.sqrt (delta0.dx * delta0.dx + delta0.dy * delta0.dy + delta0.dz * delta0.dz)
  let d1 := Real.sqrt (delta1.dx * delta1.dx + delta1.dy * delta1.dy + delta1.dz * delta1.dz)
  [d0, d1]

/-- The divisors of `back_bend_angle`: `sin(value)`, which is not tested, and
those of the call of `back_bend_cos`. -/
noncomputable def back_bend_angle_divisors : ic_divisors_type := fun ic deltas value grad =>
  Real.sin value :: back_bend_cos_divisors ic deltas (Real.cos value) (-grad / Real.sin value)

/-- The divisors of `back_dihed_cos`: `n1*n1` (in `a`, `b`, `da_ddel0`,
`da_ddel1`, `db_ddel1`), the norms `na` and `nb` (in `dcos_da`, `dcos_db`) and
`n1*n1*n1*n1` (in `da_ddel1`, `db_ddel1`). -/
noncomputable def back_dihed_cos_divisors : ic_divisors_type := fun ic deltas _ _ =>
  let delta0 := deltas ic.i0
  let delta1 := deltas ic.i1
  let delta2 := deltas ic.i2
  let n1 := Real.sqrt (delta1.dx * delta1.dx + delta1.dy * delta1.dy + delta1.dz * delta1.dz)
  let dot0 := delta0.dx * delta1.dx + delta0.dy * delta1.dy + delta0.dz * delta1.dz
  let dot2 := delta1.dx * delta2.dx + delta1.dy * delta2.dy + delta1.dz * delta2.dz
  let a_0 := delta0.dx - dot0 * delta1.dx / (n1 * n1)
  let a_1 := delta0.dy - dot0 * delta1.dy / (n1 * n1)
  let a_2 := delta0.dz - dot0 * delta1.dz / (n1 * n1)
  let b_0 := delta2.dx - dot2 * delta1.dx / (n1 * n1)
  let b_1 := delta2.dy - dot2 * delta1.dy / (n1 * n1)
  let b_2 := delta2.dz - dot2 * delta1.dz / (n1 * n1)
  let na := Real.sqrt (a_0 * a_0 + a_1 * a_1 + a_2 * a_2)
  let nb := Real.sqrt (b_0 * b_0 + b_1 * b_1 + b_2 * b_2)
  [n1 * n1, na, nb, n1 * n1 * n1 * n1]

/-- The divisors of `back_dihed_angle`: `sin(value)` when it is non-zero (the
division is under `if (tmp!=0.0)`), and those of the call of `back_dihed_cos`. -/
noncomputable def back_dihed_angle_divisors : ic_divisors_type := fun ic deltas value grad =>
  let tmp := Real.sin value
  (if tmp ≠ 0 then [tmp] else [])
    ++ back_dihed_cos_divisors ic deltas (Real.cos value) (if tmp ≠ 0 then -grad / tmp else tmp)

/-- The divisors of `back_oop_cos`: `d2_sq` and `n_sq` (in `fac` and in the
brackets) and `value` (in `-fac/value`). -/
noncomputable def back_oop_cos_divisors : ic_divisors_type := fun ic deltas value _ =>
  let delta0 := deltas ic.i0
  let delta1 := deltas ic.i1
  let delta2 := deltas ic.i2
  let n_0 := delta0.dy * delta1.dz - delta0.dz * delta1.dy
  let n_1 := delta0.dz * delta1.dx - delta0.dx * delta1.dz
  let n_2 := delta0.dx * delta1.dy - delta0.dy * delta1.dx
  let n_sq := n_0 * n_0 + n_1 * n_1 + n_2 * n_2
  let d2_sq := delta2.dx * delta2.dx + delta2.dy * delta2.dy + delta2.dz * delta2.dz
  [d2_sq, n_sq, value]

/-- The divisors of `back_oop_angle`: `sin(value)` when it is non-zero, and
those of the call of `back_oop_cos`, whose `value` is `cos(value)`. -/
noncomputable def back_oop_angle_divisors : ic_divisors_type := fun ic deltas value grad =>
  let tmp := Real.sin value
  (if tmp ≠ 0 then [tmp] else [])
    ++ back_oop_cos_divisors ic deltas (Real.cos value) (if tmp ≠ 0 then -grad / tmp else tmp)

/-- The divisors of the kernels of the table `ic_back_fns`, kind by kind. -/
noncomputable def ic_back_divisors : Fin 8 → ic_divisors_type :=
  ![back_bond_divisors, back_bend_cos_divisors, back_bend_angle_divisors,
    back_dihed_cos_divisors, back_dihed_angle_divisors, back_bond_divisors,
    back_oop_cos_divisors, back_oop_angle_divisors]

/-- One iteration of the loop of `iclist_back` with the divisions checked: the
table after the call of the back kernel, or `none` when the kernel divides by
zero (the doubles it then adds to the accumulators are infinities or NaN, not
numbers). -/
noncomputable def ic_back_checked (ic : iclist_row_type) (deltas : Int → dlist_row_type ℝ) :
    Option (Int → dlist_row_type ℝ) :=
  if ∀ y ∈ ic_back_divisors ic.kind ic deltas ic.value ic.grad, y ≠ 0 then
    some (ic_back_fns ic.kind ic deltas ic.value ic.grad)
  else none

/-- Source `iclist_back` with the divisions checked. -/
noncomputable def iclist_back_checked (deltas : Int → dlist_row_type ℝ) :
    List iclist_row_type → Option (Int → dlist_row_type ℝ)
  | [] => some deltas
  | ic :: rest =>
    match ic_back_checked ic deltas with
    | none => none
    | some deltas_1 => iclist_back_checked deltas_1 rest

/-- A displacement table whose row `0` is `(1,0,0)`, whose row `1` is `(0,1,0)`
and whose other rows are `(0,0,1)`, with zeroed accumulators. -/
def xyz_deltas : Int → dlist_row_type ℝ := fun k =>
  if k = 0 then { dx := 1, dy := 0, dz := 0, gx := 0, gy := 0, gz := 0, i := 1, j := 0 }
  else if k = 1 then { dx := 0, dy := 1, dz := 0, gx := 0, gy := 0, gz := 0, i := 2, j := 0 }
  else { dx := 0, dy := 0, dz := 1, gx := 0, gy := 0, gz := 0, i := 3, j := 0 }

/-- A row of kind `6` (out-of-plane cosine) on the rows `0`, `1`, `2` of the
displacement table. -/
def oop_cos_row : iclist_row_type :=
  { kind := 6, i0 := 0, i1 := 1, i2 := 2, sign0 := 1, sign1 := 1, sign2 := 1,
    value := 0, grad := 0 }

/-- A row of kind `0` (bond) on the row `0` of the displacement table. -/
def bond_row : iclist_row_type :=
  { kind := 0, i0 := 0, i1 := 0, i2 := 0, sign0 := 1, sign1 := 1, sign2 := 1,
    value := 0, grad := 0 }

/-! ## Double-precision arithmetic

The two claims about the arguments of `sqrt` and `acos` are claims about the
doubles themselves, so the kernels concerned are embedded a second time over
the type `double` below, with every operation rounded as IEEE 754 binary64
arithmetic rounds it (to nearest, ties to even). Two things are left out: the
exponent is not bounded (no overflow, no underflow, no subnormal numbers), and
the sign of a zero is not kept. -/

/-- A C `double`: the finite number `m * 2^e`, an infinity, or NaN. A finite
value is kept normalised: zero is `fin 0 0`, and otherwise
`2^52 ≤ |m| < 2^53`. -/
inductive double where
  | fin (m : Int) (e : Int) : double
  | inf (negative : Bool) : double
  | nan : double
deriving DecidableEq

/-- The number of binary digits of `a`, for `a` below `2^fuel`. -/
def bit_length_fuel : Nat → Nat → Nat
  | 0, _ => 0
  | fuel + 1, a => if a = 0 then 0 else bit_length_fuel fuel (a / 2) + 1

/-- The number of binary digits of `a`, for `a` below `2^256`. -/
def bit_length (a : Nat) : Nat := bit_length_fuel 256 a

/-- The double nearest to the exact number `m * 2^e`: `m` is cut to 53 binary
digits, the digits cut off deciding the rounding, a tie going to the even
neighbour. -/
def double_round (m : Int) (e : Int) : double :=
  if m = 0 then double.fin 0 0
  else
    let a := m.natAbs
    let n := bit_length a
    if n ≤ 53 then double.fin (m * 2 ^ (53 - n)) (e - ((53 - n : Nat) : Int))
    else
      let k := n - 53
      let q := a / 2 ^ k
      let r := a % 2 ^ k
      let q1 := if 2 * r > 2 ^ k ∨ (2 * r = 2 ^ k ∧ q % 2 = 1) then q + 1 else q
      let s : Int := if m < 0 then -1 else 1
      if q1 = 2 ^ 53 then double.fin (s * 2 ^ 52) (e + k + 1) else double.fin (s * q1) (e + k)

/-- The conversion of a C `long` to `double`. -/
def double_of_int (n : Int) : double := double_round n 0

/-- The negation `-x` of a double. -/
def double_neg : double → double
  | double.fin m e => double.fin (-m) e
  | double.inf s => double.inf (!s)
  | double.nan => double.nan

/-- The sum `x + y` of two doubles: the exact sum, rounded. -/
def double_add : double → double → double
  | double.fin m1 e1, double.fin m2 e2 =>
    let e := min e1 e2
    double_round (m1 * 2 ^ (e1 - e).toNat + m2 * 2 ^ (e2 - e).toNat) e
  | double.fin _ _, double.inf s => double.inf s
  | double.inf s, double.fin _ _ => double.inf s
  | double.inf s1, double.inf s2 => if s1 = s2 then double.inf s1 else double.nan
  | _, _ => double.nan

/-- The difference `x - y` of two doubles. -/
def double_sub (x y : double) : double := double_add x (double_neg y)

/-- The product `x * y` of two doubles: the exact product, rounded. -/
def double_mul : double → double → double
  | double.fin m1 e1, double.fin m2 e2 => double_round (m1 * m2) (e1 + e2)
  | double.fin m _, double.inf s => if m = 0 then double.nan else double.inf (s != decide (m < 0))
  | double.inf s, double.fin m _ => if m = 0 then double.nan else double.inf (s != decide (m < 0))
  | double.inf s1, double.inf s2 => double.inf (s1 != s2)
  | _, _ => double.nan

/-- The quotient `x / y` of two doubles. For finite non-zero operands the
quotient of the mantissas is taken to 64 binary digits after the point, a
non-zero remainder is recorded in one more digit, and the result is rounded;
`0/0` is NaN and `x/0` is an infinity for `x` other than zero. -/
def double_div : double → double → double
  | double.fin m1 e1, double.fin m2 e2 =>
    if m2 = 0 then (if m1 = 0 then double.nan else double.inf (decide (m1 < 0)))
    else if m1 = 0 then double.fin 0 0
    else
      let a := m1.natAbs * 2 ^ 64
      let q := a / m2.natAbs
      let r := a % m2.natAbs
      let sticky := if r = 0 then 0 else 1
      let s : Int := if decide (m1 < 0) = decide (m2 < 0) then 1 else -1
      double_round (s * ((2 * q + sticky : Nat) : Int)) (e1 - e2 - 65)
  | double.fin _ _, double.inf _ => double.fin 0 0
  | double.inf s, double.fin m _ => double.inf (s != decide (m < 0))
  | _, _ => double.nan

/-- The integer square root of `a` digit by digit: `r` is the root found so far,
the first argument the number of binary digits still to decide. -/
def isqrt_bits (a : Nat) : Nat → Nat → Nat
  | 0, r => r
  | b + 1, r =>
    if (r + 2 ^ b) * (r + 2 ^ b) ≤ a then isqrt_bits a b (r + 2 ^ b) else isqrt_bits a b r

/-- The integer square root of `a`, for `a` below `2^128`. -/
def isqrt (a : Nat) : Nat := isqrt_bits a 64 0

/-- The C library function `sqrt` on doubles. For a positive finite operand the
mantissa is scaled by `2^64` or `2^65` (whichever leaves an even exponent), its
integer square root is taken, an inexact root is recorded in one more digit,
and the result is rounded; the square root of a negative number is NaN. -/
def double_sqrt : double → double
  | double.fin m e =>
    if m < 0 then double.nan
    else if m = 0 then double.fin 0 0
    else
      let p : Nat := if (e - 64) % 2 = 0 then 64 else 65
      let a := m.natAbs * 2 ^ p
      let s := isqrt a
      let sticky := if s * s = a then 0 else 1
      double_round ((2 * s + sticky : Nat) : Int) ((e - p) / 2 - 1)
  | double.inf s => if s then double.nan else double.inf false
  | double.nan => double.nan

/-- The comparison `x < y` of two doubles; it is false when one of them is NaN. -/
def double_lt : double → double → Bool
  | double.fin m1 e1, double.fin m2 e2 =>
    let e := min e1 e2
    decide (m1 * 2 ^ (e1 - e).toNat < m2 * 2 ^ (e2 - e).toNat)
  | double.fin _ _, double.inf s => !s
  | double.inf s, double.fin _ _ => s
  | double.inf s1, double.inf s2 => s1 && !s2
  | _, _ => false

instance : Add double := ⟨double_add⟩

instance : Sub double := ⟨double_sub⟩

instance : Mul double := ⟨double_mul⟩

instance : Div double := ⟨double_div⟩

instance : Neg double := ⟨double_neg⟩

instance (n : Nat) : OfNat double n := ⟨double_of_int n⟩

/-- Whether the C library function `acos` is defined at `c`: it returns NaN for
an argument outside `[-1, 1]` and for NaN. -/
def acos_defined (c : double) : Bool :=
  decide (c ≠ double.nan) && !(double_lt c (-1)) && !(double_lt 1 c)

/-- The guard "against round-off errors" of `forward_dihed_angle` and
`forward_oop_angle`, on doubles: `if (c > 1) c = 1; else if (c < -1) c = -1;`. -/
def clamp_cos_double (c : double) : double :=
  if double_lt 1 c then 1 else if double_lt c (-1) then -1 else c

/-- Source `forward_bend_cos`, on doubles. -/
def forward_bend_cos_double (ic : iclist_row_type) (deltas : Int → dlist_row_type double) :
    double :=
  let delta0 := deltas ic.i0
  let delta1 := deltas ic.i1
  let d0 := double_sqrt (delta0.dx * delta0.dx + delta0.dy * delta0.dy + delta0.dz * delta0.dz)
  let d1 := double_sqrt (delta1.dx * delta1.dx + delta1.dy * delta1.dy + delta1.dz * delta1.dz)
  if d0 = 0 ∨ d1 = 0 then 0
  else
    let dot := delta0.dx * delta1.dx + delta0.dy * delta1.dy + delta0.dz * delta1.dz
    double_of_int (ic.sign0 * ic.sign1) * dot / d0 / d1

/-- Source `forward_bend_angle`, on doubles, up to the call of `acos`: the value
`c` that is passed to `acos`. There is no guard between the two statements. -/
def forward_bend_angle_acos_arg (ic : iclist_row_type) (deltas : Int → dlist_row_type double) :
    double :=
  let c := forward_bend_cos_double ic deltas
  c

/-- Source `forward_oop_cos`, on doubles, up to the call of `sqrt`: the value
`1.0 - tmp1*tmp1/tmp0/n_sq` that is passed to `sqrt`. -/
def forward_oop_cos_sqrt_arg (ic : iclist_row_type) (deltas : Int → dlist_row_type double) :
    double :=
  let delta0 := deltas ic.i0
  let delta1 := deltas ic.i1
  let delta2 := deltas ic.i2
  let n0 := delta0.dy * delta1.dz - delta0.dz * delta1.dy
  let n1 := delta0.dz * delta1.dx - delta0.dx * delta1.dz
  let n2 := delta0.dx * delta1.dy - delta0.dy * delta1.dx
  let n_sq := n0 * n0 + n1 * n1 + n2 * n2
  let tmp0 := delta2.dx * delta2.dx + delta2.dy * delta2.dy + delta2.dz * delta2.dz
  let tmp1 := n0 * delta2.dx + n1 * delta2.dy + n2 * delta2.dz
  1 - tmp1 * tmp1 / tmp0 / n_sq

/-- Source `forward_oop_cos`, on doubles. -/
def forward_oop_cos_double (ic : iclist_row_type) (deltas : Int → dlist_row_type double) :
    double :=
  double_sqrt (forward_oop_cos_sqrt_arg ic deltas)

/-- Source `forward_oop_angle`, on doubles, up to the call of `acos`: the value
`c` that is passed to `acos`, after the guard. -/
def forward_oop_angle_acos_arg (ic : iclist_row_type) (deltas : Int → dlist_row_type double) :
    double :=
  let c := forward_oop_cos_double ic deltas
  clamp_cos_double c

/-- A displacement table of doubles in which every row is `(1, 0, 5)`. -/
def bend_deltas_double : Int → dlist_row_type double := fun _ =>
  { dx := 1, dy := 0, dz := 5, gx := 0, gy := 0, gz := 0, i := 1, j := 0 }

/-- A displacement table of doubles whose row `0` is `(0.1, 0, 0)`, whose row
`1` is `(0, 0.5, 0)` and whose other rows are `(0, 0, 1.7)`; the decimal
literals are the doubles nearest to them, `1/10`, `1/2` and `17/10` rounded. -/
def oop_deltas_double : Int → dlist_row_type double := fun k =>
  if k = 0 then { dx := 1 / 10, dy := 0, dz := 0, gx := 0, gy := 0, gz := 0, i := 1, j := 0 }
  else if k = 1 then { dx := 0, dy := 1 / 2, dz := 0, gx := 0, gy := 0, gz := 0, i := 2, j := 0 }
  else { dx := 0, dy := 0, dz := 17 / 10, gx := 0, gy := 0, gz := 0, i := 3, j := 0 }

/-- A displacement table of doubles whose rows `0` and `1` are `(1, 0, 0)` and
whose other rows are `(0, 0, 1)`: the first two displacements are parallel, so
their cross product `n` is zero. -/
def parallel_deltas_double : Int → dlist_row_type double := fun k =>
  if k = 0 ∨ k = 1 then { dx := 1, dy := 0, dz := 0, gx := 0, gy := 0, gz := 0, i := 1, j := 0 }
  else { dx := 0, dy := 0, dz := 1, gx := 0, gy := 0, gz := 0, i := 3, j := 0 }

/-- A row of kind `7` (out-of-plane angle) on the rows `0`, `1`, `2` of the
displacement table. -/
def oop_angle_row : iclist_row_type :=
  { kind := 7, i0 := 0, i1 := 1, i2 := 2, sign0 := 1, sign1 := 1, sign2 := 1,
    value := 0, grad := 0 }

/-! ## Theorems about the scan -/

theorem scan_loop_filter_cutoff {α : Type} [LinearOrderedField α] {D : Type} (center_index : Int)
    (scaling : List (scaling_row_type α)) (pair_pot : pair_pot_type α D)
    (nlist : List (nlist_row_type α)) (st : scan_state α) :
    scan_loop center_index scaling pair_pot
        (nlist.filter (fun row => decide (¬ (row.d ≥ pair_pot.cutoff)))) st
      = scan_loop center_index scaling pair_pot nlist st := by
  induction nlist generalizing st with
  | nil => rfl
  | cons row rest ih =>
    by_cases hd : row.d < pair_pot.cutoff
    · have hk : (row :: rest).filter (fun row => decide (¬ (row.d ≥ pair_pot.cutoff)))
          = row :: rest.filter (fun row => decide (¬ (row.d ≥ pair_pot.cutoff))) := by
        simp [List.filter_cons, hd]
      rw [hk]
      simp only [scan_loop]
      cases scan_row center_index scaling pair_pot st row with
      | none => rfl
      | some st1 => exact ih st1
    · have hk : (row :: rest).filter (fun row => decide (¬ (row.d ≥ pair_pot.cutoff)))
          = rest.filter (fun row => decide (¬ (row.d ≥ pair_pot.cutoff))) := by
        simp [List.filter_cons, hd]
      rw [hk]
      simp only [scan_loop, scan_row, if_neg hd]
      exact ih st

/-- C2 (cutoff contract): the scan gives the same energy and the same gradient
buffer on the neighbour list and on that list with every row of `d ≥ cutoff`
removed. -/
theorem pair_pot_energy_gradient_cutoff {α : Type} [LinearOrderedField α] {D : Type}
    (center_index : Int) (nlist : List (nlist_row_type α))
    (scaling : List (scaling_row_type α)) (pair_pot : pair_pot_type α D)
    (gradient : Option (Int → α)) :
    pair_pot_energy_gradient center_index nlist scaling pair_pot gradient
      = pair_pot_energy_gradient center_index
          (nlist.filter (fun row => decide (¬ (row.d ≥ pair_pot.cutoff)))) scaling pair_pot
          gradient := by
  unfold pair_pot_energy_gradient
  rw [scan_loop_filter_cutoff]

/-- C4 (periodic-image scale): for a row within the cutoff whose image offset is
not `(0,0,0)`, the scale found is `1/2` and the scaling counter is left as it
was, for every scaling list and every centre (also `other_index = center_index`);
the iteration is the accumulation with that scale. -/
theorem scan_row_periodic_image {α : Type} [LinearOrderedField α] {D : Type}
    (center_index : Int) (scaling : List (scaling_row_type α)) (pair_pot : pair_pot_type α D)
    (st : scan_state α) (row : nlist_row_type α)
    (hd : row.d < pair_pot.cutoff) (himg : ¬ (row.r0 = 0 ∧ row.r1 = 0 ∧ row.r2 = 0)) :
    select_scale center_index scaling st.scaling_counter row = (1 / 2, st.scaling_counter)
    ∧ scan_row center_index scaling pair_pot st row
        = (accumulate center_index pair_pot st.energy st.gradient row (1 / 2)).map
            (fun eg => { energy := eg.1, scaling_counter := st.scaling_counter,
                         gradient := eg.2 }) := by
  have hs : select_scale center_index scaling st.scaling_counter row
      = (1 / 2, st.scaling_counter) := by
    simp only [select_scale, if_neg himg]
  refine ⟨hs, ?_⟩
  have hpos : ((1 : α) / 2) > 0 := by positivity
  simp only [scan_row, if_pos hd, hs, if_pos hpos]
  cases accumulate center_index pair_pot st.energy st.gradient row (1 / 2) with
  | none => rfl
  | some eg => rfl

/-! ### Newton's third law for the scan -/

theorem sum_add_at {α : Type} [LinearOrderedField α] (N : Nat) (buf : Int → α)
    (k a0 c0 c : Int) (v : α) (hk : k = 3 * a0 + c0) (ha0 : 0 ≤ a0 ∧ a0 < N)
    (hc0 : 0 ≤ c0 ∧ c0 < 3) (hc : 0 ≤ c ∧ c < 3) :
    ∑ a in Finset.range N, add_at buf k v (3 * (a : Int) + c)
      = ∑ a in Finset.range N, buf (3 * (a : Int) + c) + (if c0 = c then v else 0) := by
  have hpt : ∀ a ∈ Finset.range N, add_at buf k v (3 * (a : Int) + c)
      = buf (3 * (a : Int) + c) + (if a0.toNat = a then (if c0 = c then v else 0) else 0) := by
    intro a _
    unfold add_at
    by_cases hx : 3 * (a : Int) + c = k
    · have h1 : c0 = c := by omega
      have h2 : a0.toNat = a := by omega
      rw [hx, Function.update_same, if_pos h2, if_pos h1]
    · rw [Function.update_noteq hx]
      by_cases h2 : a0.toNat = a
      · have h1 : ¬ c0 = c := by
          intro h1
          apply hx
          omega
        rw [if_pos h2, if_neg h1, add_zero]
      · rw [if_neg h2, add_zero]
  rw [Finset.sum_congr rfl hpt, Finset.sum_add_distrib, Finset.sum_ite_eq]
  have hmem : a0.toNat ∈ Finset.range N := by
    rw [Finset.mem_range]
    omega
  rw [if_pos hmem]

theorem sum_sub_at {α : Type} [LinearOrderedField α] (N : Nat) (buf : Int → α)
    (k a0 c0 c : Int) (v : α) (hk : k = 3 * a0 + c0) (ha0 : 0 ≤ a0 ∧ a0 < N)
    (hc0 : 0 ≤ c0 ∧ c0 < 3) (hc : 0 ≤ c ∧ c < 3) :
    ∑ a in Finset.range N, sub_at buf k v (3 * (a : Int) + c)
      = ∑ a in Finset.range N, buf (3 * (a : Int) + c) - (if c0 = c then v else 0) := by
  have h : sub_at buf k v = add_at buf k (-v) := by
    unfold sub_at add_at
    rw [sub_eq_add_neg]
  rw [h, sum_add_at N buf k a0 c0 c (-v) hk ha0 hc0 hc]
  by_cases h1 : c0 = c
  · rw [if_pos h1, if_pos h1, sub_eq_add_neg]
  · rw [if_neg h1, if_neg h1, sub_zero, add_zero]

theorem sum_scatter_pair {α : Type} [LinearOrderedField α] (N : Nat) (gradient : Int → α)
    (center_index other_index : Int) (row : nlist_row_type α) (g : α)
    (hcen : 0 ≤ center_index ∧ center_index < N) (hoth : 0 ≤ other_index ∧ other_index < N)
    (c : Int) (hc : 0 ≤ c ∧ c < 3) :
    ∑ a in Finset.range N, scatter_pair gradient center_index other_index row g (3 * (a : Int) + c)
      = ∑ a in Finset.range N, gradient (3 * (a : Int) + c) := by
  unfold scatter_pair
  rw [sum_sub_at N _ _ other_index 2 c _ rfl hoth (by omega) hc,
    sum_sub_at N _ _ other_index 1 c _ rfl hoth (by omega) hc,
    sum_sub_at N _ _ other_index 0 c _ (by ring) hoth (by omega) hc,
    sum_add_at N _ _ center_index 2 c _ rfl hcen (by omega) hc,
    sum_add_at N _ _ center_index 1 c _ rfl hcen (by omega) hc,
    sum_add_at N _ _ center_index 0 c _ (by ring) hcen (by omega) hc]
  ring

theorem pair_fn_call_ready {α : Type} {D : Type} (pair_pot : pair_pot_type α D)
    (hready : pair_pot_ready pair_pot = true) (center_index other_index : Int) (d : α)
    (g : Bool) : ∃ r, pair_fn_call pair_pot center_index other_index d g = some r := by
  unfold pair_pot_ready at hready
  unfold pair_fn_call
  cases hf : pair_pot.pair_fn with
  | none => simp [hf] at hready
  | some f =>
    cases hd : pair_pot.pair_data with
    | none => simp [hd] at hready
    | some data => exact ⟨_, rfl⟩

theorem scan_row_newton {α : Type} [LinearOrderedField α] {D : Type} (N : Nat)
    (center_index : Int) (scaling : List (scaling_row_type α)) (pair_pot : pair_pot_type α D)
    (hready : pair_pot_ready pair_pot = true)
    (hcen : 0 ≤ center_index ∧ center_index < N)
    (row : nlist_row_type α) (hrow : 0 ≤ row.i ∧ row.i < N)
    (st : scan_state α) (g0 : Int → α) (hg : st.gradient = some g0) :
    ∃ st1 g1, scan_row center_index scaling pair_pot st row = some st1
      ∧ st1.gradient = some g1
      ∧ ∀ c : Int, 0 ≤ c ∧ c < 3 →
          ∑ a in Finset.range N, g1 (3 * (a : Int) + c)
            = ∑ a in Finset.range N, g0 (3 * (a : Int) + c) := by
  unfold scan_row
  by_cases hd : row.d < pair_pot.cutoff
  · rw [if_pos hd]
    simp only []
    by_cases hs : (select_scale center_index scaling st.scaling_counter row).1 > 0
    · rw [if_pos hs]
      obtain ⟨r, hr⟩ := pair_fn_call_ready pair_pot hready center_index row.i row.d true
      simp only [accumulate, hg, hr]
      exact ⟨_, _, rfl, rfl, fun c hc => sum_scatter_pair N g0 center_index row.i row _ hcen hrow c hc⟩
    · rw [if_neg hs]
      exact ⟨_, g0, rfl, hg, fun _ _ => rfl⟩
  · rw [if_neg hd]
    exact ⟨st, g0, rfl, hg, fun _ _ => rfl⟩

theorem scan_loop_newton {α : Type} [LinearOrderedField α] {D : Type} (N : Nat)
    (center_index : Int) (scaling : List (scaling_row_type α)) (pair_pot : pair_pot_type α D)
    (hready : pair_pot_ready pair_pot = true)
    (hcen : 0 ≤ center_index ∧ center_index < N)
    (nlist : List (nlist_row_type α)) (hn : ∀ row ∈ nlist, 0 ≤ row.i ∧ row.i < N)
    (st : scan_state α) (g0 : Int → α) (hg : st.gradient = some g0) :
    ∃ st1 g1, scan_loop center_index scaling pair_pot nlist st = some st1
      ∧ st1.gradient = some g1
      ∧ ∀ c : Int, 0 ≤ c ∧ c < 3 →
          ∑ a in Finset.range N, g1 (3 * (a : Int) + c)
            = ∑ a in Finset.range N, g0 (3 * (a : Int) + c) := by
  induction nlist generalizing st g0 with
  | nil => exact ⟨st, g0, rfl, hg, fun _ _ => rfl⟩
  | cons row rest ih =>
    obtain ⟨st1, g1, h1, hg1, hsum1⟩ := scan_row_newton N center_index scaling pair_pot hready
      hcen row (hn row (List.mem_cons_self _ _)) st g0 hg
    obtain ⟨st2, g2, h2, hg2, hsum2⟩ := ih (fun r hr => hn r (List.mem_cons_of_mem _ hr))
      st1 g1 hg1
    refine ⟨st2, g2, ?_, hg2, fun c hc => (hsum2 c hc).trans (hsum1 c hc)⟩
    simp only [scan_loop, h1, h2]

theorem add_at_apply {α : Type} [LinearOrderedField α] (buf : Int → α) (k : Int) (v : α)
    (x : Int) : add_at buf k v x = buf x + (if x = k then v else 0) := by
  unfold add_at
  by_cases h : x = k
  · rw [h, Function.update_same, if_pos rfl]
  · rw [Function.update_noteq h, if_neg h, add_zero]

theorem sub_at_apply {α : Type} [LinearOrderedField α] (buf : Int → α) (k : Int) (v : α)
    (x : Int) : sub_at buf k v x = buf x - (if x = k then v else 0) := by
  unfold sub_at
  by_cases h : x = k
  · rw [h, Function.update_same, if_pos rfl]
  · rw [Function.update_noteq h, if_neg h, sub_zero]

theorem scatter_pair_apply {α : Type} [LinearOrderedField α] (gradient : Int → α)
    (center_index other_index : Int) (row : nlist_row_type α) (g : α) (a : Int) :
    scatter_pair gradient center_index other_index row g (3 * a)
        = gradient (3 * a) + (if center_index = a then row.dx * g else 0)
            - (if other_index = a then row.dx * g else 0)
    ∧ scatter_pair gradient center_index other_index row g (3 * a + 1)
        = gradient (3 * a + 1) + (if center_index = a then row.dy * g else 0)
            - (if other_index = a then row.dy * g else 0)
    ∧ scatter_pair gradient center_index other_index row g (3 * a + 2)
        = gradient (3 * a + 2) + (if center_index = a then row.dz * g else 0)
            - (if other_index = a then row.dz * g else 0) := by
  unfold scatter_pair
  simp only [add_at_apply, sub_at_apply]
  have e1 : ∀ b : Int, (3 * a = 3 * b) = (b = a) :=
    fun b => propext ⟨fun h => by omega, fun h => by omega⟩
  have e2 : ∀ b : Int, (3 * a = 3 * b + 1) = False := fun b => eq_false (by omega)
  have e3 : ∀ b : Int, (3 * a = 3 * b + 2) = False := fun b => eq_false (by omega)
  have e4 : ∀ b : Int, (3 * a + 1 = 3 * b) = False := fun b => eq_false (by omega)
  have e5 : ∀ b : Int, (3 * a + 1 = 3 * b + 1) = (b = a) :=
    fun b => propext ⟨fun h => by omega, fun h => by omega⟩
  have e6 : ∀ b : Int, (3 * a + 1 = 3 * b + 2) = False := fun b => eq_false (by omega)
  have e7 : ∀ b : Int, (3 * a + 2 = 3 * b) = False := fun b => eq_false (by omega)
  have e8 : ∀ b : Int, (3 * a + 2 = 3 * b + 1) = False := fun b => eq_false (by omega)
  have e9 : ∀ b : Int, (3 * a + 2 = 3 * b + 2) = (b = a) :=
    fun b => propext ⟨fun h => by omega, fun h => by omega⟩
  simp only [e1, e2, e3, e4, e5, e6, e7, e8, e9, if_false, add_zero, sub_zero]
  exact ⟨trivial, trivial, trivial⟩

theorem scatter_pair_self {α : Type} [LinearOrderedField α] (gradient : Int → α)
    (center_index : Int) (row : nlist_row_type α) (g : α) :
    scatter_pair gradient center_index center_index row g = gradient := by
  funext x
  unfold scatter_pair
  simp only [add_at_apply, sub_at_apply]
  split_ifs <;> ring

theorem scan_row_contribution {α : Type} [LinearOrderedField α] {D : Type}
    (center_index : Int) (scaling : List (scaling_row_type α)) (pair_pot : pair_pot_type α D)
    (st : scan_state α) (g0 : Int → α) (row : nlist_row_type α) (r : α × α)
    (hg : st.gradient = some g0)
    (hr : pair_fn_call pair_pot center_index row.i row.d true = some r)
    (hd : row.d < pair_pot.cutoff)
    (hs : (select_scale center_index scaling st.scaling_counter row).1 > 0) :
    scan_row center_index scaling pair_pot st row
      = some
        { energy := st.energy + (select_scale center_index scaling st.scaling_counter row).1 * r.1
          scaling_counter := (select_scale center_index scaling st.scaling_counter row).2
          gradient := some (scatter_pair g0 center_index row.i row
            (r.2 * (select_scale center_index scaling st.scaling_counter row).1)) } := by
  unfold scan_row
  rw [if_pos hd]
  simp only []
  rw [if_pos hs]
  simp only [accumulate, hg, hr]

theorem scan_row_no_contribution {α : Type} [LinearOrderedField α] {D : Type}
    (center_index : Int) (scaling : List (scaling_row_type α)) (pair_pot : pair_pot_type α D)
    (st : scan_state α) (row : nlist_row_type α)
    (h : ¬ row.d < pair_pot.cutoff
      ∨ ¬ (select_scale center_index scaling st.scaling_counter row).1 > 0) :
    ∃ st1, scan_row center_index scaling pair_pot st row = some st1
      ∧ st1.energy = st.energy ∧ st1.gradient = st.gradient := by
  unfold scan_row
  by_cases hd : row.d < pair_pot.cutoff
  · rw [if_pos hd]
    simp only []
    have hs : ¬ (select_scale center_index scaling st.scaling_counter row).1 > 0 := by
      rcases h with h | h
      · exact absurd hd h
      · exact h
    rw [if_neg hs]
    exact ⟨_, rfl, rfl, rfl⟩
  · rw [if_neg hd]
    exact ⟨st, rfl, rfl, rfl⟩

/-- C5 (Newton's third law for the pair scan): on a ready descriptor, with the
centre and all neighbour indices inside a gradient buffer of `N` atoms,
(1) the scan returns, and for each Cartesian component `c` the sum of the
gradient buffer over the `N` atoms is the same after the scan as before it;
(2) an iteration for a row within the cutoff whose scale `s` is positive, the
kernel having returned the energy `r.1` and the value `r.2`, adds `s * r.1` to
the energy and applies the six updates `scatter_pair` with the one value
`r.2 * s`; (3) every other iteration leaves energy and gradient buffer as they
are; (4) the six updates with the value `g` add `(dx,dy,dz) * g` to the three
cells of the centre atom and subtract the same `(dx,dy,dz) * g` from the three
cells of the other atom, and leave the cells of every other atom unchanged;
(5) when the other atom is the centre atom itself the six updates change
nothing. -/
theorem pair_pot_energy_gradient_newton {α : Type} [LinearOrderedField α] {D : Type} (N : Nat)
    (center_index : Int) (nlist : List (nlist_row_type α))
    (scaling : List (scaling_row_type α)) (pair_pot : pair_pot_type α D)
    (gradient : Int → α)
    (hready : pair_pot_ready pair_pot = true)
    (hcen : 0 ≤ center_index ∧ center_index < N)
    (hn : ∀ row ∈ nlist, 0 ≤ row.i ∧ row.i < N) :
    (∃ energy gradient1,
      pair_pot_energy_gradient center_index nlist scaling pair_pot (some gradient)
        = some (energy, some gradient1)
      ∧ ∀ c : Int, 0 ≤ c ∧ c < 3 →
          ∑ a in Finset.range N, gradient1 (3 * (a : Int) + c)
            = ∑ a in Finset.range N, gradient (3 * (a : Int) + c))
    ∧ (∀ (st : scan_state α) (g0 : Int → α) (row : nlist_row_type α),
        st.gradient = some g0 → row.d < pair_pot.cutoff →
        (select_scale center_index scaling st.scaling_counter row).1 > 0 →
        ∃ r, pair_fn_call pair_pot center_index row.i row.d true = some r
          ∧ scan_row center_index scaling pair_pot st row
            = some
              { energy := st.energy
                  + (select_scale center_index scaling st.scaling_counter row).1 * r.1
                scaling_counter := (select_scale center_index scaling st.scaling_counter row).2
                gradient := some (scatter_pair g0 center_index row.i row
                  (r.2 * (select_scale center_index scaling st.scaling_counter row).1)) })
    ∧ (∀ (st : scan_state α) (row : nlist_row_type α),
        (¬ row.d < pair_pot.cutoff
          ∨ ¬ (select_scale center_index scaling st.scaling_counter row).1 > 0) →
        ∃ st1, scan_row center_index scaling pair_pot st row = some st1
          ∧ st1.energy = st.energy ∧ st1.gradient = st.gradient)
    ∧ (∀ (g0 : Int → α) (other_index : Int) (row : nlist_row_type α) (g : α) (a : Int),
        scatter_pair g0 center_index other_index row g (3 * a)
            = g0 (3 * a) + (if center_index = a then row.dx * g else 0)
                - (if other_index = a then row.dx * g else 0)
        ∧ scatter_pair g0 center_index other_index row g (3 * a + 1)
            = g0 (3 * a + 1) + (if center_index = a then row.dy * g else 0)
                - (if other_index = a then row.dy * g else 0)
        ∧ scatter_pair g0 center_index other_index row g (3 * a + 2)
            = g0 (3 * a + 2) + (if center_index = a then row.dz * g else 0)
                - (if other_index = a then row.dz * g else 0))
    ∧ (∀ (g0 : Int → α) (row : nlist_row_type α) (g : α),
        scatter_pair g0 center_index center_index row g = g0) := by
  refine ⟨?_, ?_, ?_, ?_, ?_⟩
  · obtain ⟨st1, g1, h1, hg1, hsum⟩ := scan_loop_newton N center_index scaling pair_pot hready
      hcen nlist hn { energy := 0, scaling_counter := 0, gradient := some gradient } gradient rfl
    refine ⟨st1.energy, g1, ?_, hsum⟩
    simp only [pair_pot_energy_gradient, h1, hg1]
  · intro st g0 row hg hd hs
    obtain ⟨r, hr⟩ := pair_fn_call_ready pair_pot hready center_index row.i row.d true
    exact ⟨r, hr, scan_row_contribution center_index scaling pair_pot st g0 row r hg hr hd hs⟩
  · intro st row h
    exact scan_row_no_contribution center_index scaling pair_pot st row h
  · intro g0 other_index row g a
    exact scatter_pair_apply g0 center_index other_index row g a
  · intro g0 row g
    exact scatter_pair_self g0 center_index row g

/-! ### The scaling counter on sorted input -/

theorem scaling_lookup_of_ne {α : Type} [LinearOrderedField α]
    (l : List (scaling_row_type α)) (o : Int) (h : ∀ r ∈ l, r.i ≠ o) :
    scaling_lookup l o = 1 := by
  induction l with
  | nil => rfl
  | cons r rest ih =>
    have h1 : r.i ≠ o := h r (List.mem_cons_self _ _)
    simp only [scaling_lookup, if_neg h1]
    exact ih (fun x hx => h x (List.mem_cons_of_mem _ hx))

theorem scaling_lookup_append {α : Type} [LinearOrderedField α]
    (l1 l2 : List (scaling_row_type α)) (o : Int) (h : ∀ r ∈ l1, r.i ≠ o) :
    scaling_lookup (l1 ++ l2) o = scaling_lookup l2 o := by
  induction l1 with
  | nil => rfl
  | cons r rest ih =>
    have h1 : r.i ≠ o := h r (List.mem_cons_self _ _)
    simp only [List.cons_append, scaling_lookup, if_neg h1]
    exact ih (fun x hx => h x (List.mem_cons_of_mem _ hx))

theorem scaling_lookup_drop {α : Type} [LinearOrderedField α]
    (scaling : List (scaling_row_type α)) (c : Nat) (o : Int) (h : cursor_ok scaling c o) :
    scaling_lookup (scaling.drop c) o = scaling_lookup scaling o := by
  conv_rhs => rw [← List.take_append_drop c scaling]
  rw [scaling_lookup_append]
  intro r hr
  exact ne_of_lt (h r hr)

theorem scaling_lookup_mem {α : Type} [LinearOrderedField α]
    (scaling : List (scaling_row_type α)) (hs : scaling.Pairwise (fun a b => a.i < b.i))
    (r : scaling_row_type α) (hr : r ∈ scaling) : scaling_lookup scaling r.i = r.scale := by
  induction scaling with
  | nil => simp at hr
  | cons r0 rest ih =>
    rw [List.pairwise_cons] at hs
    rcases List.mem_cons.1 hr with h | h
    · subst h
      simp only [scaling_lookup, if_true]
    · have hlt : r0.i < r.i := hs.1 r h
      simp only [scaling_lookup, if_neg (ne_of_lt hlt)]
      exact ih hs.2 h

theorem cursor_ok_mono {α : Type} (scaling : List (scaling_row_type α)) (c : Nat)
    (o1 o2 : Int) (h : cursor_ok scaling c o1) (ho : o1 ≤ o2) : cursor_ok scaling c o2 :=
  fun r hr => lt_of_lt_of_le (h r hr) ho

theorem cursor_ok_succ {α : Type} (scaling : List (scaling_row_type α)) (c : Nat)
    (o : Int) (hc : c < scaling.length) (h : cursor_ok scaling c o) (hlt : scaling[c].i < o) :
    cursor_ok scaling (c + 1) o := by
  intro r hr
  rw [← List.take_concat_get scaling c hc, List.concat_eq_append, List.mem_append] at hr
  rcases hr with hr | hr
  · exact h r hr
  · rw [List.mem_singleton] at hr
    rw [hr]
    exact hlt

theorem get_scaling_while_spec {α : Type} [LinearOrderedField α]
    (scaling : List (scaling_row_type α)) (hs : scaling.Pairwise (fun a b => a.i < b.i))
    (o : Int) (n : Nat) :
    ∀ (c : Nat) (hc : c < scaling.length), scaling.length - c = n → cursor_ok scaling c o →
      (get_scaling_while scaling o c hc).1 = scaling_lookup scaling o
      ∧ c ≤ (get_scaling_while scaling o c hc).2
      ∧ (get_scaling_while scaling o c hc).2 ≤ scaling.length
      ∧ cursor_ok scaling (get_scaling_while scaling o c hc).2 o := by
  induction n with
  | zero =>
    intro c hc hn _
    omega
  | succ n ih =>
    intro c hc hn hok
    rw [get_scaling_while]
    by_cases hlt : scaling[c].i < o
    · simp only [if_pos hlt]
      have hok1 : cursor_ok scaling (c + 1) o := cursor_ok_succ scaling c o hc hok hlt
      by_cases hend : c + 1 ≥ scaling.length
      · simp only [dif_pos hend]
        refine ⟨?_, Nat.le_succ c, by omega, hok1⟩
        rw [← scaling_lookup_drop scaling (c + 1) o hok1, List.drop_of_length_le hend]
        rfl
      · simp only [dif_neg hend]
        obtain ⟨h1, h2, h3, h4⟩ := ih (c + 1) (by omega) (by omega) hok1
        exact ⟨h1, by omega, h3, h4⟩
    · simp only [if_neg hlt]
      have hdrop : scaling.drop c = scaling[c] :: scaling.drop (c + 1) :=
        List.drop_eq_getElem_cons hc
      by_cases heq : scaling[c].i = o
      · simp only [if_pos heq]
        refine ⟨?_, le_refl c, le_of_lt hc, hok⟩
        rw [← scaling_lookup_drop scaling c o hok, hdrop]
        simp only [scaling_lookup, if_pos heq]
      · simp only [if_neg heq]
        refine ⟨?_, le_refl c, le_of_lt hc, hok⟩
        rw [← scaling_lookup_drop scaling c o hok]
        symm
        apply scaling_lookup_of_ne
        have hpw : (scaling.drop c).Pairwise (fun a b => a.i < b.i) :=
          hs.sublist (List.drop_sublist c scaling)
        rw [hdrop, List.pairwise_cons] at hpw
        intro r hr
        rw [hdrop] at hr
        rcases List.mem_cons.1 hr with h | h
        · rw [h]
          exact heq
        · have h1 : scaling[c].i < r.i := hpw.1 r h
          omega

theorem get_scaling_spec {α : Type} [LinearOrderedField α]
    (scaling : List (scaling_row_type α)) (hs : scaling.Pairwise (fun a b => a.i < b.i))
    (center_index o : Int) (c : Nat) (hok : cursor_ok scaling c o) :
    (get_scaling scaling center_index o c).1
        = (if o = center_index then 0 else scaling_lookup scaling o)
      ∧ c ≤ (get_scaling scaling center_index o c).2
      ∧ cursor_ok scaling (get_scaling scaling center_index o c).2 o := by
  unfold get_scaling
  by_cases hcen : o = center_index
  · simp only [if_pos hcen]
    exact ⟨trivial, le_refl c, hok⟩
  · simp only [if_neg hcen]
    by_cases hend : c ≥ scaling.length
    · simp only [dif_pos hend]
      refine ⟨?_, le_refl c, hok⟩
      rw [← scaling_lookup_drop scaling c o hok, List.drop_of_length_le hend]
      rfl
    · simp only [dif_neg hend]
      obtain ⟨h1, h2, _, h4⟩ :=
        get_scaling_while_spec scaling hs o (scaling.length - c) c (by omega) rfl hok
      exact ⟨h1, h2, h4⟩

/-! ### The scan against the scan by lookup -/

theorem scan_row_eq_lookup {α : Type} [LinearOrderedField α] {D : Type} (center_index : Int)
    (scaling : List (scaling_row_type α)) (hs : scaling.Pairwise (fun a b => a.i < b.i))
    (pair_pot : pair_pot_type α D) (st : scan_state α) (row : nlist_row_type α)
    (hpre : calls_get_scaling pair_pot.cutoff row = true →
      cursor_ok scaling st.scaling_counter row.i) :
    ∃ c1 : Nat,
      scan_row center_index scaling pair_pot st row
        = (scan_row_by_lookup center_index scaling pair_pot (st.energy, st.gradient) row).map
            (fun eg => { energy := eg.1, scaling_counter := c1, gradient := eg.2 })
      ∧ (calls_get_scaling pair_pot.cutoff row = true → cursor_ok scaling c1 row.i)
      ∧ (calls_get_scaling pair_pot.cutoff row = false → c1 = st.scaling_counter) := by
  unfold scan_row scan_row_by_lookup
  by_cases hd : row.d < pair_pot.cutoff
  · by_cases hh : row.r0 = 0 ∧ row.r1 = 0 ∧ row.r2 = 0
    · have hcall : calls_get_scaling pair_pot.cutoff row = true := by
        simp [calls_get_scaling, hd, hh]
      obtain ⟨h1, _, h3⟩ :=
        get_scaling_spec scaling hs center_index row.i st.scaling_counter (hpre hcall)
      refine ⟨(get_scaling scaling center_index row.i st.scaling_counter).2, ?_,
        fun _ => h3, fun h => (by rw [hcall] at h; cases h)⟩
      have hsel : select_scale center_index scaling st.scaling_counter row
          = get_scaling scaling center_index row.i st.scaling_counter := by
        simp only [select_scale, if_pos hh]
      have hlk : scale_by_lookup center_index scaling row
          = (get_scaling scaling center_index row.i st.scaling_counter).1 := by
        simp only [scale_by_lookup, if_pos hh, h1]
      simp only [if_pos hd, hsel, hlk]
      by_cases hpos : (get_scaling scaling center_index row.i st.scaling_counter).1 > 0
      · simp only [if_pos hpos]
        cases accumulate center_index pair_pot st.energy st.gradient row
            (get_scaling scaling center_index row.i st.scaling_counter).1 with
        | none => rfl
        | some eg => rfl
      · simp only [if_neg hpos]
        rfl
    · have hcall : calls_get_scaling pair_pot.cutoff row = false := by
        simp only [calls_get_scaling, hh, decide_False, Bool.and_false]
      refine ⟨st.scaling_counter, ?_, fun h => (by rw [hcall] at h; cases h), fun _ => rfl⟩
      have hsel : select_scale center_index scaling st.scaling_counter row
          = (1 / 2, st.scaling_counter) := by
        simp only [select_scale, if_neg hh]
      have hlk : scale_by_lookup center_index scaling row = 1 / 2 := by
        simp only [scale_by_lookup, if_neg hh]
      have hpos : ((1 : α) / 2) > 0 := by positivity
      simp only [if_pos hd, hsel, hlk, if_pos hpos]
      cases accumulate center_index pair_pot st.energy st.gradient row (1 / 2) with
      | none => rfl
      | some eg => rfl
  · have hcall : calls_get_scaling pair_pot.cutoff row = false := by
      simp only [calls_get_scaling, hd, decide_False, Bool.false_and]
    refine ⟨st.scaling_counter, ?_, fun h => (by rw [hcall] at h; cases h), fun _ => rfl⟩
    simp only [if_neg hd]
    rfl

theorem scan_loop_eq_lookup {α : Type} [LinearOrderedField α] {D : Type} (center_index : Int)
    (scaling : List (scaling_row_type α)) (hs : scaling.Pairwise (fun a b => a.i < b.i))
    (pair_pot : pair_pot_type α D) (nlist : List (nlist_row_type α))
    (hn : (nlist.filter (calls_get_scaling pair_pot.cutoff)).Pairwise (fun a b => a.i ≤ b.i))
    (st : scan_state α)
    (hcur : ∀ row ∈ nlist, calls_get_scaling pair_pot.cutoff row = true →
      cursor_ok scaling st.scaling_counter row.i) :
    (scan_loop center_index scaling pair_pot nlist st).map (fun st1 => (st1.energy, st1.gradient))
      = scan_by_lookup center_index scaling pair_pot nlist (st.energy, st.gradient) := by
  induction nlist generalizing st with
  | nil => rfl
  | cons row rest ih =>
    obtain ⟨c1, hrow, hc1, hc2⟩ := scan_row_eq_lookup center_index scaling hs pair_pot st row
      (hcur row (List.mem_cons_self _ _))
    simp only [scan_loop, scan_by_lookup, hrow]
    cases scan_row_by_lookup center_index scaling pair_pot (st.energy, st.gradient) row with
    | none => rfl
    | some eg =>
      simp only [Option.map_some']
      have hrest : (rest.filter (calls_get_scaling pair_pot.cutoff)).Pairwise
          (fun a b => a.i ≤ b.i) := by
        refine hn.sublist ?_
        exact (List.sublist_cons_self row rest).filter _
      apply ih hrest
      intro r hr hcall
      cases hrc : calls_get_scaling pair_pot.cutoff row with
      | false =>
        have h := hcur r (List.mem_cons_of_mem _ hr) hcall
        rw [← hc2 hrc] at h
        exact h
      | true =>
        have hle : row.i ≤ r.i := by
          rw [List.filter_cons_of_pos hrc, List.pairwise_cons] at hn
          exact hn.1 r (List.mem_filter.2 ⟨hr, hcall⟩)
        exact cursor_ok_mono scaling c1 row.i r.i (hc1 hrc) hle

theorem scan_by_lookup_filter {α : Type} [LinearOrderedField α] {D : Type} (center_index : Int)
    (scaling : List (scaling_row_type α)) (pair_pot : pair_pot_type α D)
    (keep : nlist_row_type α → Bool) (nlist : List (nlist_row_type α))
    (hskip : ∀ row ∈ nlist, keep row = false → ∀ eg,
      scan_row_by_lookup center_index scaling pair_pot eg row = some eg)
    (eg : α × Option (Int → α)) :
    scan_by_lookup center_index scaling pair_pot (nlist.filter keep) eg
      = scan_by_lookup center_index scaling pair_pot nlist eg := by
  induction nlist generalizing eg with
  | nil => rfl
  | cons row rest ih =>
    have ih1 := ih (fun r hr => hskip r (List.mem_cons_of_mem _ hr))
    cases hk : keep row with
    | true =>
      rw [List.filter_cons_of_pos hk]
      simp only [scan_by_lookup]
      cases scan_row_by_lookup center_index scaling pair_pot eg row with
      | none => rfl
      | some eg1 => exact ih1 eg1
    | false =>
      have hf : ¬ (keep row = true) := by simp [hk]
      rw [List.filter_cons_of_neg hf]
      simp only [scan_by_lookup, hskip row (List.mem_cons_self _ _) hk eg]
      exact ih1 eg

theorem pair_pot_energy_gradient_eq_lookup {α : Type} [LinearOrderedField α] {D : Type}
    (center_index : Int) (nlist : List (nlist_row_type α))
    (scaling : List (scaling_row_type α)) (pair_pot : pair_pot_type α D)
    (gradient : Option (Int → α))
    (hs : scaling.Pairwise (fun a b => a.i < b.i))
    (hn : (nlist.filter (calls_get_scaling pair_pot.cutoff)).Pairwise (fun a b => a.i ≤ b.i)) :
    pair_pot_energy_gradient center_index nlist scaling pair_pot gradient
      = scan_by_lookup center_index scaling pair_pot nlist (0, gradient) := by
  have h := scan_loop_eq_lookup center_index scaling hs pair_pot nlist hn
    { energy := 0, scaling_counter := 0, gradient := gradient }
    (fun _ _ _ r hr => by simp at hr)
  rw [← h]
  unfold pair_pot_energy_gradient
  cases scan_loop center_index scaling pair_pot nlist
      { energy := 0, scaling_counter := 0, gradient := gradient } with
  | none => rfl
  | some st => rfl

/-- C1 (exclusion contract, amended): when the scaling list is strictly
ascending in its index, holds a record `(j, 0)`, and the home-image rows of
the neighbour list that lie within the cutoff come in non-decreasing order of
`other_index`, the scan returns the same energy and the same gradient buffer as
on the neighbour list with the home-image rows of other index `j` removed. -/
theorem pair_pot_energy_gradient_exclusion {α : Type} [LinearOrderedField α] {D : Type}
    (center_index : Int) (nlist : List (nlist_row_type α))
    (scaling : List (scaling_row_type α)) (pair_pot : pair_pot_type α D)
    (gradient : Option (Int → α)) (j : Int)
    (hs : scaling.Pairwise (fun a b => a.i < b.i))
    (hn : (nlist.filter (calls_get_scaling pair_pot.cutoff)).Pairwise (fun a b => a.i ≤ b.i))
    (hj : ({ i := j, scale := 0 } : scaling_row_type α) ∈ scaling) :
    pair_pot_energy_gradient center_index nlist scaling pair_pot gradient
      = pair_pot_energy_gradient center_index
          (nlist.filter (fun row => !(is_home_row_of j row))) scaling pair_pot gradient := by
  have hn1 : ((nlist.filter (fun row => !(is_home_row_of j row))).filter
      (calls_get_scaling pair_pot.cutoff)).Pairwise (fun a b => a.i ≤ b.i) :=
    hn.sublist ((List.filter_sublist nlist).filter _)
  rw [pair_pot_energy_gradient_eq_lookup center_index nlist scaling pair_pot gradient hs hn,
    pair_pot_energy_gradient_eq_lookup center_index _ scaling pair_pot gradient hs hn1,
    scan_by_lookup_filter]
  intro row _ hrow eg
  have hhome : (row.r0 = 0 ∧ row.r1 = 0 ∧ row.r2 = 0) ∧ row.i = j := by
    simpa [is_home_row_of] using hrow
  have hzero : scale_by_lookup center_index scaling row = 0 := by
    simp only [scale_by_lookup, if_pos hhome.1]
    by_cases hc : row.i = center_index
    · rw [if_pos hc]
    · rw [if_neg hc, hhome.2]
      exact scaling_lookup_mem scaling hs { i := j, scale := 0 } hj
  simp only [scan_row_by_lookup, hzero, gt_iff_lt, lt_irrefl, if_false, ite_self]

/-- C1, the claim as stated fails: with the strictly ascending scaling list
`[(1, 0), (2, 1/2)]` and the neighbour rows in the order `2, 1`, the excluded
home-image row of atom `1` is scanned with scale `1` (energy `1/2 + 1`), while
the scan without that row gives `1/2`. -/
theorem pair_pot_energy_gradient_exclusion_unsorted :
    ({ i := 1, scale := 0 } : scaling_row_type ℚ) ∈ scaling_12
    ∧ scaling_12.Pairwise (fun a b => a.i < b.i)
    ∧ pair_pot_energy_gradient 0 [home_row 2, home_row 1] scaling_12 unit_pair_pot none
        = some (3 / 2, none)
    ∧ pair_pot_energy_gradient 0
          ([home_row 2, home_row 1].filter (fun row => !(is_home_row_of 1 row)))
          scaling_12 unit_pair_pot none
        = some (1 / 2, none)
    ∧ pair_pot_energy_gradient 0 [home_row 2, home_row 1] scaling_12 unit_pair_pot none
        ≠ pair_pot_energy_gradient 0
            ([home_row 2, home_row 1].filter (fun row => !(is_home_row_of 1 row)))
            scaling_12 unit_pair_pot none := by
  have h1 : pair_pot_energy_gradient 0 [home_row 2, home_row 1] scaling_12 unit_pair_pot none
      = some (3 / 2, none) := by
    unfold pair_pot_energy_gradient scan_loop scan_row select_scale get_scaling
    unfold get_scaling_while get_scaling_while
    unfold scan_loop scan_row select_scale get_scaling get_scaling_while
    norm_num [scan_loop, accumulate, pair_fn_call, unit_pair_pot, unit_pair_fn_ptr, unit_pair_fn,
      home_row, scaling_12]
  have h2 : pair_pot_energy_gradient 0
      ([home_row 2, home_row 1].filter (fun row => !(is_home_row_of 1 row)))
      scaling_12 unit_pair_pot none = some (1 / 2, none) := by
    have hf : [home_row 2, home_row 1].filter (fun row => !(is_home_row_of 1 row))
        = [home_row 2] := by
      simp [is_home_row_of, home_row]
    rw [hf]
    unfold pair_pot_energy_gradient scan_loop scan_row select_scale get_scaling
    unfold get_scaling_while get_scaling_while
    norm_num [scan_loop, accumulate, pair_fn_call, unit_pair_pot, unit_pair_fn_ptr, unit_pair_fn,
      home_row, scaling_12]
  refine ⟨by simp [scaling_12], by simp [scaling_12], h1, h2, ?_⟩
  rw [h1, h2]
  norm_num

/-- C1, the amended contract at a concrete input: neighbour rows in the order
`1, 2`, scaling list `[(1, 0), (2, 1/2)]`, excluded atom `1`. -/
theorem pair_pot_energy_gradient_exclusion_witness :
    pair_pot_energy_gradient 0 [home_row 1, home_row 2] scaling_12 unit_pair_pot none
      = pair_pot_energy_gradient 0
          ([home_row 1, home_row 2].filter (fun row => !(is_home_row_of 1 row)))
          scaling_12 unit_pair_pot none :=
  pair_pot_energy_gradient_exclusion 0 [home_row 1, home_row 2] scaling_12 unit_pair_pot none 1
    (by simp [scaling_12])
    (by simp [calls_get_scaling, home_row, unit_pair_pot])
    (by simp [scaling_12])

/-- C3, the code at the failing input: the home-image row of atom `1` lies
within the cutoff and its scale from the scaling list is `-1/2`, which is not
`0`; the scan returns the energy `0` and leaves the gradient buffer as it was,
where scale application asks for the energy `-1/2 * 1`. -/
theorem pair_pot_energy_gradient_negative_scale :
    (home_row 1).d < unit_pair_pot.cutoff
    ∧ select_scale 0 [({ i := 1, scale := -1 / 2 } : scaling_row_type ℚ)] 0 (home_row 1)
        = (-1 / 2, 0)
    ∧ pair_fn_call unit_pair_pot 0 1 (home_row 1).d true = some (1, 1)
    ∧ pair_pot_energy_gradient 0 [home_row 1]
          [({ i := 1, scale := -1 / 2 } : scaling_row_type ℚ)] unit_pair_pot
          (some (fun _ => 0))
        = some (0, some (fun _ => 0)) := by
  have hs : select_scale 0 [({ i := 1, scale := -1 / 2 } : scaling_row_type ℚ)] 0 (home_row 1)
      = (-1 / 2, 0) := by
    unfold select_scale get_scaling get_scaling_while
    norm_num [home_row]
  refine ⟨by norm_num [home_row, unit_pair_pot], hs, rfl, ?_⟩
  unfold pair_pot_energy_gradient scan_loop scan_row
  rw [hs]
  norm_num [scan_loop, home_row, unit_pair_pot]

/-- C4 at a concrete input: the centre's own periodic image, with a scaling
list that would exclude atom `0`, is scanned with scale `1/2`. -/
theorem scan_row_periodic_image_witness :
    select_scale 0 [({ i := 0, scale := 0 } : scaling_row_type ℚ)] 0 (image_row 0) = (1 / 2, 0)
    ∧ scan_row 0 [({ i := 0, scale := 0 } : scaling_row_type ℚ)] unit_pair_pot
          { energy := 0, scaling_counter := 0, gradient := none } (image_row 0)
        = (accumulate 0 unit_pair_pot 0 none (image_row 0) (1 / 2)).map
            (fun eg => { energy := eg.1, scaling_counter := 0, gradient := eg.2 }) :=
  scan_row_periodic_image 0 [({ i := 0, scale := 0 } : scaling_row_type ℚ)] unit_pair_pot
    { energy := 0, scaling_counter := 0, gradient := none } (image_row 0)
    (by norm_num [image_row, unit_pair_pot]) (by simp [image_row])

/-- C5 at a concrete input: two atoms, centre `0`, one home-image neighbour `1`
at displacement `(1,0,0)`, the kernel returning energy `1` and value `1`, scale
`1`, a zeroed gradient buffer. The scan returns and keeps the component sums;
the iteration for the row adds `1` to the energy and applies the six updates
with the value `1`; these put `+1` into the `x` cell of atom `0` and `-1` into
the `x` cell of atom `1`; and for a row whose other atom is the centre they
change nothing. -/
theorem pair_pot_energy_gradient_newton_witness :
    (∃ energy gradient1,
      pair_pot_energy_gradient 0 [home_row 1] [] unit_pair_pot (some (fun _ => 0))
        = some (energy, some gradient1)
      ∧ ∀ c : Int, 0 ≤ c ∧ c < 3 →
          ∑ a in Finset.range 2, gradient1 (3 * (a : Int) + c)
            = ∑ a in Finset.range 2, (fun _ => (0 : ℚ)) (3 * (a : Int) + c))
    ∧ scan_row 0 [] unit_pair_pot
          { energy := 0, scaling_counter := 0, gradient := some (fun _ => 0) } (home_row 1)
        = some { energy := 1, scaling_counter := 0,
                 gradient := some (scatter_pair (fun _ => 0) 0 1 (home_row 1) 1) }
    ∧ scatter_pair (fun _ => (0 : ℚ)) 0 1 (home_row 1) 1 (3 * 0) = 1
    ∧ scatter_pair (fun _ => (0 : ℚ)) 0 1 (home_row 1) 1 (3 * 1) = -1
    ∧ scatter_pair (fun _ => (0 : ℚ)) 0 0 (home_row 0) 1 = fun _ => 0 := by
  have h := pair_pot_energy_gradient_newton 2 0 [home_row 1] [] unit_pair_pot (fun _ => 0)
    (by rfl) (by decide) (by simp [home_row])
  have hs : select_scale 0 ([] : List (scaling_row_type ℚ)) 0 (home_row 1) = (1, 0) := by
    unfold select_scale get_scaling
    norm_num [home_row]
  refine ⟨h.1, ?_, ?_, ?_, h.2.2.2.2 _ _ _⟩
  · obtain ⟨r, hr, hrow⟩ := h.2.1
      { energy := 0, scaling_counter := 0, gradient := some (fun _ => 0) } (fun _ => 0)
      (home_row 1) rfl (by norm_num [home_row, unit_pair_pot]) (by rw [hs]; norm_num)
    have hr1 : r = (1, 1) := by
      have : pair_fn_call unit_pair_pot 0 (home_row 1).i (home_row 1).d true = some (1, 1) := rfl
      rw [this] at hr
      exact (Option.some.inj hr).symm
    rw [hrow, hs, hr1]
    norm_num [home_row]
  · have h4 := (h.2.2.2.1 (fun _ => 0) 1 (home_row 1) 1 0).1
    rw [h4]
    norm_num [home_row]
  · have h4 := (h.2.2.2.1 (fun _ => 0) 1 (home_row 1) 1 1).1
    rw [h4]
    norm_num [home_row]

/-! ## Theorems about the displacement list -/

theorem dlist_back_row_apply {α : Type} [LinearOrderedField α] (gradient : Int → α)
    (delta : dlist_row_type α) (a : Int) :
    dlist_back_row gradient delta (3 * a)
        = gradient (3 * a) + (if delta.i = a then delta.gx else 0)
            - (if delta.j = a then delta.gx else 0)
    ∧ dlist_back_row gradient delta (3 * a + 1)
        = gradient (3 * a + 1) + (if delta.i = a then delta.gy else 0)
            - (if delta.j = a then delta.gy else 0)
    ∧ dlist_back_row gradient delta (3 * a + 2)
        = gradient (3 * a + 2) + (if delta.i = a then delta.gz else 0)
            - (if delta.j = a then delta.gz else 0) := by
  unfold dlist_back_row
  simp only [add_at_apply, sub_at_apply]
  have e1 : ∀ b : Int, (3 * a = 3 * b) = (b = a) :=
    fun b => propext ⟨fun h => by omega, fun h => by omega⟩
  have e2 : ∀ b : Int, (3 * a = 3 * b + 1) = False := fun b => eq_false (by omega)
  have e3 : ∀ b : Int, (3 * a = 3 * b + 2) = False := fun b => eq_false (by omega)
  have e4 : ∀ b : Int, (3 * a + 1 = 3 * b) = False := fun b => eq_false (by omega)
  have e5 : ∀ b : Int, (3 * a + 1 = 3 * b + 1) = (b = a) :=
    fun b => propext ⟨fun h => by omega, fun h => by omega⟩
  have e6 : ∀ b : Int, (3 * a + 1 = 3 * b + 2) = False := fun b => eq_false (by omega)
  have e7 : ∀ b : Int, (3 * a + 2 = 3 * b) = False := fun b => eq_false (by omega)
  have e8 : ∀ b : Int, (3 * a + 2 = 3 * b + 1) = False := fun b => eq_false (by omega)
  have e9 : ∀ b : Int, (3 * a + 2 = 3 * b + 2) = (b = a) :=
    fun b => propext ⟨fun h => by omega, fun h => by omega⟩
  simp only [e1, e2, e3, e4, e5, e6, e7, e8, e9, if_false, add_zero, sub_zero]
  exact ⟨trivial, trivial, trivial⟩

theorem dlist_back_succ {α : Type} [LinearOrderedField α] (gradient : Int → α)
    (deltas : Int → dlist_row_type α) (n : Nat) :
    dlist_back gradient deltas (n + 1)
      = dlist_back_row (dlist_back gradient deltas n) (deltas (n : Int)) := by
  unfold dlist_back
  rw [List.range_succ, List.foldl_append]
  rfl

theorem sum_filter_range_succ {α : Type} [LinearOrderedField α] (p : Nat → Prop)
    [DecidablePred p] (f : Nat → α) (n : Nat) :
    ∑ k in (Finset.range (n + 1)).filter p, f k
      = ∑ k in (Finset.range n).filter p, f k + (if p n then f n else 0) := by
  rw [Finset.sum_filter, Finset.sum_filter, Finset.sum_range_succ]

/-- C6 (`dlist_back` is an exact scatter): after `dlist_back` every component of
the gradient of each atom `a` is its previous value plus the sum of that
component of `(gx, gy, gz)` over the rows with `i = a` minus the sum over the
rows with `j = a`, each row of the table counted once; and the pass over a row
with `i = j` leaves the gradient buffer as it was. The table is an argument
that `dlist_back` only reads. -/
theorem dlist_back_scatter {α : Type} [LinearOrderedField α] (gradient : Int → α)
    (deltas : Int → dlist_row_type α) (ndelta : Nat) (a : Int) :
    (dlist_back gradient deltas ndelta (3 * a)
        = gradient (3 * a)
          + ∑ k in (Finset.range ndelta).filter (fun k : Nat => (deltas (k : Int)).i = a),
              (deltas (k : Int)).gx
          - ∑ k in (Finset.range ndelta).filter (fun k : Nat => (deltas (k : Int)).j = a),
              (deltas (k : Int)).gx)
    ∧ (dlist_back gradient deltas ndelta (3 * a + 1)
        = gradient (3 * a + 1)
          + ∑ k in (Finset.range ndelta).filter (fun k : Nat => (deltas (k : Int)).i = a),
              (deltas (k : Int)).gy
          - ∑ k in (Finset.range ndelta).filter (fun k : Nat => (deltas (k : Int)).j = a),
              (deltas (k : Int)).gy)
    ∧ (dlist_back gradient deltas ndelta (3 * a + 2)
        = gradient (3 * a + 2)
          + ∑ k in (Finset.range ndelta).filter (fun k : Nat => (deltas (k : Int)).i = a),
              (deltas (k : Int)).gz
          - ∑ k in (Finset.range ndelta).filter (fun k : Nat => (deltas (k : Int)).j = a),
              (deltas (k : Int)).gz)
    ∧ (∀ delta : dlist_row_type α, delta.i = delta.j →
        dlist_back_row gradient delta = gradient) := by
  refine ⟨?_, ?_, ?_, ?_⟩
  · induction ndelta with
    | zero => simp [dlist_back]
    | succ n ih =>
      rw [dlist_back_succ, (dlist_back_row_apply _ _ a).1, ih, sum_filter_range_succ,
        sum_filter_range_succ]
      ring
  · induction ndelta with
    | zero => simp [dlist_back]
    | succ n ih =>
      rw [dlist_back_succ, (dlist_back_row_apply _ _ a).2.1, ih, sum_filter_range_succ,
        sum_filter_range_succ]
      ring
  · induction ndelta with
    | zero => simp [dlist_back]
    | succ n ih =>
      rw [dlist_back_succ, (dlist_back_row_apply _ _ a).2.2, ih, sum_filter_range_succ,
        sum_filter_range_succ]
      ring
  · intro delta hij
    funext x
    obtain ⟨b, hb⟩ : ∃ b : Int, x = 3 * b ∨ x = 3 * b + 1 ∨ x = 3 * b + 2 :=
      ⟨x / 3, by omega⟩
    rcases hb with hb | hb | hb
    · rw [hb, (dlist_back_row_apply gradient delta b).1, hij]
      ring
    · rw [hb, (dlist_back_row_apply gradient delta b).2.1, hij]
      ring
    · rw [hb, (dlist_back_row_apply gradient delta b).2.2, hij]
      ring

/-- C6 at a concrete input: a one-row table whose row has `i = j = 0` and
`(gx, gy, gz) = (1, 2, 3)`; the pass leaves a zeroed gradient buffer zeroed. -/
theorem dlist_back_scatter_witness :
    dlist_back_row (fun _ => (0 : ℚ))
        { dx := 0, dy := 0, dz := 0, gx := 1, gy := 2, gz := 3, i := 0, j := 0 }
      = fun _ => (0 : ℚ) :=
  (dlist_back_scatter (fun _ => (0 : ℚ))
    (fun _ => { dx := 0, dy := 0, dz := 0, gx := 1, gy := 2, gz := 3, i := 0, j := 0 }) 1 0).2.2.2
    { dx := 0, dy := 0, dz := 0, gx := 1, gy := 2, gz := 3, i := 0, j := 0 } rfl

/-! ## The single-bond scenario, evaluated -/

theorem single_bond_deltas_forward :
    dlist_forward mic_identity single_bond_pos (fun _ => 0) (fun _ => 0) 0 single_bond_deltas 1
      = Function.update single_bond_deltas 0
          { dx := -(6 / 5), dy := 0, dz := 0, gx := 0, gy := 0, gz := 0, i := 0, j := 1 } := by
  unfold dlist_forward
  simp [List.range_succ, dlist_forward_row, single_bond_deltas, single_bond_pos]

theorem single_bond_forward_eval :
    single_bond_forward
      = [{ kind := 0, i0 := 0, i1 := 0, i2 := 0, sign0 := 1, sign1 := 1, sign2 := 1,
           value := 6 / 5, grad := 0 }] := by
  unfold single_bond_forward
  rw [single_bond_deltas_forward]
  have hsq : Real.sqrt (6 / 5 * (6 / 5)) = 6 / 5 :=
    Real.sqrt_mul_self (by norm_num)
  simp [iclist_forward, single_bond_ictab, ic_forward_fns, forward_bond, hsq]

theorem single_bond_gradient_eval :
    single_bond_gradient 0 = -1 ∧ single_bond_gradient 1 = 0 ∧ single_bond_gradient 2 = 0
    ∧ single_bond_gradient 3 = 1 ∧ single_bond_gradient 4 = 0 ∧ single_bond_gradient 5 = 0 := by
  have h := single_bond_forward_eval
  unfold single_bond_forward at h
  unfold single_bond_gradient
  simp only [h]
  rw [single_bond_deltas_forward]
  simp [iclist_back, ic_back_fns, back_bond, add_gx, add_gy, add_gz, dlist_back,
    List.range_succ, dlist_back_row, add_at, sub_at, Function.update_apply]

/-- C7 (single-bond scenario, amended): the forward passes give `ic.value = 1.2`;
with `ic.grad = 1.0` the back passes give `grad[0] = (-1,0,0)` and
`grad[1] = (1,0,0)`. -/
theorem single_bond_scenario :
    single_bond_forward.map (fun ic => ic.value) = [6 / 5]
    ∧ single_bond_gradient 0 = -1 ∧ single_bond_gradient 1 = 0 ∧ single_bond_gradient 2 = 0
    ∧ single_bond_gradient 3 = 1 ∧ single_bond_gradient 4 = 0 ∧ single_bond_gradient 5 = 0 := by
  refine ⟨?_, single_bond_gradient_eval⟩
  rw [single_bond_forward_eval]
  rfl

/-- C7, the claim as stated fails: the gradient is not `grad[0] = (1,0,0)`,
`grad[1] = (-1,0,0)`. -/
theorem single_bond_scenario_claimed_signs :
    ¬ (single_bond_forward.map (fun ic => ic.value) = [6 / 5]
      ∧ single_bond_gradient 0 = 1 ∧ single_bond_gradient 1 = 0 ∧ single_bond_gradient 2 = 0
      ∧ single_bond_gradient 3 = -1 ∧ single_bond_gradient 4 = 0
      ∧ single_bond_gradient 5 = 0) := by
  intro h
  have h0 := single_bond_gradient_eval.1
  rw [h.2.1] at h0
  norm_num at h0

/-! ## Theorems about the kernels -/

theorem rpow_sixth_pow_six : ((2 : ℝ) ^ (1 / 6 : ℝ)) ^ 6 = 2 := by
  rw [← Real.rpow_natCast, ← Real.rpow_mul (by norm_num)]
  norm_num

/-- C9 (Lennard-Jones minimum): for a pair with mixed `sigma > 0`, at the
separation `d = 2^(1/6) * sigma` the kernel returns the energy `-epsilon`, with
`epsilon = sqrt(epsilon[i] * epsilon[j])`, and writes `g = 0`. -/
theorem pair_fn_lj_minimum (pair_data : pair_data_lj_type) (center_index other_index : Int)
    (hsigma : 0 < 1 / 2 * (pair_data.sigma center_index + pair_data.sigma other_index)) :
    pair_fn_lj pair_data center_index other_index
        ((2 : ℝ) ^ (1 / 6 : ℝ)
          * (1 / 2 * (pair_data.sigma center_index + pair_data.sigma other_index))) true
      = (-Real.sqrt (pair_data.epsilon center_index * pair_data.epsilon other_index), 0) := by
  have hr : (0 : ℝ) < (2 : ℝ) ^ (1 / 6 : ℝ) := Real.rpow_pos_of_pos (by norm_num) _
  have h6 := rpow_sixth_pow_six
  unfold pair_fn_lj
  generalize (2 : ℝ) ^ (1 / 6 : ℝ) = r at hr h6 ⊢
  generalize 1 / 2 * (pair_data.sigma center_index + pair_data.sigma other_index) = sigma
    at hsigma ⊢
  have hx : sigma / (r * sigma) = 1 / r := by
    field_simp
    ring
  have hx6 : (1 / r) * (1 / r) * ((1 / r) * (1 / r) * ((1 / r) * (1 / r))) = 1 / 2 := by
    rw [← h6]
    field_simp
    ring
  simp only [hx, hx6, if_true]
  refine Prod.ext ?_ ?_
  · simp only []
    ring
  · simp only []
    ring

/-- C9 at `sigma = 1`, `epsilon = 1`: at `d = 2^(1/6)` the energy is `-1` and
`g = 0`. -/
theorem pair_fn_lj_minimum_witness :
    pair_fn_lj lj_unit 0 1 ((2 : ℝ) ^ (1 / 6 : ℝ) * (1 / 2 * (1 + 1))) true
      = (-Real.sqrt (1 * 1), 0) :=
  pair_fn_lj_minimum lj_unit 0 1 (by norm_num [lj_unit])

theorem pair_fn_lj_energy_hasDerivAt (pair_data : pair_data_lj_type)
    (center_index other_index : Int) (d : ℝ) (hd : d ≠ 0) :
    HasDerivAt (fun t => (pair_fn_lj pair_data center_index other_index t true).1)
      (24 * Real.sqrt (pair_data.epsilon center_index * pair_data.epsilon other_index)
        * (1 / 2 * (pair_data.sigma center_index + pair_data.sigma other_index) / d) ^ 6
        * (1 - 2 * (1 / 2 * (pair_data.sigma center_index + pair_data.sigma other_index) / d) ^ 6)
        / d) d := by
  generalize hsig : 1 / 2 * (pair_data.sigma center_index + pair_data.sigma other_index) = sigma
  generalize heps :
    Real.sqrt (pair_data.epsilon center_index * pair_data.epsilon other_index) = epsilon
  have hfun : (fun t => (pair_fn_lj pair_data center_index other_index t true).1)
      = fun t => 4 * epsilon * ((sigma / t) ^ 6 * ((sigma / t) ^ 6 - 1)) := by
    funext t
    simp only [pair_fn_lj, hsig, heps]
    ring
  rw [hfun]
  have hu : HasDerivAt (fun t : ℝ => sigma / t) (-sigma / d ^ 2) d := by
    have h := (hasDerivAt_const d sigma).div (hasDerivAt_id d) hd
    convert h using 1
    simp
  have h := (((hu.pow 6).mul ((hu.pow 6).sub_const 1)).const_mul (4 * epsilon))
  convert h using 1
  field_simp
  ring

/-- C8, the code at the failing input `sigma = 2`, `epsilon = 1`, `d = 2`: the
derivative of the returned pair energy with respect to `d` is `-12`, so the
derivative divided by the distance is `-6`, and the value written to `g` is
`-3`. -/
theorem pair_fn_lj_gradient_sigma_two :
    HasDerivAt (fun t => (pair_fn_lj lj_sigma_two 0 1 t true).1) (-12) 2
    ∧ (pair_fn_lj lj_sigma_two 0 1 2 true).2 = -3
    ∧ (pair_fn_lj lj_sigma_two 0 1 2 true).2 ≠ -12 / 2 := by
  have h := pair_fn_lj_energy_hasDerivAt lj_sigma_two 0 1 2 (by norm_num)
  have hg : (pair_fn_lj lj_sigma_two 0 1 2 true).2 = -3 := by
    simp only [pair_fn_lj, lj_sigma_two, if_true]
    norm_num
  refine ⟨?_, hg, ?_⟩
  · convert h using 1
    simp only [lj_sigma_two]
    norm_num
  · rw [hg]
    norm_num

/-- C10 (electrostatic kernel): for `d > 0` the kernel returns `qprod * pot` with
`qprod = q[i] * q[j]`; for `alpha ≤ 0`, `pot = 1/d` and `g = -qprod/d^3`, which
is the derivative `-qprod/d^2` of `qprod/d` divided by `d`; for `alpha > 0`,
`pot = erfc(alpha*d)/d` and
`g = qprod * (-(2*alpha/sqrt(pi)) * exp(-alpha^2*d^2) - pot) / d^2`. -/
theorem pair_fn_ei_formula (pair_data : pair_data_ei_type) (center_index other_index : Int)
    (d : ℝ) (hd : 0 < d) :
    (pair_data.alpha ≤ 0 →
      pair_fn_ei pair_data center_index other_index d true
          = (pair_data.charges center_index * pair_data.charges other_index * (1 / d),
             -(pair_data.charges center_index * pair_data.charges other_index) / d ^ 3)
      ∧ HasDerivAt
          (fun t => pair_data.charges center_index * pair_data.charges other_index / t)
          (-(pair_data.charges center_index * pair_data.charges other_index) / d ^ 2) d
      ∧ -(pair_data.charges center_index * pair_data.charges other_index) / d ^ 3
          = -(pair_data.charges center_index * pair_data.charges other_index) / d ^ 2 / d)
    ∧ (pair_data.alpha > 0 →
      pair_fn_ei pair_data center_index other_index d true
          = (pair_data.charges center_index * pair_data.charges other_index
               * (erfc (pair_data.alpha * d) / d),
             pair_data.charges center_index * pair_data.charges other_index
               * (-(2 * pair_data.alpha / Real.sqrt Real.pi)
                    * Real.exp (-(pair_data.alpha ^ 2 * d ^ 2))
                  - erfc (pair_data.alpha * d) / d) / d ^ 2)) := by
  have hd0 : d ≠ 0 := ne_of_gt hd
  constructor
  · intro ha
    have hna : ¬ pair_data.alpha > 0 := not_lt.2 ha
    refine ⟨?_, ?_, ?_⟩
    · simp only [pair_fn_ei, if_neg hna, if_true]
      refine Prod.ext ?_ ?_
      · simp only []
        ring
      · simp only []
        rw [show d ^ 3 = d * d * d by ring]
        field_simp
    · have h := (hasDerivAt_const d
        (pair_data.charges center_index * pair_data.charges other_index)).div
        (hasDerivAt_id d) hd0
      convert h using 1
      simp
    · rw [show d ^ 3 = d ^ 2 * d by ring, div_div]
  · intro ha
    simp only [pair_fn_ei, if_pos ha, if_true, M_TWO_DIV_SQRT_PI]
    refine Prod.ext ?_ ?_
    · simp only []
      ring
    · simp only []
      have he : -(pair_data.alpha * d) * (pair_data.alpha * d)
          = -(pair_data.alpha ^ 2 * d ^ 2) := by ring
      rw [he]
      have hpi : Real.sqrt Real.pi ≠ 0 := ne_of_gt (Real.sqrt_pos.2 Real.pi_pos)
      field_simp
      ring

/-- C10 at concrete inputs: unit charges at `d = 1`, once with `alpha = 0` and
once with `alpha = 1/2`. -/
theorem pair_fn_ei_formula_witness :
    (pair_fn_ei ei_coulomb 0 1 1 true = ((1 : ℝ) * 1 * (1 / 1), -((1 : ℝ) * 1) / 1 ^ 3)
      ∧ HasDerivAt (fun t : ℝ => (1 : ℝ) * 1 / t) (-((1 : ℝ) * 1) / 1 ^ 2) 1
      ∧ -((1 : ℝ) * 1) / 1 ^ 3 = -((1 : ℝ) * 1) / 1 ^ 2 / 1)
    ∧ pair_fn_ei ei_damped 0 1 1 true
        = ((1 : ℝ) * 1 * (erfc (1 / 2 * 1) / 1),
           (1 : ℝ) * 1 * (-(2 * (1 / 2) / Real.sqrt Real.pi) * Real.exp (-((1 / 2) ^ 2 * 1 ^ 2))
              - erfc (1 / 2 * 1) / 1) / 1 ^ 2) :=
  ⟨(pair_fn_ei_formula ei_coulomb 0 1 1 (by norm_num)).1 (le_refl _),
    (pair_fn_ei_formula ei_damped 0 1 1 (by norm_num)).2 (by norm_num [ei_damped])⟩

/-! ## Theorems about the forward passes -/

theorem dlist_forward_succ {α : Type} [LinearOrderedField α] (mic : mic_type α) (pos : Int → α)
    (rvecs gvecs : Int → α) (nvec : Int) (deltas : Int → dlist_row_type α) (n : Nat) :
    dlist_forward mic pos rvecs gvecs nvec deltas (n + 1)
      = Function.update (dlist_forward mic pos rvecs gvecs nvec deltas n) (n : Int)
          (dlist_forward_row mic pos rvecs gvecs nvec
            (dlist_forward mic pos rvecs gvecs nvec deltas n (n : Int))) := by
  unfold dlist_forward
  rw [List.range_succ, List.foldl_append]
  rfl

theorem dlist_forward_apply {α : Type} [LinearOrderedField α] (mic : mic_type α) (pos : Int → α)
    (rvecs gvecs : Int → α) (nvec : Int) (deltas : Int → dlist_row_type α) (ndelta : Nat)
    (k : Int) :
    dlist_forward mic pos rvecs gvecs nvec deltas ndelta k
      = if 0 ≤ k ∧ k < ndelta then dlist_forward_row mic pos rvecs gvecs nvec (deltas k)
        else deltas k := by
  induction ndelta with
  | zero =>
    have h : ¬ (0 ≤ k ∧ k < ((0 : Nat) : Int)) := by omega
    rw [if_neg h]
    rfl
  | succ n ih =>
    rw [dlist_forward_succ]
    by_cases hk : k = (n : Int)
    · subst hk
      rw [Function.update_same, ih]
      have h1 : ¬ (0 ≤ (n : Int) ∧ (n : Int) < (n : Int)) := by omega
      have h2 : 0 ≤ (n : Int) ∧ (n : Int) < ((n + 1 : Nat) : Int) := by omega
      rw [if_neg h1, if_pos h2]
    · rw [Function.update_noteq hk, ih]
      by_cases h1 : 0 ≤ k ∧ k < (n : Int)
      · have h2 : 0 ≤ k ∧ k < ((n + 1 : Nat) : Int) := by omega
        rw [if_pos h1, if_pos h2]
      · have h2 : ¬ (0 ≤ k ∧ k < ((n + 1 : Nat) : Int)) := by omega
        rw [if_neg h1, if_neg h2]

theorem ic_forward_fns_frame (kind : Fin 8) (ic : iclist_row_type) (value grad : ℝ)
    (deltas : Int → dlist_row_type ℝ) :
    ic_forward_fns kind { ic with value := value, grad := grad } deltas
      = ic_forward_fns kind ic deltas := by
  fin_cases kind <;> rfl

/-- C12 (zeroing by the forward passes): after `dlist_forward` every row of the
table has `gx = gy = gz = 0`, and after `iclist_forward` every row has
`grad = 0`, whatever the tables held before and whatever the positions, the
lattice and the kinds are; a second forward pass on the same input changes
nothing. -/
theorem forward_passes_zero (mic : mic_type ℝ) (pos rvecs gvecs : Int → ℝ) (nvec : Int)
    (deltas : Int → dlist_row_type ℝ) (ndelta : Nat) (ictab : List iclist_row_type) :
    (∀ k : Nat, k < ndelta →
      (dlist_forward mic pos rvecs gvecs nvec deltas ndelta (k : Int)).gx = 0
      ∧ (dlist_forward mic pos rvecs gvecs nvec deltas ndelta (k : Int)).gy = 0
      ∧ (dlist_forward mic pos rvecs gvecs nvec deltas ndelta (k : Int)).gz = 0)
    ∧ (∀ ic ∈ iclist_forward deltas ictab, ic.grad = 0)
    ∧ dlist_forward mic pos rvecs gvecs nvec
          (dlist_forward mic pos rvecs gvecs nvec deltas ndelta) ndelta
        = dlist_forward mic pos rvecs gvecs nvec deltas ndelta
    ∧ iclist_forward deltas (iclist_forward deltas ictab) = iclist_forward deltas ictab := by
  refine ⟨?_, ?_, ?_, ?_⟩
  · intro k hk
    have h : 0 ≤ (k : Int) ∧ (k : Int) < (ndelta : Int) := by omega
    rw [dlist_forward_apply, if_pos h]
    exact ⟨rfl, rfl, rfl⟩
  · intro ic hic
    unfold iclist_forward at hic
    obtain ⟨ic0, _, h0⟩ := List.mem_map.1 hic
    rw [← h0]
  · funext k
    rw [dlist_forward_apply, dlist_forward_apply]
    by_cases h : 0 ≤ k ∧ k < (ndelta : Int)
    · simp only [if_pos h]
      rfl
    · simp only [if_neg h]
  · unfold iclist_forward
    rw [List.map_map]
    apply List.map_congr_left
    intro ic _
    simp only [Function.comp]
    rw [ic_forward_fns_frame]

/-- C12 at a concrete input: the table of the single-bond scenario with the
accumulators of row `0` preset to `7`. -/
theorem forward_passes_zero_witness :
    (dlist_forward mic_identity single_bond_pos (fun _ => 0) (fun _ => 0) 0
        (fun _ => { dx := 0, dy := 0, dz := 0, gx := 7, gy := 7, gz := 7, i := 0, j := 1 })
        1 ((0 : Nat) : Int)).gx = 0
    ∧ (dlist_forward mic_identity single_bond_pos (fun _ => 0) (fun _ => 0) 0
        (fun _ => { dx := 0, dy := 0, dz := 0, gx := 7, gy := 7, gz := 7, i := 0, j := 1 })
        1 ((0 : Nat) : Int)).gy = 0
    ∧ (dlist_forward mic_identity single_bond_pos (fun _ => 0) (fun _ => 0) 0
        (fun _ => { dx := 0, dy := 0, dz := 0, gx := 7, gy := 7, gz := 7, i := 0, j := 1 })
        1 ((0 : Nat) : Int)).gz = 0 :=
  (forward_passes_zero mic_identity single_bond_pos (fun _ => 0) (fun _ => 0) 0
    (fun _ => { dx := 0, dy := 0, dz := 0, gx := 7, gy := 7, gz := 7, i := 0, j := 1 })
    1 single_bond_ictab).1 0 (by decide)

/-! ## Theorems about the back pass of the internal coordinates -/

theorem add_gx_zero {α : Type} [LinearOrderedField α] (deltas : Int → dlist_row_type α)
    (k : Int) : add_gx deltas k 0 = deltas := by
  unfold add_gx
  rw [add_zero]
  exact Function.update_eq_self k deltas

theorem add_gy_zero {α : Type} [LinearOrderedField α] (deltas : Int → dlist_row_type α)
    (k : Int) : add_gy deltas k 0 = deltas := by
  unfold add_gy
  rw [add_zero]
  exact Function.update_eq_self k deltas

theorem add_gz_zero {α : Type} [LinearOrderedField α] (deltas : Int → dlist_row_type α)
    (k : Int) : add_gz deltas k 0 = deltas := by
  unfold add_gz
  rw [add_zero]
  exact Function.update_eq_self k deltas

theorem back_bond_zero (ic : iclist_row_type) (deltas : Int → dlist_row_type ℝ) (value : ℝ) :
    back_bond ic deltas value 0 = deltas := by
  simp only [back_bond, zero_div, zero_mul, add_gx_zero, add_gy_zero, add_gz_zero]

theorem back_bend_cos_zero (ic : iclist_row_type) (deltas : Int → dlist_row_type ℝ)
    (value : ℝ) : back_bend_cos ic deltas value 0 = deltas := by
  simp only [back_bend_cos, zero_div, zero_mul, add_gx_zero, add_gy_zero, add_gz_zero]

theorem back_dihed_cos_zero (ic : iclist_row_type) (deltas : Int → dlist_row_type ℝ)
    (value : ℝ) : back_dihed_cos ic deltas value 0 = deltas := by
  simp only [back_dihed_cos, zero_mul, add_gx_zero, add_gy_zero, add_gz_zero]

theorem back_oop_cos_zero (ic : iclist_row_type) (deltas : Int → dlist_row_type ℝ)
    (value : ℝ) : back_oop_cos ic deltas value 0 = deltas := by
  simp only [back_oop_cos, mul_zero, zero_mul, add_gx_zero, add_gy_zero, add_gz_zero]

theorem ic_back_fns_zero (kind : Fin 8) (ic : iclist_row_type)
    (deltas : Int → dlist_row_type ℝ) (value : ℝ) :
    ic_back_fns kind ic deltas value 0 = deltas := by
  have hangle : (if Real.sin value ≠ 0 then -(0 : ℝ) / Real.sin value else Real.sin value)
      = 0 := by
    by_cases h : Real.sin value = 0
    · simp [h]
    · simp [h]
  fin_cases kind
  · exact back_bond_zero ic deltas value
  · exact back_bend_cos_zero ic deltas value
  · show back_bend_angle ic deltas value 0 = deltas
    unfold back_bend_angle
    rw [neg_zero, zero_div]
    exact back_bend_cos_zero ic deltas _
  · exact back_dihed_cos_zero ic deltas value
  · show back_dihed_angle ic deltas value 0 = deltas
    unfold back_dihed_angle
    simp only [hangle]
    exact back_dihed_cos_zero ic deltas _
  · exact back_bond_zero ic deltas value
  · exact back_oop_cos_zero ic deltas value
  · show back_oop_angle ic deltas value 0 = deltas
    unfold back_oop_angle
    simp only [hangle]
    exact back_oop_cos_zero ic deltas _

theorem iclist_back_zero (deltas : Int → dlist_row_type ℝ) (ictab : List iclist_row_type)
    (h : ∀ ic ∈ ictab, ic.grad = 0) : iclist_back deltas ictab = deltas := by
  unfold iclist_back
  induction ictab with
  | nil => rfl
  | cons ic rest ih =>
    rw [List.foldl_cons, h ic (List.mem_cons_self _ _), ic_back_fns_zero]
    exact ih (fun x hx => h x (List.mem_cons_of_mem _ hx))

theorem iclist_back_checked_zero (deltas : Int → dlist_row_type ℝ)
    (ictab : List iclist_row_type) (hg : ∀ ic ∈ ictab, ic.grad = 0)
    (hd : ∀ ic ∈ ictab, ∀ y ∈ ic_back_divisors ic.kind ic deltas ic.value ic.grad, y ≠ 0) :
    iclist_back_checked deltas ictab = some deltas := by
  induction ictab with
  | nil => rfl
  | cons ic rest ih =>
    have h1 : ic_back_checked ic deltas = some deltas := by
      unfold ic_back_checked
      rw [if_pos (hd ic (List.mem_cons_self _ _)), hg ic (List.mem_cons_self _ _),
        ic_back_fns_zero]
    simp only [iclist_back_checked, h1]
    exact ih (fun x hx => hg x (List.mem_cons_of_mem _ hx))
      (fun x hx => hd x (List.mem_cons_of_mem _ hx))

/-- C11 (skipping the writeback, amended): for a displacement table and an
internal-coordinate table (any kinds) such that no back kernel divides by zero
on what `iclist_forward` left, `iclist_back` run on it with no `grad` field
changed in between gives back the displacement table it was given; in
particular every accumulator `(gx, gy, gz)` is as before. The divisors are, by
kind: the bond length; the two norms of a bend, and `sin(value)` for a bend
angle; `|delta1|^2`, `|delta1|^4` and the norms of the two projections of a
dihedral; `|delta2|^2`, `|n|^2` and the out-of-plane cosine. -/
theorem iclist_back_after_forward (deltas : Int → dlist_row_type ℝ)
    (ictab : List iclist_row_type)
    (hd : ∀ ic ∈ iclist_forward deltas ictab,
      ∀ y ∈ ic_back_divisors ic.kind ic deltas ic.value ic.grad, y ≠ 0) :
    iclist_back_checked deltas (iclist_forward deltas ictab) = some deltas
    ∧ ∀ deltas_1, iclist_back_checked deltas (iclist_forward deltas ictab) = some deltas_1 →
        ∀ k : Int, (deltas_1 k).gx = (deltas k).gx ∧ (deltas_1 k).gy = (deltas k).gy
          ∧ (deltas_1 k).gz = (deltas k).gz := by
  have h : iclist_back_checked deltas (iclist_forward deltas ictab) = some deltas := by
    apply iclist_back_checked_zero _ _ _ hd
    intro ic hic
    unfold iclist_forward at hic
    obtain ⟨ic0, _, h0⟩ := List.mem_map.1 hic
    rw [← h0]
  refine ⟨h, fun deltas_1 h1 k => ?_⟩
  rw [h] at h1
  rw [← Option.some.inj h1]
  exact ⟨rfl, rfl, rfl⟩

theorem xyz_deltas_forward_oop_cos : forward_oop_cos oop_cos_row xyz_deltas = 0 := by
  unfold forward_oop_cos
  simp only [oop_cos_row, xyz_deltas, if_pos, if_neg (show ¬ ((1 : Int) = 0) by decide),
    if_neg (show ¬ ((2 : Int) = 0) by decide), if_neg (show ¬ ((2 : Int) = 1) by decide)]
  norm_num

/-- C11, the claim as stated fails: on the three displacements `(1,0,0)`,
`(0,1,0)`, `(0,0,1)` the out-of-plane cosine is `0`; `iclist_forward` stores
`value = 0` and `grad = 0` in the row of kind `6`, and `back_oop_cos` then
divides by `value` (in `-fac/value*grad`): the back pass does not give back the
table it was given. -/
theorem iclist_back_after_forward_zero_divisor :
    iclist_forward xyz_deltas [oop_cos_row] = [{ oop_cos_row with value := 0, grad := 0 }]
    ∧ ic_back_divisors 6 { oop_cos_row with value := 0, grad := 0 } xyz_deltas 0 0 = [1, 1, 0]
    ∧ iclist_back_checked xyz_deltas (iclist_forward xyz_deltas [oop_cos_row]) = none
    ∧ iclist_back_checked xyz_deltas (iclist_forward xyz_deltas [oop_cos_row])
        ≠ some xyz_deltas := by
  have h1 : iclist_forward xyz_deltas [oop_cos_row]
      = [{ oop_cos_row with value := 0, grad := 0 }] := by
    unfold iclist_forward
    simp only [List.map_cons, List.map_nil]
    have : ic_forward_fns oop_cos_row.kind oop_cos_row xyz_deltas
        = forward_oop_cos oop_cos_row xyz_deltas := rfl
    rw [this, xyz_deltas_forward_oop_cos]
  have h2 : ic_back_divisors 6 { oop_cos_row with value := 0, grad := 0 } xyz_deltas 0 0
      = [1, 1, 0] := by
    show back_oop_cos_divisors _ xyz_deltas 0 0 = [1, 1, 0]
    unfold back_oop_cos_divisors
    simp only [oop_cos_row, xyz_deltas, if_pos, if_neg (show ¬ ((1 : Int) = 0) by decide),
      if_neg (show ¬ ((2 : Int) = 0) by decide), if_neg (show ¬ ((2 : Int) = 1) by decide)]
    norm_num
  have h3 : iclist_back_checked xyz_deltas (iclist_forward xyz_deltas [oop_cos_row]) = none := by
    rw [h1]
    have hc : ic_back_checked { oop_cos_row with value := 0, grad := 0 } xyz_deltas = none := by
      unfold ic_back_checked
      rw [if_neg]
      intro hall
      have h0 : (0 : ℝ) ∈ ic_back_divisors 6 { oop_cos_row with value := 0, grad := 0 }
          xyz_deltas 0 0 := by
        rw [h2]
        simp
      exact hall 0 h0 rfl
    simp only [iclist_back_checked, hc]
  refine ⟨h1, h2, h3, ?_⟩
  rw [h3]
  exact Option.noConfusion

/-! ## Theorems about the forward kernels -/

/-- C13 (zero-length bend, amended): when either referenced displacement has
zero norm, `forward_bend_cos` returns `0` and `forward_bend_angle` returns
`acos(0) = pi/2`. -/
theorem forward_bend_zero_norm (ic : iclist_row_type) (deltas : Int → dlist_row_type ℝ)
    (h : Real.sqrt ((deltas ic.i0).dx * (deltas ic.i0).dx + (deltas ic.i0).dy * (deltas ic.i0).dy
            + (deltas ic.i0).dz * (deltas ic.i0).dz) = 0
        ∨ Real.sqrt ((deltas ic.i1).dx * (deltas ic.i1).dx
            + (deltas ic.i1).dy * (deltas ic.i1).dy
            + (deltas ic.i1).dz * (deltas ic.i1).dz) = 0) :
    forward_bend_cos ic deltas = 0 ∧ forward_bend_angle ic deltas = Real.pi / 2 := by
  have hc : forward_bend_cos ic deltas = 0 := by
    unfold forward_bend_cos
    simp only [if_pos h]
  refine ⟨hc, ?_⟩
  unfold forward_bend_angle
  simp only [hc, Real.arccos_zero]

/-- C13, the claim as stated fails for the bend angle: on zero displacements
the kernel of kind `2` returns `pi/2`, which is not `0`. -/
theorem forward_bend_angle_zero_norm_not_zero :
    Real.sqrt ((zero_deltas bend_angle_row.i0).dx * (zero_deltas bend_angle_row.i0).dx
        + (zero_deltas bend_angle_row.i0).dy * (zero_deltas bend_angle_row.i0).dy
        + (zero_deltas bend_angle_row.i0).dz * (zero_deltas bend_angle_row.i0).dz) = 0
    ∧ ic_forward_fns bend_angle_row.kind bend_angle_row zero_deltas = Real.pi / 2
    ∧ ic_forward_fns bend_angle_row.kind bend_angle_row zero_deltas ≠ 0 := by
  have h0 : Real.sqrt ((zero_deltas bend_angle_row.i0).dx * (zero_deltas bend_angle_row.i0).dx
        + (zero_deltas bend_angle_row.i0).dy * (zero_deltas bend_angle_row.i0).dy
        + (zero_deltas bend_angle_row.i0).dz * (zero_deltas bend_angle_row.i0).dz) = 0 := by
    simp [zero_deltas]
  have hv : ic_forward_fns bend_angle_row.kind bend_angle_row zero_deltas = Real.pi / 2 := by
    show forward_bend_angle bend_angle_row zero_deltas = Real.pi / 2
    unfold forward_bend_angle forward_bend_cos
    simp [zero_deltas, Real.arccos_zero]
  refine ⟨h0, hv, ?_⟩
  rw [hv]
  exact ne_of_gt (by positivity)

/-- C13 at a concrete input: the bend row on zero displacements. -/
theorem forward_bend_zero_norm_witness :
    forward_bend_cos bend_angle_row zero_deltas = 0
    ∧ forward_bend_angle bend_angle_row zero_deltas = Real.pi / 2 :=
  forward_bend_zero_norm bend_angle_row zero_deltas (Or.inl (by simp [zero_deltas]))

theorem dot_sq_le (a0 a1 a2 b0 b1 b2 : ℝ) :
    (a0 * b0 + a1 * b1 + a2 * b2) * (a0 * b0 + a1 * b1 + a2 * b2)
      ≤ (a0 * a0 + a1 * a1 + a2 * a2) * (b0 * b0 + b1 * b1 + b2 * b2) := by
  nlinarith [sq_nonneg (a0 * b1 - a1 * b0), sq_nonneg (a1 * b2 - a2 * b1),
    sq_nonneg (a2 * b0 - a0 * b2)]

theorem sum_sq_nonneg (a0 a1 a2 : ℝ) : 0 ≤ a0 * a0 + a1 * a1 + a2 * a2 := by
  nlinarith [mul_self_nonneg a0, mul_self_nonneg a1, mul_self_nonneg a2]

/-- The out-of-plane cosine in exact arithmetic (no rounding, and `x / 0` read
as `0`): the argument of `sqrt` in `forward_oop_cos` is not negative, the value
returned lies in `[0, 1]`, and the guard of `forward_oop_angle` leaves it as it
is. This is a statement about real numbers; what the doubles do at the same
place is evaluated in the section on double precision. -/
theorem forward_oop_cos_range_exact (ic : iclist_row_type) (deltas : Int → dlist_row_type ℝ) :
    0 ≤ forward_oop_cos_arg ic deltas
    ∧ forward_oop_cos ic deltas = Real.sqrt (forward_oop_cos_arg ic deltas)
    ∧ 0 ≤ forward_oop_cos ic deltas
    ∧ forward_oop_cos ic deltas ≤ 1
    ∧ forward_oop_angle ic deltas = Real.arccos (forward_oop_cos ic deltas)
    ∧ -1 ≤ clamp_cos (forward_oop_cos ic deltas)
    ∧ clamp_cos (forward_oop_cos ic deltas) ≤ 1 := by
  have harg : 0 ≤ forward_oop_cos_arg ic deltas ∧ forward_oop_cos_arg ic deltas ≤ 1 := by
    unfold forward_oop_cos_arg
    simp only []
    generalize (deltas ic.i0).dy * (deltas ic.i1).dz - (deltas ic.i0).dz * (deltas ic.i1).dy = n0
    generalize (deltas ic.i0).dz * (deltas ic.i1).dx - (deltas ic.i0).dx * (deltas ic.i1).dz = n1
    generalize (deltas ic.i0).dx * (deltas ic.i1).dy - (deltas ic.i0).dy * (deltas ic.i1).dx = n2
    generalize (deltas ic.i2).dx = x
    generalize (deltas ic.i2).dy = y
    generalize (deltas ic.i2).dz = z
    have hn : 0 ≤ n0 * n0 + n1 * n1 + n2 * n2 := sum_sq_nonneg n0 n1 n2
    have ht : 0 ≤ x * x + y * y + z * z := sum_sq_nonneg x y z
    have hcs := dot_sq_le n0 n1 n2 x y z
    have hq0 : 0 ≤ (n0 * x + n1 * y + n2 * z) * (n0 * x + n1 * y + n2 * z)
        / (x * x + y * y + z * z) / (n0 * n0 + n1 * n1 + n2 * n2) :=
      div_nonneg (div_nonneg (mul_self_nonneg _) ht) hn
    have hq1 : (n0 * x + n1 * y + n2 * z) * (n0 * x + n1 * y + n2 * z)
        / (x * x + y * y + z * z) / (n0 * n0 + n1 * n1 + n2 * n2) ≤ 1 := by
      rw [div_div]
      apply div_le_one_of_le₀
      · rw [mul_comm (x * x + y * y + z * z)]
        exact hcs
      · exact mul_nonneg ht hn
    constructor
    · linarith
    · linarith
  have hdef : forward_oop_cos ic deltas = Real.sqrt (forward_oop_cos_arg ic deltas) := rfl
  have h0 : 0 ≤ forward_oop_cos ic deltas := by
    rw [hdef]
    exact Real.sqrt_nonneg _
  have h1 : forward_oop_cos ic deltas ≤ 1 := by
    rw [hdef]
    exact Real.sqrt_le_one.2 harg.2
  have hcl : clamp_cos (forward_oop_cos ic deltas) = forward_oop_cos ic deltas := by
    unfold clamp_cos
    rw [if_neg (not_lt.2 h1), if_neg (by linarith)]
  refine ⟨harg.1, hdef, h0, h1, ?_, ?_, ?_⟩
  · unfold forward_oop_angle
    simp only [hcl]
  · rw [hcl]
    linarith
  · rw [hcl]
    exact h1

/-- The bend cosine in exact arithmetic (no rounding): for signs in `{-1, +1}`
the result of `forward_bend_cos`, which `forward_bend_angle` passes to `acos`
as it is, lies in `[-1, 1]`. This is a statement about real numbers; what the
doubles do at the same place is evaluated in the section on double precision. -/
theorem forward_bend_cos_range_exact (ic : iclist_row_type) (deltas : Int → dlist_row_type ℝ)
    (hs0 : ic.sign0 = 1 ∨ ic.sign0 = -1) (hs1 : ic.sign1 = 1 ∨ ic.sign1 = -1) :
    forward_bend_angle ic deltas = Real.arccos (forward_bend_cos ic deltas)
    ∧ -1 ≤ forward_bend_cos ic deltas ∧ forward_bend_cos ic deltas ≤ 1 := by
  refine ⟨rfl, ?_⟩
  unfold forward_bend_cos
  simp only []
  generalize (deltas ic.i0).dx = a0
  generalize (deltas ic.i0).dy = a1
  generalize (deltas ic.i0).dz = a2
  generalize (deltas ic.i1).dx = b0
  generalize (deltas ic.i1).dy = b1
  generalize (deltas ic.i1).dz = b2
  by_cases hz : Real.sqrt (a0 * a0 + a1 * a1 + a2 * a2) = 0
      ∨ Real.sqrt (b0 * b0 + b1 * b1 + b2 * b2) = 0
  · rw [if_pos hz]
    constructor <;> norm_num
  · rw [if_neg hz]
    push_neg at hz
    have ha : 0 ≤ a0 * a0 + a1 * a1 + a2 * a2 := sum_sq_nonneg a0 a1 a2
    have hb : 0 ≤ b0 * b0 + b1 * b1 + b2 * b2 := sum_sq_nonneg b0 b1 b2
    have hd0 : 0 < Real.sqrt (a0 * a0 + a1 * a1 + a2 * a2) :=
      lt_of_le_of_ne (Real.sqrt_nonneg _) (Ne.symm hz.1)
    have hd1 : 0 < Real.sqrt (b0 * b0 + b1 * b1 + b2 * b2) :=
      lt_of_le_of_ne (Real.sqrt_nonneg _) (Ne.symm hz.2)
    have hsq0 := Real.mul_self_sqrt ha
    have hsq1 := Real.mul_self_sqrt hb
    have hcs := dot_sq_le a0 a1 a2 b0 b1 b2
    generalize Real.sqrt (a0 * a0 + a1 * a1 + a2 * a2) = d0 at hd0 hsq0 ⊢
    generalize Real.sqrt (b0 * b0 + b1 * b1 + b2 * b2) = d1 at hd1 hsq1 ⊢
    have hpos : 0 < d0 * d1 := mul_pos hd0 hd1
    have hbound : -(d0 * d1) ≤ a0 * b0 + a1 * b1 + a2 * b2
        ∧ a0 * b0 + a1 * b1 + a2 * b2 ≤ d0 * d1 := by
      apply abs_le_of_sq_le_sq' _ (le_of_lt hpos)
      rw [← hsq0, ← hsq1] at hcs
      nlinarith [hcs]
    have hs : ((ic.sign0 * ic.sign1 : Int) : ℝ) = 1 ∨ ((ic.sign0 * ic.sign1 : Int) : ℝ) = -1 := by
      rcases hs0 with h0 | h0 <;> rcases hs1 with h1 | h1 <;> simp [h0, h1]
    rw [div_div, le_div_iff₀ hpos, div_le_iff₀ hpos]
    rcases hs with h | h
    · rw [h]
      constructor <;> linarith [hbound.1, hbound.2]
    · rw [h]
      constructor <;> linarith [hbound.1, hbound.2]

/-! ## Theorems about the descriptor -/

/-- C17 (readiness of the descriptor): `pair_pot_ready` holds exactly when both
the parameter block and the kernel are attached; a descriptor from
`pair_pot_new` is not ready and has cutoff `0`; after `pair_data_lj_init` or
`pair_data_ei_init` it is ready; after `pair_data_free` it is not ready;
`pair_pot_set_cutoff` does not change readiness and `pair_pot_get_cutoff`
returns the value set last, also across attaching and freeing. -/
theorem pair_pot_lifecycle {D : Type} (pair_pot : pair_pot_type ℝ D)
    (sigma epsilon charges : Int → ℝ) (alpha cutoff : ℝ) :
    (pair_pot_ready pair_pot = true
        ↔ pair_pot.pair_data ≠ none ∧ pair_pot.pair_fn ≠ none)
    ∧ pair_pot_ready (pair_pot_new : pair_pot_type ℝ D) = false
    ∧ pair_pot_get_cutoff (pair_pot_new : pair_pot_type ℝ D) = 0
    ∧ pair_pot_ready (pair_data_lj_init pair_pot sigma epsilon) = true
    ∧ pair_pot_ready (pair_data_ei_init pair_pot charges alpha) = true
    ∧ pair_pot_ready (pair_data_free pair_pot) = false
    ∧ pair_pot_ready (pair_data_free (pair_data_lj_init pair_pot sigma epsilon)) = false
    ∧ pair_pot_ready (pair_data_free (pair_data_ei_init pair_pot charges alpha)) = false
    ∧ pair_pot_ready (pair_pot_set_cutoff pair_pot cutoff) = pair_pot_ready pair_pot
    ∧ pair_pot_get_cutoff (pair_pot_set_cutoff pair_pot cutoff) = cutoff
    ∧ pair_pot_get_cutoff (pair_data_lj_init (pair_pot_set_cutoff pair_pot cutoff) sigma epsilon)
        = cutoff
    ∧ pair_pot_get_cutoff (pair_data_ei_init (pair_pot_set_cutoff pair_pot cutoff) charges alpha)
        = cutoff
    ∧ pair_pot_get_cutoff (pair_data_free (pair_pot_set_cutoff pair_pot cutoff)) = cutoff := by
  refine ⟨?_, rfl, rfl, rfl, rfl, rfl, rfl, rfl, rfl, rfl, rfl, rfl, rfl⟩
  unfold pair_pot_ready
  rw [Bool.and_eq_true, Option.isSome_iff_ne_none, Option.isSome_iff_ne_none]

theorem pair_fn_call_no_kernel {α : Type} {D : Type} (pair_pot : pair_pot_type α D)
    (hfn : pair_pot.pair_fn = none) (center_index other_index : Int) (d : α)
    (g : Bool) : pair_fn_call pair_pot center_index other_index d g = none := by
  unfold pair_fn_call
  rw [hfn]

theorem scan_loop_no_kernel {α : Type} [LinearOrderedField α] {D : Type} (center_index : Int)
    (scaling : List (scaling_row_type α)) (pair_pot : pair_pot_type α D)
    (hfn : pair_pot.pair_fn = none) (nlist : List (nlist_row_type α))
    (st st1 : scan_state α)
    (h : scan_loop center_index scaling pair_pot nlist st = some st1) :
    st1.energy = st.energy ∧ st1.gradient = st.gradient := by
  induction nlist generalizing st with
  | nil =>
    simp only [scan_loop, Option.some.injEq] at h
    rw [h]
    exact ⟨rfl, rfl⟩
  | cons row rest ih =>
    simp only [scan_loop] at h
    cases hrow : scan_row center_index scaling pair_pot st row with
    | none => simp [hrow] at h
    | some st2 =>
      rw [hrow] at h
      have h2 := ih st2 h
      have h3 : st2.energy = st.energy ∧ st2.gradient = st.gradient := by
        unfold scan_row at hrow
        by_cases hd : row.d < pair_pot.cutoff
        · rw [if_pos hd] at hrow
          simp only [] at hrow
          by_cases hs : (select_scale center_index scaling st.scaling_counter row).1 > 0
          · rw [if_pos hs] at hrow
            have hacc : accumulate center_index pair_pot st.energy st.gradient row
                (select_scale center_index scaling st.scaling_counter row).1 = none := by
              unfold accumulate
              cases st.gradient with
              | none => simp only [pair_fn_call_no_kernel pair_pot hfn]
              | some g => simp only [pair_fn_call_no_kernel pair_pot hfn]
            rw [hacc] at hrow
            cases hrow
          · rw [if_neg hs] at hrow
            cases hrow
            exact ⟨rfl, rfl⟩
        · rw [if_neg hd] at hrow
          cases hrow
          exact ⟨rfl, rfl⟩
      exact ⟨h2.1.trans h3.1, h2.2.trans h3.2⟩

theorem scan_loop_zero_cutoff {α : Type} [LinearOrderedField α] {D : Type} (center_index : Int)
    (scaling : List (scaling_row_type α)) (pair_pot : pair_pot_type α D)
    (nlist : List (nlist_row_type α)) (hd : ∀ row ∈ nlist, pair_pot.cutoff ≤ row.d)
    (st : scan_state α) :
    scan_loop center_index scaling pair_pot nlist st = some st := by
  induction nlist with
  | nil => rfl
  | cons row rest ih =>
    have h : ¬ row.d < pair_pot.cutoff := not_lt.2 (hd row (List.mem_cons_self _ _))
    simp only [scan_loop, scan_row, if_neg h]
    exact ih (fun r hr => hd r (List.mem_cons_of_mem _ hr))

/-- C16 (not-ready, amended): `pair_pot_energy_gradient` tests neither
`pair_pot_ready` nor the two pointers and has no error to report. On a
descriptor fresh from `pair_pot_new`, whose cutoff is `0`, the scan of any
neighbour list with distances `d ≥ 0` returns the energy `0` and the gradient
buffer it was given; and on any descriptor without a kernel (fresh, or after
`pair_data_free`), whenever the scan returns, it returns just that. Nothing is
said here about a descriptor that has a kernel but no parameter block: the
kernel is then run on the `NULL` block. -/
theorem pair_pot_energy_gradient_not_ready {α : Type} [LinearOrderedField α] {D : Type}
    (center_index : Int) (nlist : List (nlist_row_type α))
    (scaling : List (scaling_row_type α)) (gradient : Option (Int → α)) :
    ((∀ row ∈ nlist, 0 ≤ row.d) →
      pair_pot_energy_gradient center_index nlist scaling (pair_pot_new : pair_pot_type α D)
          gradient = some (0, gradient))
    ∧ (∀ (pair_pot : pair_pot_type α D) (r : α × Option (Int → α)),
      pair_pot.pair_fn = none →
      pair_pot_energy_gradient center_index nlist scaling pair_pot gradient = some r →
      r = (0, gradient))
    ∧ (∀ (pair_pot : pair_pot_type α D) (r : α × Option (Int → α)),
      pair_pot_energy_gradient center_index nlist scaling (pair_data_free pair_pot) gradient
          = some r →
      r = (0, gradient)) := by
  have hno : ∀ (pair_pot : pair_pot_type α D) (r : α × Option (Int → α)),
      pair_pot.pair_fn = none →
      pair_pot_energy_gradient center_index nlist scaling pair_pot gradient = some r →
      r = (0, gradient) := by
    intro pair_pot r hfn h
    unfold pair_pot_energy_gradient at h
    cases hl : scan_loop center_index scaling pair_pot nlist
        { energy := 0, scaling_counter := 0, gradient := gradient } with
    | none => simp [hl] at h
    | some st1 =>
      rw [hl] at h
      simp only [Option.some.injEq] at h
      obtain ⟨h1, h2⟩ := scan_loop_no_kernel center_index scaling pair_pot hfn nlist _ st1 hl
      rw [← h, h1, h2]
  refine ⟨?_, hno, fun pair_pot r h => hno (pair_data_free pair_pot) r rfl h⟩
  intro hd
  unfold pair_pot_energy_gradient
  rw [scan_loop_zero_cutoff center_index scaling pair_pot_new nlist hd]

/-- C16, the claim as stated fails: a descriptor fresh from `pair_pot_new` is
not ready, and the scan of a neighbour row at distance `1` returns the energy
`0` as a value, not an error; a descriptor with the kernel `unit_pair_fn` and
no parameter block is not ready either, and the scan of the same row runs the
kernel and returns its energy `1`. -/
theorem pair_pot_energy_gradient_new_returns :
    pair_pot_ready (pair_pot_new : pair_pot_type ℚ Unit) = false
    ∧ pair_pot_energy_gradient 0 [home_row 1] [] (pair_pot_new : pair_pot_type ℚ Unit) none
        = some (0, none)
    ∧ pair_pot_energy_gradient 0 [home_row 1] [] (pair_pot_new : pair_pot_type ℚ Unit) none
        ≠ none
    ∧ pair_pot_ready unit_pair_pot_no_data = false
    ∧ pair_pot_energy_gradient 0 [home_row 1] [] unit_pair_pot_no_data none
        = some (1, none) := by
  have h : pair_pot_energy_gradient 0 [home_row 1] [] (pair_pot_new : pair_pot_type ℚ Unit) none
      = some (0, none) := by
    unfold pair_pot_energy_gradient scan_loop scan_row
    norm_num [scan_loop, pair_pot_new, home_row]
  have h2 : pair_pot_energy_gradient 0 [home_row 1] [] unit_pair_pot_no_data none
      = some (1, none) := by
    unfold pair_pot_energy_gradient scan_loop scan_row select_scale get_scaling
    norm_num [scan_loop, accumulate, pair_fn_call, unit_pair_pot_no_data, unit_pair_fn_ptr,
      unit_pair_fn, home_row]
  refine ⟨rfl, h, ?_, rfl, h2⟩
  rw [h]
  exact Option.some_ne_none _

/-- C16 at a concrete input: the fresh descriptor and one neighbour row at
distance `1`. -/
theorem pair_pot_energy_gradient_not_ready_witness :
    pair_pot_energy_gradient 0 [home_row 1] [] (pair_pot_new : pair_pot_type ℚ Unit) none
      = some (0, none) :=
  (pair_pot_energy_gradient_not_ready 0 [home_row 1] [] none).1
    (by simp [home_row])

/-! ## Theorems about the back kernels of the bend -/

theorem add_gx_dx {α : Type} [LinearOrderedField α] (deltas : Int → dlist_row_type α)
    (k : Int) (v : α) (x : Int) : (add_gx deltas k v x).dx = (deltas x).dx := by
  unfold add_gx
  by_cases h : x = k
  · rw [h, Function.update_same]
  · rw [Function.update_noteq h]

theorem add_gx_dy {α : Type} [LinearOrderedField α] (deltas : Int → dlist_row_type α)
    (k : Int) (v : α) (x : Int) : (add_gx deltas k v x).dy = (deltas x).dy := by
  unfold add_gx
  by_cases h : x = k
  · rw [h, Function.update_same]
  · rw [Function.update_noteq h]

theorem add_gx_dz {α : Type} [LinearOrderedField α] (deltas : Int → dlist_row_type α)
    (k : Int) (v : α) (x : Int) : (add_gx deltas k v x).dz = (deltas x).dz := by
  unfold add_gx
  by_cases h : x = k
  · rw [h, Function.update_same]
  · rw [Function.update_noteq h]

theorem add_gx_gx {α : Type} [LinearOrderedField α] (deltas : Int → dlist_row_type α)
    (k : Int) (v : α) (x : Int) :
    (add_gx deltas k v x).gx = (deltas x).gx + (if x = k then v else 0) := by
  unfold add_gx
  by_cases h : x = k
  · rw [h, Function.update_same, if_pos rfl]
  · rw [Function.update_noteq h, if_neg h, add_zero]

theorem add_gx_gy {α : Type} [LinearOrderedField α] (deltas : Int → dlist_row_type α)
    (k : Int) (v : α) (x : Int) : (add_gx deltas k v x).gy = (deltas x).gy := by
  unfold add_gx
  by_cases h : x = k
  · rw [h, Function.update_same]
  · rw [Function.update_noteq h]

theorem add_gx_gz {α : Type} [LinearOrderedField α] (deltas : Int → dlist_row_type α)
    (k : Int) (v : α) (x : Int) : (add_gx deltas k v x).gz = (deltas x).gz := by
  unfold add_gx
  by_cases h : x = k
  · rw [h, Function.update_same]
  · rw [Function.update_noteq h]

theorem add_gx_i {α : Type} [LinearOrderedField α] (deltas : Int → dlist_row_type α)
    (k : Int) (v : α) (x : Int) : (add_gx deltas k v x).i = (deltas x).i := by
  unfold add_gx
  by_cases h : x = k
  · rw [h, Function.update_same]
  · rw [Function.update_noteq h]

theorem add_gx_j {α : Type} [LinearOrderedField α] (deltas : Int → dlist_row_type α)
    (k : Int) (v : α) (x : Int) : (add_gx deltas k v x).j = (deltas x).j := by
  unfold add_gx
  by_cases h : x = k
  · rw [h, Function.update_same]
  · rw [Function.update_noteq h]

theorem add_gy_dx {α : Type} [LinearOrderedField α] (deltas : Int → dlist_row_type α)
    (k : Int) (v : α) (x : Int) : (add_gy deltas k v x).dx = (deltas x).dx := by
  unfold add_gy
  by_cases h : x = k
  · rw [h, Function.update_same]
  · rw [Function.update_noteq h]

theorem add_gy_dy {α : Type} [LinearOrderedField α] (deltas : Int → dlist_row_type α)
    (k : Int) (v : α) (x : Int) : (add_gy deltas k v x).dy = (deltas x).dy := by
  unfold add_gy
  by_cases h : x = k
  · rw [h, Function.update_same]
  · rw [Function.update_noteq h]

theorem add_gy_dz {α : Type} [LinearOrderedField α] (deltas : Int → dlist_row_type α)
    (k : Int) (v : α) (x : Int) : (add_gy deltas k v x).dz = (deltas x).dz := by
  unfold add_gy
  by_cases h : x = k
  · rw [h, Function.update_same]
  · rw [Function.update_noteq h]

theorem add_gy_gx {α : Type} [LinearOrderedField α] (deltas : Int → dlist_row_type α)
    (k : Int) (v : α) (x : Int) : (add_gy deltas k v x).gx = (deltas x).gx := by
  unfold add_gy
  by_cases h : x = k
  · rw [h, Function.update_same]
  · rw [Function.update_noteq h]

theorem add_gy_gy {α : Type} [LinearOrderedField α] (deltas : Int → dlist_row_type α)
    (k : Int) (v : α) (x : Int) :
    (add_gy deltas k v x).gy = (deltas x).gy + (if x = k then v else 0) := by
  unfold add_gy
  by_cases h : x = k
  · rw [h, Function.update_same, if_pos rfl]
  · rw [Function.update_noteq h, if_neg h, add_zero]

theorem add_gy_gz {α : Type} [LinearOrderedField α] (deltas : Int → dlist_row_type α)
    (k : Int) (v : α) (x : Int) : (add_gy deltas k v x).gz = (deltas x).gz := by
  unfold add_gy
  by_cases h : x = k
  · rw [h, Function.update_same]
  · rw [Function.update_noteq h]

theorem add_gy_i {α : Type} [LinearOrderedField α] (deltas : Int → dlist_row_type α)
    (k : Int) (v : α) (x : Int) : (add_gy deltas k v x).i = (deltas x).i := by
  unfold add_gy
  by_cases h : x = k
  · rw [h, Function.update_same]
  · rw [Function.update_noteq h]

theorem add_gy_j {α : Type} [LinearOrderedField α] (deltas : Int → dlist_row_type α)
    (k : Int) (v : α) (x : Int) : (add_gy deltas k v x).j = (deltas x).j := by
  unfold add_gy
  by_cases h : x = k
  · rw [h, Function.update_same]
  · rw [Function.update_noteq h]

theorem add_gz_dx {α : Type} [LinearOrderedField α] (deltas : Int → dlist_row_type α)
    (k : Int) (v : α) (x : Int) : (add_gz deltas k v x).dx = (deltas x).dx := by
  unfold add_gz
  by_cases h : x = k
  · rw [h, Function.update_same]
  · rw [Function.update_noteq h]

theorem add_gz_dy {α : Type} [LinearOrderedField α] (deltas : Int → dlist_row_type α)
    (k : Int) (v : α) (x : Int) : (add_gz deltas k v x).dy = (deltas x).dy := by
  unfold add_gz
  by_cases h : x = k
  · rw [h, Function.update_same]
  · rw [Function.update_noteq h]

theorem add_gz_dz {α : Type} [LinearOrderedField α] (deltas : Int → dlist_row_type α)
    (k : Int) (v : α) (x : Int) : (add_gz deltas k v x).dz = (deltas x).dz := by
  unfold add_gz
  by_cases h : x = k
  · rw [h, Function.update_same]
  · rw [Function.update_noteq h]

theorem add_gz_gx {α : Type} [LinearOrderedField α] (deltas : Int → dlist_row_type α)
    (k : Int) (v : α) (x : Int) : (add_gz deltas k v x).gx = (deltas x).gx := by
  unfold add_gz
  by_cases h : x = k
  · rw [h, Function.update_same]
  · rw [Function.update_noteq h]

theorem add_gz_gy {α : Type} [LinearOrderedField α] (deltas : Int → dlist_row_type α)
    (k : Int) (v : α) (x : Int) : (add_gz deltas k v x).gy = (deltas x).gy := by
  unfold add_gz
  by_cases h : x = k
  · rw [h, Function.update_same]
  · rw [Function.update_noteq h]

theorem add_gz_gz {α : Type} [LinearOrderedField α] (deltas : Int → dlist_row_type α)
    (k : Int) (v : α) (x : Int) :
    (add_gz deltas k v x).gz = (deltas x).gz + (if x = k then v else 0) := by
  unfold add_gz
  by_cases h : x = k
  · rw [h, Function.update_same, if_pos rfl]
  · rw [Function.update_noteq h, if_neg h, add_zero]

theorem add_gz_i {α : Type} [LinearOrderedField α] (deltas : Int → dlist_row_type α)
    (k : Int) (v : α) (x : Int) : (add_gz deltas k v x).i = (deltas x).i := by
  unfold add_gz
  by_cases h : x = k
  · rw [h, Function.update_same]
  · rw [Function.update_noteq h]

theorem add_gz_j {α : Type} [LinearOrderedField α] (deltas : Int → dlist_row_type α)
    (k : Int) (v : α) (x : Int) : (add_gz deltas k v x).j = (deltas x).j := by
  unfold add_gz
  by_cases h : x = k
  · rw [h, Function.update_same]
  · rw [Function.update_noteq h]

theorem back_bend_cos_apply (ic : iclist_row_type) (deltas : Int → dlist_row_type ℝ)
    (c g d0 d1 s : ℝ)
    (hd0 : d0 = Real.sqrt ((deltas ic.i0).dx * (deltas ic.i0).dx
      + (deltas ic.i0).dy * (deltas ic.i0).dy + (deltas ic.i0).dz * (deltas ic.i0).dz))
    (hd1 : d1 = Real.sqrt ((deltas ic.i1).dx * (deltas ic.i1).dx
      + (deltas ic.i1).dy * (deltas ic.i1).dy + (deltas ic.i1).dz * (deltas ic.i1).dz))
    (hs : s = ((ic.sign0 * ic.sign1 : Int) : ℝ)) (k : Int) :
    (back_bend_cos ic deltas c g k).gx
        = (deltas k).gx
          + (if k = ic.i0 then
              s * g / d0 * ((deltas ic.i1).dx / d1 - s * c * ((deltas ic.i0).dx / d0)) else 0)
          + (if k = ic.i1 then
              s * g / d1 * ((deltas ic.i0).dx / d0 - s * c * ((deltas ic.i1).dx / d1)) else 0)
    ∧ (back_bend_cos ic deltas c g k).gy
        = (deltas k).gy
          + (if k = ic.i0 then
              s * g / d0 * ((deltas ic.i1).dy / d1 - s * c * ((deltas ic.i0).dy / d0)) else 0)
          + (if k = ic.i1 then
              s * g / d1 * ((deltas ic.i0).dy / d0 - s * c * ((deltas ic.i1).dy / d1)) else 0)
    ∧ (back_bend_cos ic deltas c g k).gz
        = (deltas k).gz
          + (if k = ic.i0 then
              s * g / d0 * ((deltas ic.i1).dz / d1 - s * c * ((deltas ic.i0).dz / d0)) else 0)
          + (if k = ic.i1 then
              s * g / d1 * ((deltas ic.i0).dz / d0 - s * c * ((deltas ic.i1).dz / d1)) else 0)
    ∧ (back_bend_cos ic deltas c g k).dx = (deltas k).dx
    ∧ (back_bend_cos ic deltas c g k).dy = (deltas k).dy
    ∧ (back_bend_cos ic deltas c g k).dz = (deltas k).dz
    ∧ (back_bend_cos ic deltas c g k).i = (deltas k).i
    ∧ (back_bend_cos ic deltas c g k).j = (deltas k).j := by
  subst hd0 hd1 hs
  unfold back_bend_cos
  simp only [add_gx_gx, add_gx_gy, add_gx_gz, add_gx_dx, add_gx_dy, add_gx_dz, add_gx_i,
    add_gx_j, add_gy_gx, add_gy_gy, add_gy_gz, add_gy_dx, add_gy_dy, add_gy_dz, add_gy_i,
    add_gy_j, add_gz_gx, add_gz_gy, add_gz_gz, add_gz_dx, add_gz_dy, add_gz_dz, add_gz_i,
    add_gz_j]
  refine ⟨?_, ?_, ?_, trivial, trivial, trivial, trivial, trivial⟩
  all_goals
    by_cases h0 : k = ic.i0
    · by_cases h1 : k = ic.i1
      · have h01 : ic.i0 = ic.i1 := h0.symm.trans h1
        simp only [h0, h01, if_true]
        ring
      · have h01 : ¬ ic.i0 = ic.i1 := fun h => h1 (h0.trans h)
        simp only [h0, if_neg h01, if_true]
        ring
    · by_cases h1 : k = ic.i1
      · have h10 : ¬ ic.i1 = ic.i0 := fun h => h0 (h1.trans h)
        simp only [h1, if_neg h10, if_true]
        ring
      · simp only [if_neg h0, if_neg h1]

/-- C18 (bend-cos back formula, amended): for a row with signs in `{-1, +1}`,
non-zero displacements with norms `d0`, `d1`, the value `c` set by the forward
pass and a scalar gradient `g`, with `s = sign0 * sign1`, `back_bend_cos` adds
`(s*g/d0) * (e1 - s*c*e0)` to the accumulator of row `i0` and
`(s*g/d1) * (e0 - s*c*e1)` to the accumulator of row `i1` (both to the same row
when `i0 = i1`), where `s*c` is the cosine `e0.e1` without the signs; no other
field of the table changes. -/
theorem back_bend_cos_formula (ic : iclist_row_type) (deltas : Int → dlist_row_type ℝ)
    (c g d0 d1 s : ℝ)
    (hd0 : d0 = Real.sqrt ((deltas ic.i0).dx * (deltas ic.i0).dx
      + (deltas ic.i0).dy * (deltas ic.i0).dy + (deltas ic.i0).dz * (deltas ic.i0).dz))
    (hd1 : d1 = Real.sqrt ((deltas ic.i1).dx * (deltas ic.i1).dx
      + (deltas ic.i1).dy * (deltas ic.i1).dy + (deltas ic.i1).dz * (deltas ic.i1).dz))
    (hs : s = ((ic.sign0 * ic.sign1 : Int) : ℝ))
    (hs0 : ic.sign0 = 1 ∨ ic.sign0 = -1) (hs1 : ic.sign1 = 1 ∨ ic.sign1 = -1)
    (hn0 : d0 ≠ 0) (hn1 : d1 ≠ 0) (hc : c = forward_bend_cos ic deltas) (k : Int) :
    (back_bend_cos ic deltas c g k).gx
        = (deltas k).gx
          + (if k = ic.i0 then
              s * g / d0 * ((deltas ic.i1).dx / d1 - s * c * ((deltas ic.i0).dx / d0)) else 0)
          + (if k = ic.i1 then
              s * g / d1 * ((deltas ic.i0).dx / d0 - s * c * ((deltas ic.i1).dx / d1)) else 0)
    ∧ (back_bend_cos ic deltas c g k).gy
        = (deltas k).gy
          + (if k = ic.i0 then
              s * g / d0 * ((deltas ic.i1).dy / d1 - s * c * ((deltas ic.i0).dy / d0)) else 0)
          + (if k = ic.i1 then
              s * g / d1 * ((deltas ic.i0).dy / d0 - s * c * ((deltas ic.i1).dy / d1)) else 0)
    ∧ (back_bend_cos ic deltas c g k).gz
        = (deltas k).gz
          + (if k = ic.i0 then
              s * g / d0 * ((deltas ic.i1).dz / d1 - s * c * ((deltas ic.i0).dz / d0)) else 0)
          + (if k = ic.i1 then
              s * g / d1 * ((deltas ic.i0).dz / d0 - s * c * ((deltas ic.i1).dz / d1)) else 0)
    ∧ s * c = (deltas ic.i0).dx / d0 * ((deltas ic.i1).dx / d1)
        + (deltas ic.i0).dy / d0 * ((deltas ic.i1).dy / d1)
        + (deltas ic.i0).dz / d0 * ((deltas ic.i1).dz / d1)
    ∧ (back_bend_cos ic deltas c g k).dx = (deltas k).dx
    ∧ (back_bend_cos ic deltas c g k).dy = (deltas k).dy
    ∧ (back_bend_cos ic deltas c g k).dz = (deltas k).dz
    ∧ (back_bend_cos ic deltas c g k).i = (deltas k).i
    ∧ (back_bend_cos ic deltas c g k).j = (deltas k).j := by
  obtain ⟨h1, h2, h3, h4, h5, h6, h7, h8⟩ :=
    back_bend_cos_apply ic deltas c g d0 d1 s hd0 hd1 hs k
  refine ⟨h1, h2, h3, ?_, h4, h5, h6, h7, h8⟩
  have hss : s * s = 1 := by
    rw [hs]
    rcases hs0 with h | h <;> rcases hs1 with h' | h' <;> simp [h, h']
  have hz : ¬ (d0 = 0 ∨ d1 = 0) := fun h => h.elim hn0 hn1
  rw [hc]
  unfold forward_bend_cos
  simp only [← hd0, ← hd1, ← hs, if_neg hz]
  field_simp
  linear_combination ((deltas ic.i0).dx * (deltas ic.i1).dx
    + (deltas ic.i0).dy * (deltas ic.i1).dy + (deltas ic.i0).dz * (deltas ic.i1).dz) * hss

theorem sqrt_one_zero_zero : Real.sqrt (1 * 1 + 0 * 0 + 0 * 0) = 1 := by
  rw [show (1 * 1 + 0 * 0 + 0 * 0 : ℝ) = 1 * 1 by norm_num]
  exact Real.sqrt_mul_self (by norm_num)

theorem sqrt_three_four_zero : Real.sqrt (3 * 3 + 4 * 4 + 0 * 0) = 5 := by
  rw [show (3 * 3 + 4 * 4 + 0 * 0 : ℝ) = 5 * 5 by norm_num]
  exact Real.sqrt_mul_self (by norm_num)

theorem bend_cos_row_forward : forward_bend_cos bend_cos_row bend_deltas = -3 / 5 := by
  unfold forward_bend_cos
  simp only [bend_cos_row, bend_deltas, if_true, if_neg (show ¬ ((1 : Int) = 0) by decide),
    sqrt_one_zero_zero, sqrt_three_four_zero]
  norm_num

/-- C18, the claim as stated fails: with `sign0 = +1`, `sign1 = -1`,
displacements `(1,0,0)` and `(3,4,0)`, the forward value `c = -3/5` and `g = 1`,
`back_bend_cos` leaves `gx` of row `0` at `0`, where the claimed increment
`(s*g/d0) * (e1 - c*e0)` has the x component
`(-1 * 1 / 1) * (3/5 - (-3/5) * (1/1)) = -6/5`. -/
theorem back_bend_cos_claimed_formula_fails :
    forward_bend_cos bend_cos_row bend_deltas = -3 / 5
    ∧ (back_bend_cos bend_cos_row bend_deltas (-3 / 5) 1 0).gx = 0
    ∧ (back_bend_cos bend_cos_row bend_deltas (-3 / 5) 1 0).gx
        ≠ (bend_deltas 0).gx + (-1 * 1 / 1) * (3 / 5 - (-3 / 5) * (1 / 1)) := by
  have hgx : (back_bend_cos bend_cos_row bend_deltas (-3 / 5) 1 0).gx = 0 := by
    have h := (back_bend_cos_apply bend_cos_row bend_deltas (-3 / 5) 1 1 5 (-1)
      (by simp only [bend_cos_row, bend_deltas, if_true, sqrt_one_zero_zero])
      (by simp only [bend_cos_row, bend_deltas, if_neg (show ¬ ((1 : Int) = 0) by decide),
            sqrt_three_four_zero])
      (by simp [bend_cos_row]) 0).1
    rw [h]
    simp only [bend_cos_row, bend_deltas, if_true, if_neg (show ¬ ((1 : Int) = 0) by decide),
      if_neg (show ¬ ((0 : Int) = 1) by decide)]
    norm_num
  refine ⟨bend_cos_row_forward, hgx, ?_⟩
  rw [hgx]
  simp only [bend_deltas, if_true]
  norm_num

/-- C18 at a concrete input: the row with signs `+1`, `-1` on the displacements
`(1,0,0)` and `(3,4,0)`, `g = 1`; the product `s*c` is the cosine `3/5`. -/
theorem back_bend_cos_formula_witness :
    (-1 : ℝ) * (-3 / 5)
      = (bend_deltas bend_cos_row.i0).dx / 1 * ((bend_deltas bend_cos_row.i1).dx / 5)
        + (bend_deltas bend_cos_row.i0).dy / 1 * ((bend_deltas bend_cos_row.i1).dy / 5)
        + (bend_deltas bend_cos_row.i0).dz / 1 * ((bend_deltas bend_cos_row.i1).dz / 5) :=
  (back_bend_cos_formula bend_cos_row bend_deltas (-3 / 5) 1 1 5 (-1)
    (by simp only [bend_cos_row, bend_deltas, if_true, sqrt_one_zero_zero])
    (by simp only [bend_cos_row, bend_deltas, if_neg (show ¬ ((1 : Int) = 0) by decide),
          sqrt_three_four_zero])
    (by simp [bend_cos_row]) (Or.inl rfl) (Or.inr rfl) (by norm_num) (by norm_num)
    bend_cos_row_forward.symm 0).2.2.2.1

theorem angle_scalars_at_sin_zero (value grad : ℝ) (h : Real.sin value = 0) :
    back_bend_angle_scalar value grad = none
    ∧ back_dihed_angle_scalar value grad = some 0
    ∧ back_oop_angle_scalar value grad = some 0 := by
  refine ⟨?_, ?_, ?_⟩
  · simp [back_bend_angle_scalar, checked_div, h]
  · simp [back_dihed_angle_scalar, h]
  · simp [back_oop_angle_scalar, h]

/-- C19, the code at the failing input: at `value = 0` (the collinear bend,
`sin(value) = 0`) and `grad = 1` the scalar `-grad/sin(value)` of
`back_bend_angle` is a quotient with divisor `0`, while the scalars of
`back_dihed_angle` and `back_oop_angle` are `0`, found without a division, and
these two kernels leave the table as it was; the same at `value = pi`. -/
theorem back_bend_angle_divides_by_zero :
    Real.sin 0 = 0
    ∧ back_bend_angle_scalar 0 1 = none
    ∧ back_dihed_angle_scalar 0 1 = some 0
    ∧ back_oop_angle_scalar 0 1 = some 0
    ∧ Real.sin Real.pi = 0
    ∧ back_bend_angle_scalar Real.pi 1 = none
    ∧ back_dihed_angle_scalar Real.pi 1 = some 0
    ∧ back_oop_angle_scalar Real.pi 1 = some 0
    ∧ back_bend_angle bend_angle_row zero_deltas 0 1
        = back_bend_cos bend_angle_row zero_deltas (Real.cos 0) (-1 / Real.sin 0)
    ∧ (∀ (ic : iclist_row_type) (deltas : Int → dlist_row_type ℝ) (grad : ℝ),
        back_dihed_angle ic deltas 0 grad = deltas
        ∧ back_oop_angle ic deltas 0 grad = deltas
        ∧ back_dihed_angle ic deltas Real.pi grad = deltas
        ∧ back_oop_angle ic deltas Real.pi grad = deltas) := by
  obtain ⟨h1, h2, h3⟩ := angle_scalars_at_sin_zero 0 1 Real.sin_zero
  obtain ⟨h4, h5, h6⟩ := angle_scalars_at_sin_zero Real.pi 1 Real.sin_pi
  refine ⟨Real.sin_zero, h1, h2, h3, Real.sin_pi, h4, h5, h6, rfl, ?_⟩
  intro ic deltas grad
  refine ⟨?_, ?_, ?_, ?_⟩
  · simp only [back_dihed_angle, Real.sin_zero, ne_eq, not_true_eq_false, if_false]
    exact back_dihed_cos_zero ic deltas _
  · simp only [back_oop_angle, Real.sin_zero, ne_eq, not_true_eq_false, if_false]
    exact back_oop_cos_zero ic deltas _
  · simp only [back_dihed_angle, Real.sin_pi, ne_eq, not_true_eq_false, if_false]
    exact back_dihed_cos_zero ic deltas _
  · simp only [back_oop_angle, Real.sin_pi, ne_eq, not_true_eq_false, if_false]
    exact back_oop_cos_zero ic deltas _

/-! ## The scaling counter across a scan -/

theorem get_scaling_while_bounds {α : Type} [LinearOrderedField α]
    (scaling : List (scaling_row_type α)) (o : Int) (n : Nat) :
    ∀ (c : Nat) (hc : c < scaling.length), scaling.length - c = n →
      c ≤ (get_scaling_while scaling o c hc).2
      ∧ (get_scaling_while scaling o c hc).2 ≤ scaling.length := by
  induction n with
  | zero =>
    intro c hc hn
    omega
  | succ n ih =>
    intro c hc hn
    rw [get_scaling_while]
    by_cases hlt : scaling[c].i < o
    · simp only [if_pos hlt]
      by_cases hend : c + 1 ≥ scaling.length
      · simp only [dif_pos hend]
        exact ⟨Nat.le_succ c, by omega⟩
      · simp only [dif_neg hend]
        obtain ⟨h1, h2⟩ := ih (c + 1) (by omega) (by omega)
        exact ⟨by omega, h2⟩
    · simp only [if_neg hlt]
      by_cases heq : scaling[c].i = o
      · simp only [if_pos heq]
        exact ⟨le_refl c, le_of_lt hc⟩
      · simp only [if_neg heq]
        exact ⟨le_refl c, le_of_lt hc⟩

theorem get_scaling_bounds {α : Type} [LinearOrderedField α]
    (scaling : List (scaling_row_type α)) (center_index o : Int) (c : Nat) :
    c ≤ (get_scaling scaling center_index o c).2
    ∧ (c ≤ scaling.length → (get_scaling scaling center_index o c).2 ≤ scaling.length) := by
  unfold get_scaling
  by_cases hcen : o = center_index
  · simp only [if_pos hcen]
    exact ⟨le_refl c, fun h => h⟩
  · simp only [if_neg hcen]
    by_cases hend : c ≥ scaling.length
    · simp only [dif_pos hend]
      exact ⟨le_refl c, fun h => h⟩
    · simp only [dif_neg hend]
      obtain ⟨h1, h2⟩ := get_scaling_while_bounds scaling o (scaling.length - c) c (by omega) rfl
      exact ⟨h1, fun _ => h2⟩

theorem get_scaling_while_raw_eq {α : Type} [LinearOrderedField α]
    (scaling : List (scaling_row_type α)) (o : Int) (fuel : Nat) :
    ∀ (c : Nat) (hc : c < scaling.length), scaling.length - c ≤ fuel →
      get_scaling_while_raw scaling scaling.length o fuel c
        = loop_result.done (get_scaling_while scaling o c hc) := by
  induction fuel with
  | zero =>
    intro c hc hf
    omega
  | succ fuel ih =>
    intro c hc hf
    rw [get_scaling_while]
    simp only [get_scaling_while_raw, List.getElem?_eq_getElem hc]
    by_cases hlt : scaling[c].i < o
    · simp only [if_pos hlt]
      by_cases hend : c + 1 ≥ scaling.length
      · simp only [if_pos hend, dif_pos hend]
      · simp only [if_neg hend, dif_neg hend]
        exact ih (c + 1) (by omega) (by omega)
    · simp only [if_neg hlt]
      by_cases heq : scaling[c].i = o
      · simp only [if_pos heq]
      · simp only [if_neg heq]

theorem get_scaling_raw_eq {α : Type} [LinearOrderedField α]
    (scaling : List (scaling_row_type α)) (center_index o : Int) (fuel c : Nat)
    (hf : scaling.length - c ≤ fuel) :
    get_scaling_raw scaling scaling.length center_index o fuel c
      = loop_result.done (get_scaling scaling center_index o c) := by
  unfold get_scaling_raw get_scaling
  by_cases hcen : o = center_index
  · simp only [if_pos hcen]
  · simp only [if_neg hcen]
    by_cases hend : c ≥ scaling.length
    · simp only [if_pos hend, dif_pos hend]
    · simp only [if_neg hend, dif_neg hend]
      exact get_scaling_while_raw_eq scaling o fuel c (by omega) hf

theorem scan_row_counter {α : Type} [LinearOrderedField α] {D : Type} (center_index : Int)
    (scaling : List (scaling_row_type α)) (pair_pot : pair_pot_type α D)
    (st st1 : scan_state α) (row : nlist_row_type α)
    (h : scan_row center_index scaling pair_pot st row = some st1) :
    st1.scaling_counter = st.scaling_counter
    ∨ st1.scaling_counter = (get_scaling scaling center_index row.i st.scaling_counter).2 := by
  unfold scan_row at h
  by_cases hd : row.d < pair_pot.cutoff
  · rw [if_pos hd] at h
    simp only [] at h
    have hsel : (select_scale center_index scaling st.scaling_counter row).2 = st.scaling_counter
        ∨ (select_scale center_index scaling st.scaling_counter row).2
            = (get_scaling scaling center_index row.i st.scaling_counter).2 := by
      unfold select_scale
      by_cases hh : row.r0 = 0 ∧ row.r1 = 0 ∧ row.r2 = 0
      · rw [if_pos hh]
        exact Or.inr rfl
      · rw [if_neg hh]
        exact Or.inl rfl
    by_cases hs : (select_scale center_index scaling st.scaling_counter row).1 > 0
    · rw [if_pos hs] at h
      cases hacc : accumulate center_index pair_pot st.energy st.gradient row
          (select_scale center_index scaling st.scaling_counter row).1 with
      | none => simp [hacc] at h
      | some eg =>
        rw [hacc] at h
        cases h
        exact hsel
    · rw [if_neg hs] at h
      cases h
      exact hsel
  · rw [if_neg hd] at h
    cases h
    exact Or.inl rfl

theorem scan_loop_counter {α : Type} [LinearOrderedField α] {D : Type} (center_index : Int)
    (scaling : List (scaling_row_type α)) (pair_pot : pair_pot_type α D)
    (nlist : List (nlist_row_type α)) (st st1 : scan_state α)
    (h : scan_loop center_index scaling pair_pot nlist st = some st1) :
    st.scaling_counter ≤ st1.scaling_counter
    ∧ (st.scaling_counter ≤ scaling.length → st1.scaling_counter ≤ scaling.length) := by
  induction nlist generalizing st with
  | nil =>
    simp only [scan_loop, Option.some.injEq] at h
    rw [h]
    exact ⟨le_refl _, fun h => h⟩
  | cons row rest ih =>
    simp only [scan_loop] at h
    cases hrow : scan_row center_index scaling pair_pot st row with
    | none => simp [hrow] at h
    | some st2 =>
      rw [hrow] at h
      obtain ⟨h1, h2⟩ := ih st2 h
      obtain ⟨g1, g2⟩ := get_scaling_bounds scaling center_index row.i st.scaling_counter
      rcases scan_row_counter center_index scaling pair_pot st st2 row hrow with hc | hc
      · rw [hc] at h1 h2
        exact ⟨h1, h2⟩
      · rw [hc] at h1 h2
        exact ⟨le_trans g1 h1, fun hle => h2 (g2 hle)⟩

theorem scan_loop_append {α : Type} [LinearOrderedField α] {D : Type} (center_index : Int)
    (scaling : List (scaling_row_type α)) (pair_pot : pair_pot_type α D)
    (l1 l2 : List (nlist_row_type α)) (st : scan_state α) :
    scan_loop center_index scaling pair_pot (l1 ++ l2) st
      = (scan_loop center_index scaling pair_pot l1 st).bind
          (scan_loop center_index scaling pair_pot l2) := by
  induction l1 generalizing st with
  | nil => rfl
  | cons row rest ih =>
    simp only [List.cons_append, scan_loop]
    cases scan_row center_index scaling pair_pot st row with
    | none => rfl
    | some st2 => exact ih st2

/-- C20 (scaling-cursor invariant): in a scan of any neighbour list against any
scaling list the counter starts at `0`; the counter after a part `nlist1` of the
scan is at most the counter after the longer part `nlist1 ++ nlist2`, which is
at most `scaling_size`; a row changes the counter only through `get_scaling`;
and every call of `get_scaling` with a counter `c ≤ scaling_size` returns a
counter between `c` and `scaling_size`, after at most `scaling_size - c`
evaluations of the loop condition and with every read `scaling[counter]` inside
the array. -/
theorem scaling_counter_invariant {α : Type} [LinearOrderedField α] {D : Type}
    (center_index : Int) (scaling : List (scaling_row_type α)) (pair_pot : pair_pot_type α D)
    (nlist1 nlist2 : List (nlist_row_type α)) (gradient : Option (Int → α))
    (st1 st2 : scan_state α)
    (h1 : scan_loop center_index scaling pair_pot nlist1
      { energy := 0, scaling_counter := 0, gradient := gradient } = some st1)
    (h2 : scan_loop center_index scaling pair_pot (nlist1 ++ nlist2)
      { energy := 0, scaling_counter := 0, gradient := gradient } = some st2) :
    st1.scaling_counter ≤ st2.scaling_counter
    ∧ st2.scaling_counter ≤ scaling.length
    ∧ (∀ (st st3 : scan_state α) (row : nlist_row_type α),
        scan_row center_index scaling pair_pot st row = some st3 →
        st3.scaling_counter = st.scaling_counter
        ∨ st3.scaling_counter = (get_scaling scaling center_index row.i st.scaling_counter).2)
    ∧ (∀ (o : Int) (c fuel : Nat), c ≤ scaling.length → scaling.length - c ≤ fuel →
        c ≤ (get_scaling scaling center_index o c).2
        ∧ (get_scaling scaling center_index o c).2 ≤ scaling.length
        ∧ get_scaling_raw scaling scaling.length center_index o fuel c
            = loop_result.done (get_scaling scaling center_index o c)) := by
  rw [scan_loop_append, h1] at h2
  simp only [Option.some_bind] at h2
  obtain ⟨a1, a2⟩ := scan_loop_counter center_index scaling pair_pot nlist1 _ st1 h1
  obtain ⟨b1, b2⟩ := scan_loop_counter center_index scaling pair_pot nlist2 st1 st2 h2
  refine ⟨b1, b2 (a2 (Nat.zero_le _)), ?_, ?_⟩
  · intro st st3 row h
    exact scan_row_counter center_index scaling pair_pot st st3 row h
  · intro o c fuel hc hf
    obtain ⟨g1, g2⟩ := get_scaling_bounds scaling center_index o c
    exact ⟨g1, g2 hc, get_scaling_raw_eq scaling center_index o fuel c hf⟩

theorem scan_loop_row_two :
    scan_loop 0 scaling_12 unit_pair_pot [home_row 2]
        { energy := 0, scaling_counter := 0, gradient := none }
      = some { energy := 1 / 2, scaling_counter := 1, gradient := none } := by
  unfold scan_loop scan_row select_scale get_scaling
  unfold get_scaling_while get_scaling_while
  norm_num [scan_loop, accumulate, pair_fn_call, unit_pair_pot, unit_pair_fn_ptr, unit_pair_fn,
    home_row, scaling_12]

theorem scan_loop_rows_two_one :
    scan_loop 0 scaling_12 unit_pair_pot ([home_row 2] ++ [home_row 1])
        { energy := 0, scaling_counter := 0, gradient := none }
      = some { energy := 3 / 2, scaling_counter := 1, gradient := none } := by
  rw [scan_loop_append, scan_loop_row_two]
  simp only [Option.some_bind]
  unfold scan_loop scan_row select_scale get_scaling get_scaling_while
  norm_num [scan_loop, accumulate, pair_fn_call, unit_pair_pot, unit_pair_fn_ptr, unit_pair_fn,
    home_row, scaling_12]

/-- C20 at a concrete input: the neighbour rows `2, 1` (not sorted) against the
scaling list `[(1, 0), (2, 1/2)]`; the counter is `1` after the first row and
`1` after both, and the list has `2` records. -/
theorem scaling_counter_invariant_witness :
    (1 : Nat) ≤ 1 ∧ (1 : Nat) ≤ scaling_12.length :=
  ⟨(scaling_counter_invariant 0 scaling_12 unit_pair_pot [home_row 2] [home_row 1] none
      { energy := 1 / 2, scaling_counter := 1, gradient := none }
      { energy := 3 / 2, scaling_counter := 1, gradient := none }
      scan_loop_row_two scan_loop_rows_two_one).1,
   (scaling_counter_invariant 0 scaling_12 unit_pair_pot [home_row 2] [home_row 1] none
      { energy := 1 / 2, scaling_counter := 1, gradient := none }
      { energy := 3 / 2, scaling_counter := 1, gradient := none }
      scan_loop_row_two scan_loop_rows_two_one).2.1⟩

/-! ## The scale used by the scan on sorted input -/

theorem scan_row_ready {α : Type} [LinearOrderedField α] {D : Type} (center_index : Int)
    (scaling : List (scaling_row_type α)) (pair_pot : pair_pot_type α D)
    (hready : pair_pot_ready pair_pot = true) (st : scan_state α) (row : nlist_row_type α) :
    ∃ st1, scan_row center_index scaling pair_pot st row = some st1 := by
  unfold scan_row
  by_cases hd : row.d < pair_pot.cutoff
  · rw [if_pos hd]
    simp only []
    by_cases hs : (select_scale center_index scaling st.scaling_counter row).1 > 0
    · rw [if_pos hs]
      unfold accumulate
      cases st.gradient with
      | none =>
        obtain ⟨r, hr⟩ := pair_fn_call_ready pair_pot hready center_index row.i row.d false
        simp only [hr]
        exact ⟨_, rfl⟩
      | some g =>
        obtain ⟨r, hr⟩ := pair_fn_call_ready pair_pot hready center_index row.i row.d true
        simp only [hr]
        exact ⟨_, rfl⟩
    · rw [if_neg hs]
      exact ⟨_, rfl⟩
  · rw [if_neg hd]
    exact ⟨_, rfl⟩

theorem scan_loop_ready {α : Type} [LinearOrderedField α] {D : Type} (center_index : Int)
    (scaling : List (scaling_row_type α)) (pair_pot : pair_pot_type α D)
    (hready : pair_pot_ready pair_pot = true) (nlist : List (nlist_row_type α))
    (st : scan_state α) :
    ∃ st1, scan_loop center_index scaling pair_pot nlist st = some st1 := by
  induction nlist generalizing st with
  | nil => exact ⟨st, rfl⟩
  | cons row rest ih =>
    obtain ⟨st2, h2⟩ := scan_row_ready center_index scaling pair_pot hready st row
    obtain ⟨st1, h1⟩ := ih st2
    exact ⟨st1, by simp only [scan_loop, h2, h1]⟩

theorem scan_loop_cursor_ok {α : Type} [LinearOrderedField α] {D : Type} (center_index : Int)
    (scaling : List (scaling_row_type α)) (hs : scaling.Pairwise (fun a b => a.i < b.i))
    (pair_pot : pair_pot_type α D) (o : Int) (nlist : List (nlist_row_type α))
    (hn : (nlist.filter (calls_get_scaling pair_pot.cutoff)).Pairwise (fun a b => a.i ≤ b.i))
    (ho : ∀ r ∈ nlist, calls_get_scaling pair_pot.cutoff r = true → r.i ≤ o)
    (st st1 : scan_state α)
    (hcur : ∀ r ∈ nlist, calls_get_scaling pair_pot.cutoff r = true →
      cursor_ok scaling st.scaling_counter r.i)
    (hcur_o : cursor_ok scaling st.scaling_counter o)
    (h : scan_loop center_index scaling pair_pot nlist st = some st1) :
    cursor_ok scaling st1.scaling_counter o := by
  induction nlist generalizing st with
  | nil =>
    simp only [scan_loop, Option.some.injEq] at h
    rw [← h]
    exact hcur_o
  | cons row rest ih =>
    simp only [scan_loop] at h
    obtain ⟨c1, hrow, hc1, hc2⟩ := scan_row_eq_lookup center_index scaling hs pair_pot st row
      (hcur row (List.mem_cons_self _ _))
    cases hst2 : scan_row center_index scaling pair_pot st row with
    | none => simp [hst2] at h
    | some st2 =>
      rw [hst2] at h
      have hcnt : st2.scaling_counter = c1 := by
        rw [hst2] at hrow
        cases hl : scan_row_by_lookup center_index scaling pair_pot (st.energy, st.gradient) row with
        | none => simp [hl] at hrow
        | some eg =>
          rw [hl] at hrow
          simp only [Option.map_some', Option.some.injEq] at hrow
          rw [hrow]
      have hrest : (rest.filter (calls_get_scaling pair_pot.cutoff)).Pairwise
          (fun a b => a.i ≤ b.i) :=
        hn.sublist ((List.sublist_cons_self row rest).filter _)
      have hkey : ∀ x : Int,
          (calls_get_scaling pair_pot.cutoff row = true → row.i ≤ x) →
          cursor_ok scaling st.scaling_counter x → cursor_ok scaling st2.scaling_counter x := by
        intro x hx hok
        rw [hcnt]
        cases hrc : calls_get_scaling pair_pot.cutoff row with
        | false =>
          rw [hc2 hrc]
          exact hok
        | true => exact cursor_ok_mono scaling c1 row.i x (hc1 hrc) (hx hrc)
      apply ih hrest (fun r hr => ho r (List.mem_cons_of_mem _ hr)) st2
      · intro r hr hcall
        apply hkey r.i _ (hcur r (List.mem_cons_of_mem _ hr) hcall)
        intro hrc
        rw [List.filter_cons_of_pos hrc, List.pairwise_cons] at hn
        exact hn.1 r (List.mem_filter.2 ⟨hr, hcall⟩)
      · exact hkey o (ho row (List.mem_cons_self _ _)) hcur_o
      · exact h

/-- C21 (scale lookup on sorted input): when the scaling list is strictly
ascending in its index and the home-image rows of the neighbour list within the
cutoff come in non-decreasing order of `other_index`, the scan on a ready
descriptor reaches every such row, and the scale it finds for the row is `0`
when `other_index = center_index`, otherwise the scale of the scaling record
with that index when there is one, and `1` when there is none. -/
theorem select_scale_sorted {α : Type} [LinearOrderedField α] {D : Type} (center_index : Int)
    (scaling : List (scaling_row_type α)) (pair_pot : pair_pot_type α D)
    (nlist1 nlist2 : List (nlist_row_type α)) (row : nlist_row_type α)
    (gradient : Option (Int → α))
    (hs : scaling.Pairwise (fun a b => a.i < b.i))
    (hn : ((nlist1 ++ row :: nlist2).filter (calls_get_scaling pair_pot.cutoff)).Pairwise
      (fun a b => a.i ≤ b.i))
    (hready : pair_pot_ready pair_pot = true)
    (hrow : row.d < pair_pot.cutoff ∧ row.r0 = 0 ∧ row.r1 = 0 ∧ row.r2 = 0) :
    ∃ st1, scan_loop center_index scaling pair_pot nlist1
        { energy := 0, scaling_counter := 0, gradient := gradient } = some st1
      ∧ (row.i = center_index →
          (select_scale center_index scaling st1.scaling_counter row).1 = 0)
      ∧ (row.i ≠ center_index → ∀ r ∈ scaling, r.i = row.i →
          (select_scale center_index scaling st1.scaling_counter row).1 = r.scale)
      ∧ (row.i ≠ center_index → (∀ r ∈ scaling, r.i ≠ row.i) →
          (select_scale center_index scaling st1.scaling_counter row).1 = 1) := by
  obtain ⟨st1, h1⟩ := scan_loop_ready center_index scaling pair_pot hready nlist1
    { energy := 0, scaling_counter := 0, gradient := gradient }
  have hcall : calls_get_scaling pair_pot.cutoff row = true := by
    simp [calls_get_scaling, hrow.1, hrow.2]
  have hfil : (nlist1 ++ row :: nlist2).filter (calls_get_scaling pair_pot.cutoff)
      = nlist1.filter (calls_get_scaling pair_pot.cutoff)
        ++ row :: nlist2.filter (calls_get_scaling pair_pot.cutoff) := by
    rw [List.filter_append, List.filter_cons_of_pos hcall]
  rw [hfil, List.pairwise_append] at hn
  have hok : cursor_ok scaling st1.scaling_counter row.i := by
    apply scan_loop_cursor_ok center_index scaling hs pair_pot row.i nlist1 hn.1 _ _ st1 _ _ h1
    · intro r hr hc
      exact hn.2.2 r (List.mem_filter.2 ⟨hr, hc⟩) row (List.mem_cons_self _ _)
    · intro r _ _ x hx
      simp at hx
    · intro x hx
      simp at hx
  obtain ⟨hval, _, _⟩ := get_scaling_spec scaling hs center_index row.i st1.scaling_counter hok
  have hsel : (select_scale center_index scaling st1.scaling_counter row).1
      = (if row.i = center_index then 0 else scaling_lookup scaling row.i) := by
    simp only [select_scale, if_pos hrow.2, hval]
  refine ⟨st1, h1, ?_, ?_, ?_⟩
  · intro hc
    rw [hsel, if_pos hc]
  · intro hc r hr hri
    rw [hsel, if_neg hc, ← hri]
    exact scaling_lookup_mem scaling hs r hr
  · intro hc hnone
    rw [hsel, if_neg hc]
    exact scaling_lookup_of_ne scaling row.i hnone

/-- C21 at a concrete input: the rows `1, 2` against the scaling list
`[(1, 0), (2, 1/2)]`, centre `0`; the scale found for the row of atom `2` is
that of the record `(2, 1/2)`. -/
theorem select_scale_sorted_witness :
    ∃ st1, scan_loop 0 scaling_12 unit_pair_pot [home_row 1]
        { energy := 0, scaling_counter := 0, gradient := none } = some st1
      ∧ (select_scale 0 scaling_12 st1.scaling_counter (home_row 2)).1 = 1 / 2 := by
  obtain ⟨st1, h1, _, h3, _⟩ := select_scale_sorted 0 scaling_12 unit_pair_pot [home_row 1] []
    (home_row 2) none (by simp [scaling_12])
    (by simp [calls_get_scaling, home_row, unit_pair_pot]) rfl
    (by norm_num [home_row, unit_pair_pot])
  exact ⟨st1, h1, h3 (by simp [home_row]) { i := 2, scale := 1 / 2 } (by simp [scaling_12]) rfl⟩

/-! ## The energy with and without a gradient buffer -/

theorem scan_row_energy_flag {α : Type} [LinearOrderedField α] {D : Type} (center_index : Int)
    (scaling : List (scaling_row_type α)) (pair_pot : pair_pot_type α D)
    (hk : ∀ (c o : Int) (d : α),
      (pair_fn_call pair_pot c o d false).map Prod.fst
        = (pair_fn_call pair_pot c o d true).map Prod.fst)
    (energy : α) (counter : Nat) (g : Int → α) (row : nlist_row_type α) :
    (scan_row center_index scaling pair_pot
        { energy := energy, scaling_counter := counter, gradient := none } row = none
      ∧ scan_row center_index scaling pair_pot
        { energy := energy, scaling_counter := counter, gradient := some g } row = none)
    ∨ ∃ (energy1 : α) (counter1 : Nat) (g1 : Int → α),
      scan_row center_index scaling pair_pot
          { energy := energy, scaling_counter := counter, gradient := none } row
        = some { energy := energy1, scaling_counter := counter1, gradient := none }
      ∧ scan_row center_index scaling pair_pot
          { energy := energy, scaling_counter := counter, gradient := some g } row
        = some { energy := energy1, scaling_counter := counter1, gradient := some g1 } := by
  unfold scan_row
  by_cases hd : row.d < pair_pot.cutoff
  · simp only [if_pos hd]
    by_cases hs : (select_scale center_index scaling counter row).1 > 0
    · simp only [if_pos hs]
      unfold accumulate
      simp only []
      have h := hk center_index row.i row.d
      cases hf : pair_fn_call pair_pot center_index row.i row.d false with
      | none =>
        rw [hf] at h
        cases ht : pair_fn_call pair_pot center_index row.i row.d true with
        | none => exact Or.inl ⟨rfl, rfl⟩
        | some r => simp [ht] at h
      | some r =>
        rw [hf] at h
        cases ht : pair_fn_call pair_pot center_index row.i row.d true with
        | none => simp [ht] at h
        | some r1 =>
          rw [ht] at h
          simp only [Option.map_some', Option.some.injEq] at h
          refine Or.inr ⟨energy + (select_scale center_index scaling counter row).1 * r.1,
            (select_scale center_index scaling counter row).2,
            scatter_pair g center_index row.i row
              (r1.2 * (select_scale center_index scaling counter row).1), rfl, ?_⟩
          simp only [h]
    · simp only [if_neg hs]
      exact Or.inr ⟨_, _, g, rfl, rfl⟩
  · simp only [if_neg hd]
    exact Or.inr ⟨_, _, g, rfl, rfl⟩

theorem scan_loop_energy_flag {α : Type} [LinearOrderedField α] {D : Type} (center_index : Int)
    (scaling : List (scaling_row_type α)) (pair_pot : pair_pot_type α D)
    (hk : ∀ (c o : Int) (d : α),
      (pair_fn_call pair_pot c o d false).map Prod.fst
        = (pair_fn_call pair_pot c o d true).map Prod.fst)
    (nlist : List (nlist_row_type α)) (energy : α) (counter : Nat) (g : Int → α) :
    (scan_loop center_index scaling pair_pot nlist
        { energy := energy, scaling_counter := counter, gradient := none }).map
        (fun st => st.energy)
      = (scan_loop center_index scaling pair_pot nlist
        { energy := energy, scaling_counter := counter, gradient := some g }).map
        (fun st => st.energy) := by
  induction nlist generalizing energy counter g with
  | nil => rfl
  | cons row rest ih =>
    simp only [scan_loop]
    rcases scan_row_energy_flag center_index scaling pair_pot hk energy counter g row with
      ⟨h1, h2⟩ | ⟨e1, c1, g1, h1, h2⟩
    · rw [h1, h2]
    · rw [h1, h2]
      exact ih e1 c1 g1

theorem pair_pot_energy_flag {α : Type} [LinearOrderedField α] {D : Type} (center_index : Int)
    (nlist : List (nlist_row_type α)) (scaling : List (scaling_row_type α))
    (pair_pot : pair_pot_type α D)
    (hk : ∀ (c o : Int) (d : α),
      (pair_fn_call pair_pot c o d false).map Prod.fst
        = (pair_fn_call pair_pot c o d true).map Prod.fst)
    (g : Int → α) :
    (pair_pot_energy_gradient center_index nlist scaling pair_pot none).map Prod.fst
      = (pair_pot_energy_gradient center_index nlist scaling pair_pot (some g)).map Prod.fst := by
  have h := scan_loop_energy_flag center_index scaling pair_pot hk nlist 0 0 g
  unfold pair_pot_energy_gradient
  cases h1 : scan_loop center_index scaling pair_pot nlist
      { energy := 0, scaling_counter := 0, gradient := none } with
  | none =>
    rw [h1] at h
    cases h2 : scan_loop center_index scaling pair_pot nlist
        { energy := 0, scaling_counter := 0, gradient := some g } with
    | none => rfl
    | some st2 => simp [h2] at h
  | some st1 =>
    rw [h1] at h
    cases h2 : scan_loop center_index scaling pair_pot nlist
        { energy := 0, scaling_counter := 0, gradient := some g } with
    | none => simp [h2] at h
    | some st2 =>
      rw [h2] at h
      simp only [Option.map_some', Option.some.injEq] at h
      simp only [Option.map_some', h]

/-- C22 (the energy does not depend on whether forces are requested): for every
centre, neighbour list and scaling list, on a descriptor whose kernel is
`pair_fn_lj` and on one whose kernel is `pair_fn_ei` (as `pair_data_lj_init`
and `pair_data_ei_init` attach them), the scan returns the same energy with
`gradient = NULL` as with a gradient buffer (and has a result in the one case
exactly when it has one in the other). -/
theorem pair_pot_energy_gradient_energy_flag (center_index : Int)
    (nlist : List (nlist_row_type ℝ)) (scaling : List (scaling_row_type ℝ))
    (pair_pot_lj : pair_pot_type ℝ pair_data_lj_type)
    (pair_pot_ei : pair_pot_type ℝ pair_data_ei_type) (gradient : Int → ℝ)
    (hlj : pair_pot_lj.pair_fn = some { on_data := pair_fn_lj, on_null := none })
    (hei : pair_pot_ei.pair_fn = some { on_data := pair_fn_ei, on_null := none }) :
    (pair_pot_energy_gradient center_index nlist scaling pair_pot_lj none).map Prod.fst
        = (pair_pot_energy_gradient center_index nlist scaling pair_pot_lj
            (some gradient)).map Prod.fst
    ∧ (pair_pot_energy_gradient center_index nlist scaling pair_pot_ei none).map Prod.fst
        = (pair_pot_energy_gradient center_index nlist scaling pair_pot_ei
            (some gradient)).map Prod.fst := by
  constructor
  · apply pair_pot_energy_flag
    intro c o d
    unfold pair_fn_call
    rw [hlj]
    cases pair_pot_lj.pair_data with
    | none => rfl
    | some data => rfl
  · apply pair_pot_energy_flag
    intro c o d
    unfold pair_fn_call
    rw [hei]
    cases pair_pot_ei.pair_data with
    | none => rfl
    | some data => rfl

theorem lj_pair_pot_energy :
    pair_pot_energy_gradient 0 [real_home_row 1] [] lj_pair_pot none = some (16128, none) := by
  unfold pair_pot_energy_gradient scan_loop scan_row select_scale get_scaling
  norm_num [scan_loop, accumulate, pair_fn_call, lj_pair_pot, pair_pot_set_cutoff,
    pair_data_lj_init, pair_pot_new, pair_fn_lj, real_home_row]

theorem ei_pair_pot_energy :
    pair_pot_energy_gradient 0 [real_home_row 1] [] ei_pair_pot none = some (1, none) := by
  unfold pair_pot_energy_gradient scan_loop scan_row select_scale get_scaling
  norm_num [scan_loop, accumulate, pair_fn_call, ei_pair_pot, pair_pot_set_cutoff,
    pair_data_ei_init, pair_pot_new, pair_fn_ei, real_home_row]

/-- C22 at a concrete input: descriptors made by `pair_data_lj_init`
(`sigma = 2`, `epsilon = 1`) and `pair_data_ei_init` (unit charges, `alpha = 0`)
with the cutoff set to `2`, and one neighbour row at distance `1`, inside the
cutoff. The kernels are run: the energies are `16128` and `1`, with and without
a gradient buffer. -/
theorem pair_pot_energy_gradient_energy_flag_witness :
    ((pair_pot_energy_gradient 0 [real_home_row 1] [] lj_pair_pot none).map Prod.fst
        = (pair_pot_energy_gradient 0 [real_home_row 1] [] lj_pair_pot
            (some (fun _ => 0))).map Prod.fst
      ∧ (pair_pot_energy_gradient 0 [real_home_row 1] [] ei_pair_pot none).map Prod.fst
        = (pair_pot_energy_gradient 0 [real_home_row 1] [] ei_pair_pot
            (some (fun _ => 0))).map Prod.fst)
    ∧ (pair_pot_energy_gradient 0 [real_home_row 1] [] lj_pair_pot
          (some (fun _ => 0))).map Prod.fst = some 16128
    ∧ (pair_pot_energy_gradient 0 [real_home_row 1] [] ei_pair_pot
          (some (fun _ => 0))).map Prod.fst = some 1 := by
  have h := pair_pot_energy_gradient_energy_flag 0 [real_home_row 1] [] lj_pair_pot ei_pair_pot
    (fun _ => 0) rfl rfl
  refine ⟨h, ?_, ?_⟩
  · rw [← h.1, lj_pair_pot_energy]
    rfl
  · rw [← h.2, ei_pair_pot_energy]
    rfl

/-! ## The dihedral cosine -/

theorem sqrt_zero_zero_two : Real.sqrt (0 * 0 + 0 * 0 + 2 * 2) = 2 := by
  rw [show (0 : ℝ) * 0 + 0 * 0 + 2 * 2 = 2 ^ 2 by norm_num]
  exact Real.sqrt_sq (by norm_num)

theorem dihed_deltas_back_divisors :
    ∀ ic ∈ iclist_forward dihed_deltas [bond_row, bend_cos_row, dihed_cos_row],
      ∀ y ∈ ic_back_divisors ic.kind ic dihed_deltas ic.value ic.grad, y ≠ 0 := by
  have e10 : ¬ ((1 : Int) = 0) := by decide
  have e20 : ¬ ((2 : Int) = 0) := by decide
  have e21 : ¬ ((2 : Int) = 1) := by decide
  have hs : Real.sqrt (1 * 1 + 0 * 0 + 1 * 1) ≠ 0 :=
    Real.sqrt_ne_zero'.2 (by norm_num)
  intro ic hic
  unfold iclist_forward at hic
  simp only [List.map_cons, List.map_nil, List.mem_cons, List.mem_singleton,
    List.not_mem_nil, or_false] at hic
  rcases hic with h | h | h
  · rw [h]
    show ∀ y ∈ [forward_bond bond_row dihed_deltas], y ≠ 0
    unfold forward_bond
    simp only [bond_row, dihed_deltas, if_pos, List.mem_singleton]
    intro y hy
    rw [hy]
    exact hs
  · rw [h]
    show ∀ y ∈ back_bend_cos_divisors bend_cos_row dihed_deltas
      (forward_bend_cos bend_cos_row dihed_deltas) 0, y ≠ 0
    unfold back_bend_cos_divisors
    simp only [bend_cos_row, dihed_deltas, if_pos, if_neg e10, sqrt_zero_zero_two,
      List.mem_cons, List.mem_singleton, List.not_mem_nil, or_false]
    intro y hy
    rcases hy with hy | hy
    · rw [hy]
      exact hs
    · rw [hy]
      norm_num
  · rw [h]
    show ∀ y ∈ back_dihed_cos_divisors dihed_cos_row dihed_deltas
      (forward_dihed_cos dihed_cos_row dihed_deltas) 0, y ≠ 0
    unfold back_dihed_cos_divisors
    simp only [dihed_cos_row, dihed_deltas, if_pos, if_neg e10, if_neg e20, if_neg e21,
      sqrt_zero_zero_two, List.mem_cons, List.mem_singleton, List.not_mem_nil, or_false]
    have h25 : Real.sqrt 25 = 5 := by
      rw [show (25 : ℝ) = 5 ^ 2 by norm_num]
      exact Real.sqrt_sq (by norm_num)
    intro y hy
    rcases hy with hy | hy | hy | hy
    · rw [hy]
      norm_num
    · rw [hy]
      norm_num
    · rw [hy]
      norm_num [h25]
    · rw [hy]
      norm_num

/-- C11 at a concrete input: a bond on `(1,0,1)`, a bend cosine on `(1,0,1)`,
`(0,0,2)` and a dihedral cosine on `(1,0,1)`, `(0,0,2)`, `(3,4,5)`; no divisor
of a back kernel is zero, and the back pass gives back the table. -/
theorem iclist_back_after_forward_witness :
    iclist_back_checked dihed_deltas
        (iclist_forward dihed_deltas [bond_row, bend_cos_row, dihed_cos_row])
      = some dihed_deltas :=
  (iclist_back_after_forward dihed_deltas [bond_row, bend_cos_row, dihed_cos_row]
    dihed_deltas_back_divisors).1

/-! ## The arguments of sqrt and acos in double precision -/

/-- The double arithmetic on well-known values: `1/10` is
`0x1.999999999999ap-4`, `1/3` is `0x1.5555555555555p-2`, `0.1 + 0.2` is
`0x1.3333333333334p-2` (the double `0.30000000000000004`), the square root of
`2` is `0x1.6a09e667f3bcdp+0`, and `sqrt(-1)` and `0/0` are NaN. -/
theorem double_examples :
    (1 / 10 : double) = double.fin 0x1999999999999a (-56)
    ∧ (1 / 3 : double) = double.fin 0x15555555555555 (-54)
    ∧ (1 / 10 + 2 / 10 : double) = double.fin 0x13333333333334 (-54)
    ∧ double_sqrt 2 = double.fin 0x16a09e667f3bcd (-52)
    ∧ double_sqrt (-1) = double.nan
    ∧ (0 / 0 : double) = double.nan := by
  decide

set_option maxRecDepth 100000 in
/-- C15, the code at the failing input: for two displacements `(1, 0, 5)` and
signs `+1` the norms are both `sqrt(26) = 0x1.465655f122ff6p+2`, the dot
product is `26`, and `26/d0/d1` in double arithmetic is
`0x1.0000000000001p+0 = 1.0000000000000002`, which is what `forward_bend_cos`
returns. `forward_bend_angle` passes it to `acos` as it is; it is greater than
`1`, so `acos` is not defined there (it returns NaN). With the guard of
`forward_dihed_angle` and `forward_oop_angle` the argument would have been
`1`. -/
theorem forward_bend_angle_acos_out_of_domain :
    double_sqrt (1 * 1 + 0 * 0 + 5 * 5) = double.fin 0x1465655f122ff6 (-50)
    ∧ forward_bend_cos_double bend_angle_row bend_deltas_double = double.fin (2 ^ 52 + 1) (-52)
    ∧ forward_bend_angle_acos_arg bend_angle_row bend_deltas_double
        = double.fin (2 ^ 52 + 1) (-52)
    ∧ double_lt 1 (forward_bend_angle_acos_arg bend_angle_row bend_deltas_double) = true
    ∧ acos_defined (forward_bend_angle_acos_arg bend_angle_row bend_deltas_double) = false
    ∧ clamp_cos_double (forward_bend_cos_double bend_angle_row bend_deltas_double) = 1
    ∧ acos_defined (clamp_cos_double (forward_bend_cos_double bend_angle_row bend_deltas_double))
        = true := by
  decide

set_option maxRecDepth 100000 in
/-- C14, the code at the failing input: for the displacements `(0.1, 0, 0)`,
`(0, 0.5, 0)`, `(0, 0, 1.7)` the argument `1.0 - tmp1*tmp1/tmp0/n_sq` of the
`sqrt` in `forward_oop_cos` is `-2^-52` (about `-2.2e-16`) in double
arithmetic: it is negative, `forward_oop_cos` returns NaN, the guard of
`forward_oop_angle`, which comes after the `sqrt`, leaves NaN as it is, and
`acos` is called on NaN. The same holds, without any rounding, for the
displacements `(1, 0, 0)`, `(1, 0, 0)`, `(0, 0, 1)`, whose `n_sq` is `0`: the
argument of `sqrt` is `1.0 - 0/0`, which is NaN. -/
theorem forward_oop_cos_sqrt_negative :
    forward_oop_cos_sqrt_arg oop_cos_row oop_deltas_double = double.fin (-(2 ^ 52)) (-104)
    ∧ double_lt (forward_oop_cos_sqrt_arg oop_cos_row oop_deltas_double) 0 = true
    ∧ forward_oop_cos_double oop_cos_row oop_deltas_double = double.nan
    ∧ forward_oop_angle_acos_arg oop_angle_row oop_deltas_double = double.nan
    ∧ acos_defined (forward_oop_angle_acos_arg oop_angle_row oop_deltas_double) = false
    ∧ forward_oop_cos_sqrt_arg oop_cos_row parallel_deltas_double = double.nan
    ∧ forward_oop_cos_double oop_cos_row parallel_deltas_double = double.nan
    ∧ acos_defined (forward_oop_angle_acos_arg oop_angle_row parallel_deltas_double) = false := by
  decide

end Yaff
